import Mathlib

/-!
# F103-Slave-v2: CAN frame queues, identifier codec, feedback and retry

A shallow embedding of the communication core of the firmware
(`Basic CANbus Library/bxCANlib.c`, `Extention CANbus Library/CANSlavelib.c`,
`Extention CANbus Library/CANConfig.h`) and of the parts of its sensor drivers
the core relies on (`Sensor Library/EncoderPosition.c`, `Sensor Library/IMU.c`),
together with the properties proved about them.

Conventions of the embedding

* `uint8_t`, `uint16_t`, `uint32_t` values are natural numbers; every C operation
  that can leave the range is followed by an explicit `% 2^w`.
* `int8_t` values are integers; a store into an `int8_t` field goes through
  `toInt8` (two's complement wrap, as the ARM compilers do).
* C's `%` on `int` truncates towards zero: `Int.tmod`.
* Undefined behaviour (a division by zero, an array access outside the
  allocated block, a read through a null pointer) makes the embedded function
  return `none`.
* The two queue families of `bxCANlib.c` (`CAN_TxQueue`/`CAN_RxQueue`) are the
  same text up to the element type; they are embedded once, generically in the
  element type, and instantiated under their source names.
-/

namespace F103Slave

/-! ## Machine integers -/

/-- Store of an `int` value into an `int8_t` object. -/
def toInt8 (x : Int) : Int := (x + 128) % 256 - 128

/-- Store of a value into a `uint8_t` object. -/
def toUInt8 (x : Nat) : Nat := x % 256

/-- Store of a value into a `uint16_t` object. -/
def toUInt16 (x : Nat) : Nat := x % 65536

/-- Store of a value into a `uint32_t` object. -/
def toUInt32 (x : Nat) : Nat := x % 4294967296

/-! ## Constants of `CANConfig.h` -/

def CAN_QUEUE_CAPACITY : Nat := 4

def IMU_ID : Nat := 0x00
def ENC_ID : Nat := 0x01

def IMU_DATA : Nat := 0x0A
def ENC_DATA : Nat := 0x0A

def IMU_DATA_DLC : Nat := 0x06
def ENC_DATA_DLC : Nat := 0x08

def START_ID : Nat := 0x00
def RESET_ID : Nat := 0x01
def STOP_ID : Nat := 0x02
def ENC_ASSIGN_ID : Nat := 0x03

def START_DLC : Nat := 0x02
def RESET_DLC : Nat := 0x00
def STOP_DLC : Nat := 0x00
def ENC_ASSIGN_DLC : Nat := 0x08

def START_FB_ID : Nat := 0x00
def RESET_FB_ID : Nat := 0x01
def STOP_FB_ID : Nat := 0x02
def ASSIGN_FB_ID : Nat := 0x03

def START_FB_DLC : Nat := 0x02
def RESET_FB_DLC : Nat := 0x00
def STOP_FB_DLC : Nat := 0x00
def ASSIGN_FB_DLC : Nat := 0x08

def ERROR_ID : Nat := 0x0B
def ERROR_DLC : Nat := 0x00

/-! ## Constants of the STM32F1 HAL headers

`stm32f1xx_hal.h` is included by the sources but is not part of them; the values
below are the ones of the STM32F1 HAL (`stm32f1xx_hal_def.h`,
`stm32f1xx_hal_can.h`, `stm32f103xb.h`). -/

/-- Modelled from the spec: the HAL status code `HAL_OK` of the absent header
`stm32f1xx_hal_def.h` (the "ok" outcome of the hardware transmit). -/
def HAL_OK : Nat := 0
/-- Modelled from the spec: the HAL status code `HAL_ERROR`. -/
def HAL_ERROR : Nat := 1
/-- Modelled from the spec: the HAL status code `HAL_BUSY`, which
`get_Empty_Mailbox` returns when no transmit slot is free. -/
def HAL_BUSY : Nat := 2
/-- Modelled from the spec: the HAL status code `HAL_TIMEOUT`. -/
def HAL_TIMEOUT : Nat := 3

/-- Modelled from the spec: identifier of hardware transmit slot 0
(`stm32f1xx_hal_can.h`). -/
def CAN_TX_MAILBOX0 : Nat := 0x1
/-- Modelled from the spec: identifier of hardware transmit slot 1. -/
def CAN_TX_MAILBOX1 : Nat := 0x2
/-- Modelled from the spec: identifier of hardware transmit slot 2. -/
def CAN_TX_MAILBOX2 : Nat := 0x4

/-- Modelled from the spec: "slot 0 is free" bit of the transmit status
register (`stm32f103xb.h`). -/
def CAN_TSR_TME0 : Nat := 0x04000000
/-- Modelled from the spec: "slot 1 is free" bit of the transmit status register. -/
def CAN_TSR_TME1 : Nat := 0x08000000
/-- Modelled from the spec: "slot 2 is free" bit of the transmit status register. -/
def CAN_TSR_TME2 : Nat := 0x10000000

/-- Modelled from the spec: `CAN_ID_STD` (standard identifier flag). -/
def CAN_ID_STD : Nat := 0
/-- Modelled from the spec: `CAN_RTR_DATA` (data frame flag). -/
def CAN_RTR_DATA : Nat := 0
/-- Modelled from the spec: `DISABLE` of `FunctionalState`. -/
def DISABLE : Nat := 0

/-! ## Frames -/

/-- Transmit header, with the fields `CAN_TxHeader_Init` and `CAN_TxHeader_Copy`
assign. -/
structure CAN_TxHeaderTypeDef where
  StdId : Nat
  ExtId : Nat
  IDE : Nat
  RTR : Nat
  DLC : Nat
  TransmitGlobalTime : Nat
deriving DecidableEq, Repr

/-- Receive header, with the fields `CAN_RxHeader_Copy` assign and the HAL's
`FilterMatchIndex`, which the sources never name. -/
structure CAN_RxHeaderTypeDef where
  StdId : Nat
  ExtId : Nat
  IDE : Nat
  RTR : Nat
  DLC : Nat
  Timestamp : Nat
  FilterMatchIndex : Nat
deriving DecidableEq, Repr

/-- An object of type `uint8_t[8]`: the payload of a frame. -/
structure CAN_Data where
  d0 : Nat
  d1 : Nat
  d2 : Nat
  d3 : Nat
  d4 : Nat
  d5 : Nat
  d6 : Nat
  d7 : Nat
deriving DecidableEq, Repr

/-- The eight bytes of a payload, in index order. -/
def CAN_Data.bytes (d : CAN_Data) : List Nat :=
  [d.d0, d.d1, d.d2, d.d3, d.d4, d.d5, d.d6, d.d7]

/-- The struct `CAN_TxMessage` of `bxCANlib.h`. -/
structure CAN_TxMessage where
  TxHeader : CAN_TxHeaderTypeDef
  txdata : CAN_Data
deriving DecidableEq, Repr

/-- The struct `CAN_RxMessage` of `bxCANlib.h`. -/
structure CAN_RxMessage where
  RxHeader : CAN_RxHeaderTypeDef
  rxdata : CAN_Data
deriving DecidableEq, Repr

/-- The function `CAN_TxHeader_Init` of `bxCANlib.c`. -/
def CAN_TxHeader_Init (_TxHeader : CAN_TxHeaderTypeDef) (StdId DLC : Nat) :
    CAN_TxHeaderTypeDef :=
  { DLC := DLC
    ExtId := 0
    IDE := CAN_ID_STD
    RTR := CAN_RTR_DATA
    StdId := StdId
    TransmitGlobalTime := DISABLE }

/-- The function `get_Empty_Mailbox` of `bxCANlib.c`; `TSR` is the value read
from `CAN1->TSR`. -/
def get_Empty_Mailbox (TSR : Nat) : Nat :=
  if TSR &&& CAN_TSR_TME0 ≠ 0 then CAN_TX_MAILBOX0
  else if TSR &&& CAN_TSR_TME1 ≠ 0 then CAN_TX_MAILBOX1
  else if TSR &&& CAN_TSR_TME2 ≠ 0 then CAN_TX_MAILBOX2
  else HAL_BUSY

/-- The function `CAN_TxHeader_Copy` of `bxCANlib.c`. -/
def CAN_TxHeader_Copy (_TxHeader : CAN_TxHeaderTypeDef)
    (TxHeader_Sample : CAN_TxHeaderTypeDef) : CAN_TxHeaderTypeDef :=
  { DLC := TxHeader_Sample.DLC
    ExtId := TxHeader_Sample.ExtId
    IDE := TxHeader_Sample.IDE
    RTR := TxHeader_Sample.RTR
    StdId := TxHeader_Sample.StdId
    TransmitGlobalTime := TxHeader_Sample.TransmitGlobalTime }

/-- The function `CAN_RxHeader_Copy` of `bxCANlib.c`; the destination keeps its
`FilterMatchIndex`. -/
def CAN_RxHeader_Copy (RxHeader : CAN_RxHeaderTypeDef)
    (RxHeader_Sample : CAN_RxHeaderTypeDef) : CAN_RxHeaderTypeDef :=
  { RxHeader with
    DLC := RxHeader_Sample.DLC
    ExtId := RxHeader_Sample.ExtId
    IDE := RxHeader_Sample.IDE
    RTR := RxHeader_Sample.RTR
    StdId := RxHeader_Sample.StdId
    Timestamp := RxHeader_Sample.Timestamp }

/-- The function `CAN_Data_Copy` of `bxCANlib.c`. -/
def CAN_Data_Copy (_Data : CAN_Data) (Data_Sample : CAN_Data) : CAN_Data :=
  { d0 := Data_Sample.d0
    d1 := Data_Sample.d1
    d2 := Data_Sample.d2
    d3 := Data_Sample.d3
    d4 := Data_Sample.d4
    d5 := Data_Sample.d5
    d6 := Data_Sample.d6
    d7 := Data_Sample.d7 }

/-! ## Queues (`bxCANlib.c`, "CANbus Queue Functions") -/

/-- The structs `CAN_TxQueue` and `CAN_RxQueue` of `bxCANlib.h`. `front` and
`rear` are `int8_t`, `used`, `capacity` and `is_create` are `uint8_t`; `Message`
is the block the pointer field (`TxMessage`, resp. `RxMessage`) refers to, the
empty list for a null pointer. -/
structure CAN_Queue (α : Type) where
  front : Int
  rear : Int
  used : Nat
  capacity : Nat
  is_create : Nat
  Message : List α
deriving DecidableEq, Repr

abbrev CAN_TxQueue := CAN_Queue CAN_TxMessage
abbrev CAN_RxQueue := CAN_Queue CAN_RxMessage

/-- The block `malloc` returns for `n` elements; `junk` gives its contents,
which C leaves indeterminate. -/
def malloc {α : Type} (n : Nat) (junk : Nat → α) : List α :=
  (List.range n).map junk

/-- The functions `CAN_Create_TxQueue` and `CAN_Create_RxQueue`. The parameter
`capacity` is a `uint8_t`. -/
def CAN_Create_Queue {α : Type} (queue : CAN_Queue α) (capacity : Nat)
    (junk : Nat → α) : CAN_Queue α :=
  { queue with
    front := 0
    rear := toInt8 (-1)
    used := 0
    capacity := toUInt8 capacity
    Message := malloc (toUInt8 capacity) junk }

/-- The functions `CAN_If_TxQueue_notCreate` and `CAN_If_RxQueue_notCreate`. -/
def CAN_If_Queue_notCreate {α : Type} (queue : CAN_Queue α) (junk : Nat → α) :
    CAN_Queue α :=
  if queue.is_create = 0 then
    { CAN_Create_Queue queue CAN_QUEUE_CAPACITY junk with is_create := 1 }
  else queue

/-- The functions `CAN_TxQueue_isEmpty` and `CAN_RxQueue_isEmpty`. -/
def CAN_Queue_isEmpty {α : Type} (queue : CAN_Queue α) : Nat :=
  if queue.used = 0 then 1 else 0

/-- The functions `CAN_TxQueue_isFull` and `CAN_RxQueue_isFull`. -/
def CAN_Queue_isFull {α : Type} (queue : CAN_Queue α) : Nat :=
  if queue.used = queue.capacity then 1 else 0

/-- The array access `queue->Message[i]` for a signed index `i`. -/
def readAt {α : Type} (queue : CAN_Queue α) (i : Int) : Option α :=
  if 0 ≤ i then queue.Message[i.toNat]? else none

/-- The functions `CAN_TxQueue_getFront` and `CAN_RxQueue_getFront`. -/
def CAN_Queue_getFront {α : Type} (queue : CAN_Queue α) : Option α :=
  readAt queue queue.front

/-- The functions `CAN_TxQueue_getRear` and `CAN_RxQueue_getRear`. -/
def CAN_Queue_getRear {α : Type} (queue : CAN_Queue α) : Option α :=
  readAt queue queue.rear

/-- The functions `CAN_EnTxQueue` and `CAN_EnRxQueue`: the new queue and the
returned `int`. -/
def CAN_EnQueue {α : Type} (queue : CAN_Queue α) (item : α) :
    Option (CAN_Queue α × Int) :=
  if CAN_Queue_isFull queue ≠ 0 then some (queue, -1)
  else if queue.capacity = 0 then none
  else
    let rear := toInt8 ((queue.rear + 1).tmod (queue.capacity : Int))
    if 0 ≤ rear ∧ rear.toNat < queue.Message.length then
      some ({ queue with
              rear := rear
              Message := queue.Message.set rear.toNat item
              used := toUInt8 (queue.used + 1) }, 0)
    else none

/-- The functions `CAN_DeTxQueue` and `CAN_DeRxQueue`: the new queue and the
returned `int`. -/
def CAN_DeQueue {α : Type} (queue : CAN_Queue α) : Option (CAN_Queue α × Int) :=
  if CAN_Queue_isEmpty queue ≠ 0 then some (queue, -1)
  else if queue.capacity = 0 then none
  else
    some ({ queue with
            front := toInt8 ((queue.front + 1).tmod (queue.capacity : Int))
            used := toUInt8 (queue.used + 255) }, 0)

abbrev CAN_Create_TxQueue := @CAN_Create_Queue CAN_TxMessage
abbrev CAN_If_TxQueue_notCreate := @CAN_If_Queue_notCreate CAN_TxMessage
abbrev CAN_TxQueue_isEmpty := @CAN_Queue_isEmpty CAN_TxMessage
abbrev CAN_TxQueue_isFull := @CAN_Queue_isFull CAN_TxMessage
abbrev CAN_TxQueue_getFront := @CAN_Queue_getFront CAN_TxMessage
abbrev CAN_TxQueue_getRear := @CAN_Queue_getRear CAN_TxMessage
abbrev CAN_EnTxQueue := @CAN_EnQueue CAN_TxMessage
abbrev CAN_DeTxQueue := @CAN_DeQueue CAN_TxMessage

abbrev CAN_Create_RxQueue := @CAN_Create_Queue CAN_RxMessage
abbrev CAN_If_RxQueue_notCreate := @CAN_If_Queue_notCreate CAN_RxMessage
abbrev CAN_RxQueue_isEmpty := @CAN_Queue_isEmpty CAN_RxMessage
abbrev CAN_RxQueue_isFull := @CAN_Queue_isFull CAN_RxMessage
abbrev CAN_RxQueue_getFront := @CAN_Queue_getFront CAN_RxMessage
abbrev CAN_RxQueue_getRear := @CAN_Queue_getRear CAN_RxMessage
abbrev CAN_EnRxQueue := @CAN_EnQueue CAN_RxMessage
abbrev CAN_DeRxQueue := @CAN_DeQueue CAN_RxMessage

/-! ## Identifier codec (`CANSlavelib.c`, "Slave Basic Functions") -/

/-- The function `CAN_Command_StdId` of `CANSlavelib.c`, on `uint32_t`. -/
def CAN_Command_StdId (Sensor_Id Cmd_Id : Nat) : Nat :=
  toUInt32 (Sensor_Id <<< 5) ||| Cmd_Id

/-- The function `getSensor_Id` of `CANSlavelib.c`; the result is a `uint8_t`. -/
def getSensor_Id (RxHeader : CAN_RxHeaderTypeDef) : Nat :=
  toUInt8 (RxHeader.StdId >>> 5)

/-- The function `getSensor_Cmd` of `CANSlavelib.c`; the result is a `uint8_t`. -/
def getSensor_Cmd (RxHeader : CAN_RxHeaderTypeDef) : Nat :=
  toUInt8 (RxHeader.StdId &&& 0x1F)

/-! ## The slave node (`CANSlavelib.c`) -/

/-- The struct `Sensor_HandleTypedef` of `CANSlavelib.h`. -/
structure Sensor_HandleTypedef where
  sensor_id : Nat
  freq : Nat
  start_flag : Nat
  stop_flag : Nat
deriving DecidableEq, Repr

/-- One call of `HAL_CAN_AddTxMessage` as the hardware sees it: the header, the
bytes behind the data pointer (`none` for `NULL`) and the mailbox value passed
in. -/
structure TxAttempt where
  pHeader : CAN_TxHeaderTypeDef
  aData : Option (List Nat)
  TxMailbox : Nat
deriving DecidableEq, Repr

/-- What the surroundings of the library answer during one call: the value of
`CAN1->TSR`, the outcome of `HAL_CAN_AddTxMessage` (its status and the value it
leaves in `*pTxMailbox`), and the contents of freshly allocated blocks. -/
structure Platform where
  TSR : Nat
  AddTxMessage : TxAttempt → Nat × Nat
  heapTx : Nat → CAN_TxMessage
  heapRx : Nat → CAN_RxMessage

/-- The file-scope and function-scope statics of `CANSlavelib.c`, followed by
what the hardware interface has been asked to do so far: `sent` lists the calls
of `HAL_CAN_AddTxMessage`, oldest first. -/
structure Slave where
  Slave_TxHeader : CAN_TxHeaderTypeDef
  mailbox : Nat
  Slave_TxQueue : CAN_TxQueue
  Slave_TxMessage : CAN_TxMessage
  Slave_RxQueue : CAN_RxQueue
  Slave_RxMessage : CAN_RxMessage
  Start_IMU_first_time : Nat
  Start_Encoder_first_time : Nat
  IMU_Data_time : Nat
  Encoder_Data_time : Nat
  sent : List TxAttempt
  uart_receive_it_calls : Nat
  tim_encoder_start_calls : Nat
deriving DecidableEq, Repr

/-- A zero-initialised queue object (static storage before any call). -/
def CAN_Queue_zero {α : Type} : CAN_Queue α :=
  { front := 0, rear := 0, used := 0, capacity := 0, is_create := 0, Message := [] }

def CAN_TxHeader_zero : CAN_TxHeaderTypeDef :=
  { StdId := 0, ExtId := 0, IDE := 0, RTR := 0, DLC := 0, TransmitGlobalTime := 0 }

def CAN_RxHeader_zero : CAN_RxHeaderTypeDef :=
  { StdId := 0, ExtId := 0, IDE := 0, RTR := 0, DLC := 0, Timestamp := 0,
    FilterMatchIndex := 0 }

def CAN_Data_zero : CAN_Data :=
  { d0 := 0, d1 := 0, d2 := 0, d3 := 0, d4 := 0, d5 := 0, d6 := 0, d7 := 0 }

/-- The statics of `CANSlavelib.c` at program start. -/
def Slave_zero : Slave :=
  { Slave_TxHeader := CAN_TxHeader_zero
    mailbox := 0
    Slave_TxQueue := CAN_Queue_zero
    Slave_TxMessage := { TxHeader := CAN_TxHeader_zero, txdata := CAN_Data_zero }
    Slave_RxQueue := CAN_Queue_zero
    Slave_RxMessage := { RxHeader := CAN_RxHeader_zero, rxdata := CAN_Data_zero }
    Start_IMU_first_time := 0
    Start_Encoder_first_time := 0
    IMU_Data_time := 0
    Encoder_Data_time := 0
    sent := []
    uart_receive_it_calls := 0
    tim_encoder_start_calls := 0 }

/-- The call `HAL_CAN_AddTxMessage(hcan, &Slave_TxHeader, aData, &mailbox)`: the
attempt is recorded, the mailbox is what the hardware leaves, the status is
returned. -/
def HAL_CAN_AddTxMessage (hw : Platform) (s : Slave) (aData : Option (List Nat)) :
    Slave × Nat :=
  let attempt : TxAttempt :=
    { pHeader := s.Slave_TxHeader, aData := aData, TxMailbox := s.mailbox }
  ({ s with mailbox := (hw.AddTxMessage attempt).2, sent := s.sent ++ [attempt] },
   (hw.AddTxMessage attempt).1)

/-- The function `CAN_Sensor_Start_fb` of `CANSlavelib.c`. -/
def CAN_Sensor_Start_fb (hw : Platform) (s : Slave) : Option Slave := do
  let s := { s with Slave_TxQueue := CAN_If_TxQueue_notCreate s.Slave_TxQueue hw.heapTx }
  let front ← CAN_RxQueue_getFront s.Slave_RxQueue
  let StdId := CAN_Command_StdId (getSensor_Id front.RxHeader) START_FB_ID
  let s := { s with Slave_TxHeader := CAN_TxHeader_Init s.Slave_TxHeader StdId START_FB_DLC }
  let s := { s with mailbox := get_Empty_Mailbox hw.TSR }
  let front ← CAN_RxQueue_getFront s.Slave_RxQueue
  let r := HAL_CAN_AddTxMessage hw s (some front.rxdata.bytes)
  let s := r.1
  if r.2 ≠ HAL_OK then
    let s := { s with Slave_TxMessage := { s.Slave_TxMessage with
      TxHeader := CAN_TxHeader_Copy s.Slave_TxMessage.TxHeader s.Slave_TxHeader } }
    let front ← CAN_RxQueue_getFront s.Slave_RxQueue
    let s := { s with Slave_TxMessage := { s.Slave_TxMessage with
      txdata := CAN_Data_Copy s.Slave_TxMessage.txdata front.rxdata } }
    let e ← CAN_EnTxQueue s.Slave_TxQueue s.Slave_TxMessage
    pure { s with Slave_TxQueue := e.1 }
  else pure s

/-- The function `CAN_Sensor_Reset_fb` of `CANSlavelib.c`. -/
def CAN_Sensor_Reset_fb (hw : Platform) (s : Slave) : Option Slave := do
  let s := { s with Slave_TxQueue := CAN_If_TxQueue_notCreate s.Slave_TxQueue hw.heapTx }
  let front ← CAN_RxQueue_getFront s.Slave_RxQueue
  let StdId := CAN_Command_StdId (getSensor_Id front.RxHeader) RESET_FB_ID
  let s := { s with Slave_TxHeader := CAN_TxHeader_Init s.Slave_TxHeader StdId RESET_FB_DLC }
  let s := { s with mailbox := get_Empty_Mailbox hw.TSR }
  let r := HAL_CAN_AddTxMessage hw s none
  let s := r.1
  if r.2 ≠ HAL_OK then
    let s := { s with Slave_TxMessage := { s.Slave_TxMessage with
      TxHeader := CAN_TxHeader_Copy s.Slave_TxMessage.TxHeader s.Slave_TxHeader } }
    let e ← CAN_EnTxQueue s.Slave_TxQueue s.Slave_TxMessage
    pure { s with Slave_TxQueue := e.1 }
  else pure s

/-- The function `CAN_Sensor_Stop_fb` of `CANSlavelib.c`. -/
def CAN_Sensor_Stop_fb (hw : Platform) (s : Slave) : Option Slave := do
  let s := { s with Slave_TxQueue := CAN_If_TxQueue_notCreate s.Slave_TxQueue hw.heapTx }
  let front ← CAN_RxQueue_getFront s.Slave_RxQueue
  let StdId := CAN_Command_StdId (getSensor_Id front.RxHeader) STOP_FB_ID
  let s := { s with Slave_TxHeader := CAN_TxHeader_Init s.Slave_TxHeader StdId STOP_FB_DLC }
  let s := { s with mailbox := get_Empty_Mailbox hw.TSR }
  let r := HAL_CAN_AddTxMessage hw s none
  let s := r.1
  if r.2 ≠ HAL_OK then
    let s := { s with Slave_TxMessage := { s.Slave_TxMessage with
      TxHeader := CAN_TxHeader_Copy s.Slave_TxMessage.TxHeader s.Slave_TxHeader } }
    let e ← CAN_EnTxQueue s.Slave_TxQueue s.Slave_TxMessage
    pure { s with Slave_TxQueue := e.1 }
  else pure s

/-- The function `CAN_Sensor_Assign_fb` of `CANSlavelib.c`. -/
def CAN_Sensor_Assign_fb (hw : Platform) (s : Slave) : Option Slave := do
  let s := { s with Slave_TxQueue := CAN_If_TxQueue_notCreate s.Slave_TxQueue hw.heapTx }
  let front ← CAN_RxQueue_getFront s.Slave_RxQueue
  let StdId := CAN_Command_StdId (getSensor_Id front.RxHeader) ASSIGN_FB_ID
  let s := { s with Slave_TxHeader := CAN_TxHeader_Init s.Slave_TxHeader StdId ASSIGN_FB_DLC }
  let s := { s with mailbox := get_Empty_Mailbox hw.TSR }
  let front ← CAN_RxQueue_getFront s.Slave_RxQueue
  let r := HAL_CAN_AddTxMessage hw s (some front.rxdata.bytes)
  let s := r.1
  if r.2 ≠ HAL_OK then
    let s := { s with Slave_TxMessage := { s.Slave_TxMessage with
      TxHeader := CAN_TxHeader_Copy s.Slave_TxMessage.TxHeader s.Slave_TxHeader } }
    let front ← CAN_RxQueue_getFront s.Slave_RxQueue
    let s := { s with Slave_TxMessage := { s.Slave_TxMessage with
      txdata := CAN_Data_Copy s.Slave_TxMessage.txdata front.rxdata } }
    let e ← CAN_EnTxQueue s.Slave_TxQueue s.Slave_TxMessage
    pure { s with Slave_TxQueue := e.1 }
  else pure s

/-- The function `CAN_Slave_FIFO0_ReFb_Handle` of `CANSlavelib.c`. -/
def CAN_Slave_FIFO0_ReFb_Handle (hw : Platform) (s : Slave) : Option Slave :=
  if CAN_TxQueue_isEmpty s.Slave_TxQueue ≠ 0 then some s
  else do
    let front ← CAN_TxQueue_getFront s.Slave_TxQueue
    let s := { s with Slave_TxHeader := CAN_TxHeader_Copy s.Slave_TxHeader front.TxHeader }
    let s := { s with mailbox := get_Empty_Mailbox hw.TSR }
    let front ← CAN_TxQueue_getFront s.Slave_TxQueue
    let r := HAL_CAN_AddTxMessage hw s (some front.txdata.bytes)
    let s := r.1
    if r.2 = HAL_OK then
      let d ← CAN_DeTxQueue s.Slave_TxQueue
      pure { s with Slave_TxQueue := d.1 }
    else pure s

/-- The function `CAN_Start_IMU` of `CANSlavelib.c`; the call of
`HAL_UART_Receive_IT` is counted. -/
def CAN_Start_IMU (s : Slave) (Sensor : Sensor_HandleTypedef) :
    Option (Slave × Sensor_HandleTypedef) := do
  let front ← CAN_RxQueue_getFront s.Slave_RxQueue
  if getSensor_Id front.RxHeader = IMU_ID then
    let Sensor := { Sensor with start_flag := 1 }
    let hi ← CAN_RxQueue_getFront s.Slave_RxQueue
    let lo ← CAN_RxQueue_getFront s.Slave_RxQueue
    let Sensor := { Sensor with
      freq := toUInt16 ((toUInt16 hi.rxdata.d1 <<< 8) ||| lo.rxdata.d0) }
    if s.Start_IMU_first_time ≠ 0 then pure (s, Sensor)
    else
      let s := { s with uart_receive_it_calls := s.uart_receive_it_calls + 1 }
      let s := { s with Start_IMU_first_time := 1 }
      pure (s, Sensor)
  else pure (s, Sensor)

/-- The function `CAN_Start_Encoder` of `CANSlavelib.c`; the calls of
`HAL_TIM_Encoder_Start` are counted. -/
def CAN_Start_Encoder (s : Slave) (Sensor : Sensor_HandleTypedef) :
    Option (Slave × Sensor_HandleTypedef) := do
  let front ← CAN_RxQueue_getFront s.Slave_RxQueue
  if getSensor_Id front.RxHeader = ENC_ID then
    let Sensor := { Sensor with start_flag := 1 }
    let hi ← CAN_RxQueue_getFront s.Slave_RxQueue
    let lo ← CAN_RxQueue_getFront s.Slave_RxQueue
    let Sensor := { Sensor with
      freq := toUInt16 ((toUInt16 hi.rxdata.d1 <<< 8) ||| lo.rxdata.d0) }
    if s.Start_Encoder_first_time ≠ 0 then pure (s, Sensor)
    else
      let s := { s with tim_encoder_start_calls := s.tim_encoder_start_calls + 1 }
      let s := { s with tim_encoder_start_calls := s.tim_encoder_start_calls + 1 }
      let s := { s with Start_Encoder_first_time := 1 }
      pure (s, Sensor)
  else pure (s, Sensor)

/-- The function `CAN_Stop_Sensor` of `CANSlavelib.c`. -/
def CAN_Stop_Sensor (hw : Platform) (s : Slave) (Sensor : Sensor_HandleTypedef) :
    Option (Slave × Sensor_HandleTypedef) := do
  let front ← CAN_RxQueue_getFront s.Slave_RxQueue
  if getSensor_Id front.RxHeader = Sensor.sensor_id then
    if Sensor.freq = 0 then pure (s, Sensor)
    else
      let Sensor := { Sensor with start_flag := 0 }
      let s ← CAN_Sensor_Stop_fb hw s
      pure (s, Sensor)
  else pure (s, Sensor)

/-! ## Sensor collaborators (`EncoderPosition.c`, `IMU.c`) -/

/-- The timer a `TIM_HandleTypeDef *` leads to, as far as the sources touch it:
the registers `Instance->CNT` and `Instance->CR1`. -/
structure TIM_HandleTypeDef where
  CNT : Nat
  CR1 : Nat
deriving DecidableEq, Repr

/-- The struct `Encoder_HandleTypeDef` of `EncoderPosition.h`. `htim` is the
timer the pointer field leads to (each encoder has its own); the two `float`
fields hold the IEEE-754 bit pattern of their value, which is all the CAN
library moves. -/
structure Encoder_HandleTypeDef where
  resolution : Nat
  htim : TIM_HandleTypeDef
  Z_Pin : Nat
  CNT_value : Int
  last_CNT_value : Nat
  pulse : Int
  z_pulse_flag : Nat
  offset_flag : Nat
  offset_value : Int
  last_direction : Nat
  round_counter : Int
  asign_position : Nat
  position : Nat
deriving DecidableEq, Repr

/-- The file-scope statics of `IMU.c` (`buff` has 11 bytes) and the
function-scope static `time` of `IMU_Reset_Zero`. -/
structure IMU_Statics where
  buff : List Nat
  recieve_flag : Nat
  data_len : Nat
  uart_flag : Nat
  flag : Nat
  checksum : Nat
  Reset_Zero_time : Nat
deriving DecidableEq, Repr

/-- The function `IMU_Reset_Flag` of `IMU.c`. -/
def IMU_Reset_Flag (imu : IMU_Statics) : IMU_Statics :=
  { imu with flag := 0 }

/-! ## Reset and assign handlers (`CANSlavelib.c`) -/

/-- The four user-overridable (`__weak`) handle functions. -/
inductive Hook where
  | Start
  | Reset
  | Stop
  | Assign
deriving DecidableEq, Repr

/-- The user's definitions of `CAN_Sensor_Start_Handle`,
`CAN_Sensor_Reset_Handle`, `CAN_Sensor_Stop_Handle` and
`CAN_Encoder_Assign_Handle`, acting on the library's statics and on the user's
own objects (sensor handles, encoders), of type `U`. -/
structure Handlers (U : Type) where
  CAN_Sensor_Start_Handle : Slave × U → Option (Slave × U)
  CAN_Sensor_Reset_Handle : Slave × U → Option (Slave × U)
  CAN_Sensor_Stop_Handle : Slave × U → Option (Slave × U)
  CAN_Encoder_Assign_Handle : Slave × U → Option (Slave × U)

/-- The `__weak` definitions of `CANSlavelib.c`: empty bodies. -/
def weak_Handlers (U : Type) : Handlers U :=
  { CAN_Sensor_Start_Handle := fun x => some x
    CAN_Sensor_Reset_Handle := fun x => some x
    CAN_Sensor_Stop_Handle := fun x => some x
    CAN_Encoder_Assign_Handle := fun x => some x }

/-- The library's statics, the user's objects, and the handle functions invoked
so far, oldest first. -/
structure Node (U : Type) where
  slave : Slave
  user : U
  invoked : List Hook

/-- A call of one of the handle functions. -/
def callHook {U : Type} (handle : Slave × U → Option (Slave × U)) (k : Hook)
    (n : Node U) : Option (Node U) :=
  match handle (n.slave, n.user) with
  | some r => some { slave := r.1, user := r.2, invoked := n.invoked ++ [k] }
  | none => none

/-- The function `CAN_RxStart_RQ` of `CANSlavelib.c`. -/
def CAN_RxStart_RQ {U : Type} (user : Handlers U) (hw : Platform) (n : Node U) :
    Option (Node U) := do
  let front ← CAN_RxQueue_getFront n.slave.Slave_RxQueue
  if getSensor_Cmd front.RxHeader = START_ID then
    let n ← callHook user.CAN_Sensor_Start_Handle Hook.Start n
    let s ← CAN_Sensor_Start_fb hw n.slave
    pure { n with slave := s }
  else pure n

/-- The function `CAN_RxReset_RQ` of `CANSlavelib.c`. -/
def CAN_RxReset_RQ {U : Type} (user : Handlers U) (n : Node U) : Option (Node U) := do
  let front ← CAN_RxQueue_getFront n.slave.Slave_RxQueue
  if getSensor_Cmd front.RxHeader = RESET_ID then
    callHook user.CAN_Sensor_Reset_Handle Hook.Reset n
  else pure n

/-- The function `CAN_RxStop_RQ` of `CANSlavelib.c`. -/
def CAN_RxStop_RQ {U : Type} (user : Handlers U) (n : Node U) : Option (Node U) := do
  let front ← CAN_RxQueue_getFront n.slave.Slave_RxQueue
  if getSensor_Cmd front.RxHeader = STOP_ID then
    callHook user.CAN_Sensor_Stop_Handle Hook.Stop n
  else pure n

/-- The function `CAN_RxEncoder_AssignRQ` of `CANSlavelib.c`. -/
def CAN_RxEncoder_AssignRQ {U : Type} (user : Handlers U) (n : Node U) :
    Option (Node U) := do
  let front ← CAN_RxQueue_getFront n.slave.Slave_RxQueue
  if getSensor_Cmd front.RxHeader = ENC_ASSIGN_ID then
    callHook user.CAN_Encoder_Assign_Handle Hook.Assign n
  else pure n

/-- The function `CAN_Slave_FIFO0_Recieve_Cmd_Handle` of `CANSlavelib.c`. -/
def CAN_Slave_FIFO0_Recieve_Cmd_Handle {U : Type} (user : Handlers U)
    (hw : Platform) (n : Node U) : Option (Node U) :=
  if n.slave.Slave_RxQueue.used ≠ 0 then do
    let n ← CAN_RxStart_RQ user hw n
    let n ← CAN_RxReset_RQ user n
    let n ← CAN_RxStop_RQ user n
    let n ← CAN_RxEncoder_AssignRQ user n
    let d ← CAN_DeRxQueue n.slave.Slave_RxQueue
    pure { n with slave := { n.slave with Slave_RxQueue := d.1 } }
  else some n

/-! ## Reading a queue as a list -/

/-- The frames a queue holds, oldest first: the `used` slots from `front` on,
taken circularly. -/
def CAN_Queue.frames {α : Type} (queue : CAN_Queue α) : List α :=
  (List.range queue.used).filterMap
    fun i => queue.Message[(queue.front.toNat + i) % queue.capacity]?

/-- A queue whose fields describe a circular buffer inside its allocated block:
the block has `capacity` slots, at most 128 so that every index fits `int8_t`,
`front` is a slot, `rear` is a slot or the initial `-1`, and the slot after
`rear` is the one `used` places after `front`. -/
def CAN_Queue.WF {α : Type} (queue : CAN_Queue α) : Prop :=
  1 ≤ queue.capacity ∧ queue.capacity ≤ 128 ∧
  queue.Message.length = queue.capacity ∧
  0 ≤ queue.front ∧ queue.front < queue.capacity ∧
  -1 ≤ queue.rear ∧ queue.rear < queue.capacity ∧
  queue.used ≤ queue.capacity ∧
  (queue.rear + 1).toNat % queue.capacity
    = (queue.front.toNat + queue.used) % queue.capacity

instance {α : Type} (queue : CAN_Queue α) : Decidable queue.WF := by
  unfold CAN_Queue.WF
  infer_instance

/-- One call on a queue: an enqueue of `item`, or a dequeue. -/
inductive QueueCall (α : Type) where
  | enqueue (item : α)
  | dequeue
deriving DecidableEq, Repr

/-- The call made on `queue`: the new queue and the returned `int`. -/
def QueueCall.run {α : Type} (queue : CAN_Queue α) :
    QueueCall α → Option (CAN_Queue α × Int)
  | QueueCall.enqueue item => CAN_EnQueue queue item
  | QueueCall.dequeue => CAN_DeQueue queue

/-- A sequence of calls made one after the other on `queue`. -/
def runCalls {α : Type} : CAN_Queue α → List (QueueCall α) → Option (CAN_Queue α)
  | queue, [] => some queue
  | queue, c :: cs =>
    match c.run queue with
    | some r => runCalls r.1 cs
    | none => none

/-- The list a queue of capacity `N` is compared with: an enqueue appends at the
end when there is room, a dequeue removes the head. -/
def fifo_step {α : Type} (N : Nat) (l : List α) : QueueCall α → List α
  | QueueCall.enqueue item => if l.length < N then l ++ [item] else l
  | QueueCall.dequeue => l.tail

/-- The list after a sequence of calls. -/
def fifo_run {α : Type} (N : Nat) (l : List α) (calls : List (QueueCall α)) : List α :=
  calls.foldl (fifo_step N) l

/-- The queue `queue` of capacity `N` behaves as the list `l`: it holds the
frames of `l` in order; an enqueue returns 0 and appends when `l` has fewer than
`N` frames and returns -1 otherwise; a dequeue returns 0 and removes the head of
a non-empty `l` and returns -1 on the empty one; `getFront` reads the head. -/
def BehavesAs {α : Type} (N : Nat) (queue : CAN_Queue α) (l : List α) : Prop :=
  queue.frames = l ∧ queue.used = l.length ∧
  (∀ item, ∃ q, CAN_EnQueue queue item = some (q, if l.length < N then 0 else -1) ∧
    q.frames = fifo_step N l (QueueCall.enqueue item)) ∧
  (∃ q, CAN_DeQueue queue = some (q, if l.length = 0 then -1 else 0) ∧
    q.frames = fifo_step N l QueueCall.dequeue) ∧
  (∀ f rest, l = f :: rest → CAN_Queue_getFront queue = some f)

/-- The state of one of the node's two static queues: still untouched static
storage holding nothing, or created by `CAN_If_TxQueue_notCreate`
(resp. `CAN_If_RxQueue_notCreate`) with `CAN_QUEUE_CAPACITY` slots. -/
def CAN_Queue.Ready {α : Type} (queue : CAN_Queue α) : Prop :=
  (queue.is_create = 0 ∧ queue.used = 0) ∨
  (queue.is_create ≠ 0 ∧ queue.WF ∧ queue.capacity = CAN_QUEUE_CAPACITY)

instance {α : Type} (queue : CAN_Queue α) : Decidable queue.Ready := by
  unfold CAN_Queue.Ready
  infer_instance

/-! ## Calls in sequence, and what is asked of the user's handle functions -/

/-- Consecutive calls of `CAN_Slave_FIFO0_ReFb_Handle`, one for each element of
`hws`, which gives what the hardware answers during that call. -/
def CAN_Slave_FIFO0_ReFb_Handle_calls : Slave → List Platform → Option Slave
  | s, [] => some s
  | s, hw :: hws =>
    match CAN_Slave_FIFO0_ReFb_Handle hw s with
    | some s' => CAN_Slave_FIFO0_ReFb_Handle_calls s' hws
    | none => none

/-- The transmit attempt of a retry of the frame `f`. -/
def retry_attempt (hw : Platform) (f : CAN_TxMessage) : TxAttempt :=
  { pHeader := f.TxHeader, aData := some f.txdata.bytes,
    TxMailbox := get_Empty_Mailbox hw.TSR }

/-- The transmit attempt of the start feedback answering the received frame `r`. -/
def start_fb_attempt (hw : Platform) (r : CAN_RxMessage) : TxAttempt :=
  { pHeader := CAN_TxHeader_Init CAN_TxHeader_zero
      (CAN_Command_StdId (getSensor_Id r.RxHeader) START_FB_ID) START_FB_DLC
    aData := some r.rxdata.bytes
    TxMailbox := get_Empty_Mailbox hw.TSR }

/-- The frame the start feedback answering `r` puts into the Tx queue when its
transmit fails. -/
def start_fb_frame (r : CAN_RxMessage) : CAN_TxMessage :=
  { TxHeader := CAN_TxHeader_Init CAN_TxHeader_zero
      (CAN_Command_StdId (getSensor_Id r.RxHeader) START_FB_ID) START_FB_DLC
    txdata := r.rxdata }

/-- A handle function that does not modify the Rx queue `rx`: called while the
Rx queue is `rx` and the Tx queue is in one of its regular states, it returns
and leaves the Rx queue as it is and the Tx queue in a regular state. -/
def HookKeeps {U : Type} (rx : CAN_RxQueue) (handle : Slave × U → Option (Slave × U)) :
    Prop :=
  ∀ (s : Slave) (u : U), s.Slave_RxQueue = rx → s.Slave_TxQueue.Ready →
    ∃ r, handle (s, u) = some r ∧ r.1.Slave_RxQueue = rx ∧ r.1.Slave_TxQueue.Ready

/-- The four handle functions do not modify the Rx queue `rx`. -/
def Handlers.Keep {U : Type} (user : Handlers U) (rx : CAN_RxQueue) : Prop :=
  HookKeeps rx user.CAN_Sensor_Start_Handle ∧ HookKeeps rx user.CAN_Sensor_Reset_Handle ∧
  HookKeeps rx user.CAN_Sensor_Stop_Handle ∧ HookKeeps rx user.CAN_Encoder_Assign_Handle

/-- The handle functions one frame with command sub-id `cmd` makes the
dispatcher invoke, in order. -/
def hooks_for (cmd : Nat) : List Hook :=
  (if cmd = START_ID then [Hook.Start] else []) ++
  (if cmd = RESET_ID then [Hook.Reset] else []) ++
  (if cmd = STOP_ID then [Hook.Stop] else []) ++
  (if cmd = ENC_ASSIGN_ID then [Hook.Assign] else [])

/-! ## Counting the successful calls -/

/-- A queue together with the number of enqueue calls and of dequeue calls that
have returned 0 on it so far. -/
structure Counted (α : Type) where
  queue : CAN_Queue α
  enqueued : Nat
  dequeued : Nat

/-- One call, counted when it returns 0. -/
def Counted.call {α : Type} (t : Counted α) : QueueCall α → Option (Counted α)
  | QueueCall.enqueue item =>
    match CAN_EnQueue t.queue item with
    | some r => some { queue := r.1, enqueued := t.enqueued + (if r.2 = 0 then 1 else 0),
                       dequeued := t.dequeued }
    | none => none
  | QueueCall.dequeue =>
    match CAN_DeQueue t.queue with
    | some r => some { queue := r.1, enqueued := t.enqueued,
                       dequeued := t.dequeued + (if r.2 = 0 then 1 else 0) }
    | none => none

/-- A sequence of calls, counted. -/
def Counted.calls {α : Type} : Counted α → List (QueueCall α) → Option (Counted α)
  | t, [] => some t
  | t, c :: cs =>
    match t.call c with
    | some t' => t'.calls cs
    | none => none

/-- The calls made on a queue on which nothing has been counted yet. -/
def countCalls {α : Type} (queue : CAN_Queue α) (calls : List (QueueCall α)) :
    Option (Counted α) :=
  Counted.calls { queue := queue, enqueued := 0, dequeued := 0 } calls

/-! ## The feedback attempts -/

/-- The header of the feedback of kind `fb_id`, length `dlc`, answering the
received frame `r`. -/
def fb_header (r : CAN_RxMessage) (fb_id dlc : Nat) : CAN_TxHeaderTypeDef :=
  CAN_TxHeader_Init CAN_TxHeader_zero (CAN_Command_StdId (getSensor_Id r.RxHeader) fb_id) dlc

/-- The transmit attempt of the reset feedback answering `r`: no payload. -/
def reset_fb_attempt (hw : Platform) (r : CAN_RxMessage) : TxAttempt :=
  { pHeader := fb_header r RESET_FB_ID RESET_FB_DLC, aData := none,
    TxMailbox := get_Empty_Mailbox hw.TSR }

/-- The transmit attempt of the stop feedback answering `r`: no payload. -/
def stop_fb_attempt (hw : Platform) (r : CAN_RxMessage) : TxAttempt :=
  { pHeader := fb_header r STOP_FB_ID STOP_FB_DLC, aData := none,
    TxMailbox := get_Empty_Mailbox hw.TSR }

/-- The transmit attempt of the assign feedback answering `r`: the payload of
`r`. -/
def assign_fb_attempt (hw : Platform) (r : CAN_RxMessage) : TxAttempt :=
  { pHeader := fb_header r ASSIGN_FB_ID ASSIGN_FB_DLC, aData := some r.rxdata.bytes,
    TxMailbox := get_Empty_Mailbox hw.TSR }

/-- The result `res` of a dequeue on `queue`. On an empty queue: -1, the queue
as it is (whatever the capacity). On a non-empty queue with a capacity other
than 0 (and `used` a `uint8_t`): 0, `used` one smaller, `rear`, the block,
`capacity` and `is_create` as they are, and `front` the `int8_t` store of
`(front + 1) % capacity`, which is `(front + 1) mod capacity` when `front` is
a slot and the capacity is at most 128. -/
def DequeueResult {α : Type} (queue : CAN_Queue α) (res : Option (CAN_Queue α × Int)) :
    Prop :=
  (queue.used = 0 → res = some (queue, -1)) ∧
  (queue.used ≠ 0 → queue.capacity ≠ 0 → queue.used ≤ 255 →
    ∃ q, res = some (q, 0) ∧ q.used + 1 = queue.used ∧
      q.front = toInt8 ((queue.front + 1).tmod (queue.capacity : Int)) ∧
      (0 ≤ queue.front → queue.front < queue.capacity → queue.capacity ≤ 128 →
        q.front = (queue.front + 1) % (queue.capacity : Int)) ∧
      q.rear = queue.rear ∧ q.Message = queue.Message ∧
      q.capacity = queue.capacity ∧ q.is_create = queue.is_create)

/-- The frame the reset or stop feedback of kind `fb_id` answering `r` puts into
the Tx queue when its transmit fails: the new header with the payload left in
`Slave_TxMessage` by earlier calls. -/
def header_only_frame (s : Slave) (r : CAN_RxMessage) (fb_id dlc : Nat) : CAN_TxMessage :=
  { s.Slave_TxMessage with TxHeader := fb_header r fb_id dlc }

/-- The frame the assign feedback answering `r` puts into the Tx queue when its
transmit fails. -/
def assign_fb_frame (r : CAN_RxMessage) : CAN_TxMessage :=
  { TxHeader := fb_header r ASSIGN_FB_ID ASSIGN_FB_DLC, txdata := r.rxdata }

/-- The outcome `res` of a feedback function called in the state `s`, with `a`
its transmit attempt and `item` the frame it queues on failure: it returns, the
Rx queue is as before, the Tx queue is in a regular state, exactly the attempt
`a` is added to the log; when the transmit fails the Tx queue gains `item` if it
held fewer than `CAN_QUEUE_CAPACITY` frames and is unchanged, the enqueue
returning -1, if it held `CAN_QUEUE_CAPACITY`; when the transmit succeeds the Tx
queue holds the frames it held. -/
def FeedbackOutcome (hw : Platform) (s : Slave) (a : TxAttempt) (item : CAN_TxMessage)
    (res : Option Slave) : Prop :=
  ∃ s', res = some s' ∧ s'.Slave_RxQueue = s.Slave_RxQueue ∧ s'.Slave_TxQueue.Ready ∧
    s'.sent = s.sent ++ [a] ∧
    ((hw.AddTxMessage a).1 ≠ HAL_OK → s.Slave_TxQueue.used < CAN_QUEUE_CAPACITY →
      s'.Slave_TxQueue.frames = s.Slave_TxQueue.frames ++ [item]) ∧
    ((hw.AddTxMessage a).1 ≠ HAL_OK → s.Slave_TxQueue.used = CAN_QUEUE_CAPACITY →
      s'.Slave_TxQueue = s.Slave_TxQueue ∧
      CAN_EnTxQueue s.Slave_TxQueue item = some (s.Slave_TxQueue, -1)) ∧
    ((hw.AddTxMessage a).1 = HAL_OK →
      s'.Slave_TxQueue.frames = s.Slave_TxQueue.frames ∧
      (s.Slave_TxQueue.is_create ≠ 0 → s'.Slave_TxQueue = s.Slave_TxQueue))

/-- A queue of capacity `CAN_QUEUE_CAPACITY` holding four transmit frames. -/
def sampleFullTx : CAN_TxQueue :=
  { front := 0, rear := 3, used := 4, capacity := CAN_QUEUE_CAPACITY, is_create := 1,
    Message := [{ TxHeader := CAN_TxHeader_zero, txdata := CAN_Data_zero },
                { TxHeader := CAN_TxHeader_zero, txdata := CAN_Data_zero },
                { TxHeader := CAN_TxHeader_zero, txdata := CAN_Data_zero },
                { TxHeader := CAN_TxHeader_zero, txdata := CAN_Data_zero }] }

/-- An encoder handle with nothing counted yet. -/
def sampleEncoder : Encoder_HandleTypeDef :=
  { resolution := 600, htim := { CNT := 17, CR1 := 0 }, Z_Pin := 8, CNT_value := 17,
    last_CNT_value := 17, pulse := 4, z_pulse_flag := 0, offset_flag := 0,
    offset_value := 0, last_direction := 0, round_counter := 0, asign_position := 0,
    position := 0 }

/-! ## Telemetry, error report and reception (`CANSlavelib.c`) -/

/-- The difference `a - b` of two `uint32_t` values, as C computes it. -/
def sub32 (a b : Nat) : Nat :=
  toUInt32 (a + (4294967296 - toUInt32 b))

/-- The function `CAN_IMU_Data_Transmit` of `CANSlavelib.c`. `tick0` and `tick1`
are the values the two calls of `HAL_GetTick()` return (`uint32_t`), `aData`
the bytes behind the data pointer; the function-scope static `time` is
`IMU_Data_time`. The sensor handle is only read. -/
def CAN_IMU_Data_Transmit (hw : Platform) (tick0 tick1 : Nat) (s : Slave)
    (IMU : Sensor_HandleTypedef) (aData : List Nat) : Slave :=
  if s.Slave_RxQueue.used ≠ 0 ∨ s.Slave_TxQueue.used ≠ 0 then s
  else if IMU.freq = 0 ∧ IMU.start_flag = 0 then s
  else if sub32 tick0 s.IMU_Data_time > IMU.freq then
    let s := { s with Slave_TxHeader :=
      CAN_TxHeader_Init s.Slave_TxHeader (CAN_Command_StdId IMU_ID IMU_DATA) IMU_DATA_DLC }
    let s := { s with mailbox := get_Empty_Mailbox hw.TSR }
    let s := (HAL_CAN_AddTxMessage hw s (some aData)).1
    { s with IMU_Data_time := tick1 }
  else s

/-- The function `CAN_Encoder_Data_Transmit` of `CANSlavelib.c`. `x_pos` and
`y_pos` are the bit patterns of the two `float` arguments, which the function
reads through `uint32_t` pointers; the function-scope static `time` is
`Encoder_Data_time`. -/
def CAN_Encoder_Data_Transmit (hw : Platform) (tick0 tick1 : Nat) (s : Slave)
    (Encoder : Sensor_HandleTypedef) (x_pos y_pos : Nat) : Slave :=
  if s.Slave_RxQueue.used ≠ 0 ∨ s.Slave_TxQueue.used ≠ 0 then s
  else if Encoder.freq = 0 ∧ Encoder.start_flag = 0 then s
  else if sub32 tick0 s.Encoder_Data_time > Encoder.freq then
    let x_raw := x_pos
    let y_raw := y_pos
    let data : List Nat :=
      [(x_raw >>> 0) &&& 0xFF, (x_raw >>> 8) &&& 0xFF, (x_raw >>> 16) &&& 0xFF,
       (x_raw >>> 24) &&& 0xFF, (y_raw >>> 0) &&& 0xFF, (y_raw >>> 8) &&& 0xFF,
       (y_raw >>> 16) &&& 0xFF, (y_raw >>> 24) &&& 0xFF]
    let s := { s with Slave_TxHeader :=
      CAN_TxHeader_Init s.Slave_TxHeader (CAN_Command_StdId ENC_ID ENC_DATA) ENC_DATA_DLC }
    let s := { s with mailbox := get_Empty_Mailbox hw.TSR }
    let s := (HAL_CAN_AddTxMessage hw s (some data)).1
    { s with Encoder_Data_time := tick1 }
  else s

/-- The function `CAN_Sensor_ErrorFb` of `CANSlavelib.c`; `Sensor` is passed by
value. -/
def CAN_Sensor_ErrorFb (hw : Platform) (s : Slave) (Sensor : Sensor_HandleTypedef) :
    Option Slave := do
  let StdId := CAN_Command_StdId Sensor.sensor_id ERROR_ID
  let s := { s with Slave_TxHeader := CAN_TxHeader_Init s.Slave_TxHeader StdId ERROR_DLC }
  let s := { s with mailbox := get_Empty_Mailbox hw.TSR }
  let r := HAL_CAN_AddTxMessage hw s none
  let s := r.1
  if r.2 ≠ HAL_OK then
    let s := { s with Slave_TxMessage := { s.Slave_TxMessage with
      TxHeader := CAN_TxHeader_Copy s.Slave_TxMessage.TxHeader s.Slave_TxHeader } }
    let e ← CAN_EnTxQueue s.Slave_TxQueue s.Slave_TxMessage
    pure { s with Slave_TxQueue := e.1 }
  else pure s

/-- The function `CAN_Slave_FIFO0_RxMessage` of `CANSlavelib.c`.
`GetRxMessage` is what `HAL_CAN_GetRxMessage(hcan, CAN_RX_FIFO0,
&Slave_RxMessage.RxHeader, Slave_RxMessage.rxdata)` does during this call: from
the contents of `Slave_RxMessage` before the call, the status it returns and the
contents it leaves. -/
def CAN_Slave_FIFO0_RxMessage (hw : Platform)
    (GetRxMessage : CAN_RxMessage → Nat × CAN_RxMessage) (s : Slave) : Option Slave :=
  let r := GetRxMessage s.Slave_RxMessage
  let s := { s with Slave_RxMessage := r.2 }
  if r.1 ≠ HAL_OK then some s
  else if getSensor_Id s.Slave_RxMessage.RxHeader = IMU_ID ∨
      getSensor_Id s.Slave_RxMessage.RxHeader = ENC_ID then do
    let s := { s with Slave_RxQueue := CAN_If_RxQueue_notCreate s.Slave_RxQueue hw.heapRx }
    let e ← CAN_EnRxQueue s.Slave_RxQueue s.Slave_RxMessage
    pure { s with Slave_RxQueue := e.1 }
  else some s

/-! ## Observing the retry pump and the feedback functions -/

/-- Consecutive calls of `CAN_Slave_FIFO0_ReFb_Handle`, observed: the statics
after the last call and, oldest first, the transmit attempts made during the
calls that the hardware answered with `HAL_OK`. -/
def CAN_Slave_FIFO0_ReFb_Handle_delivered :
    Slave → List Platform → Option (Slave × List TxAttempt)
  | s, [] => some (s, [])
  | s, hw :: hws =>
    match CAN_Slave_FIFO0_ReFb_Handle hw s with
    | some s' =>
      (CAN_Slave_FIFO0_ReFb_Handle_delivered s' hws).map fun r =>
        (r.1, ((s'.sent.drop s.sent.length).filter
                fun a => decide ((hw.AddTxMessage a).1 = HAL_OK)) ++ r.2)
    | none => none

/-- What one call of `CAN_Slave_FIFO0_ReFb_Handle` does in the state `t`, the
hardware answering as `hw`: on an empty Tx queue it returns `t` itself; on a Tx
queue holding `f :: rest` it makes exactly one transmit attempt, of `f`, and the
queue then holds `rest` if the hardware answered `HAL_OK` and is the same object
otherwise. -/
def RetryCall (hw : Platform) (t : Slave) : Prop :=
  (t.Slave_TxQueue.used = 0 → CAN_Slave_FIFO0_ReFb_Handle hw t = some t) ∧
  (∀ f rest, t.Slave_TxQueue.frames = f :: rest →
    ∃ t', CAN_Slave_FIFO0_ReFb_Handle hw t = some t' ∧
      t'.sent = t.sent ++ [retry_attempt hw f] ∧
      CAN_TxQueue_getFront t.Slave_TxQueue = some f ∧ t'.Slave_TxQueue.WF ∧
      ((hw.AddTxMessage (retry_attempt hw f)).1 = HAL_OK →
        t'.Slave_TxQueue.frames = rest) ∧
      ((hw.AddTxMessage (retry_attempt hw f)).1 ≠ HAL_OK →
        t'.Slave_TxQueue = t.Slave_TxQueue))

/-- The outcome `res` of a feedback function of kind `k` and length `dlc`
answering the received frame `r` in the state `s`: it returns, it hands one
header to the hardware, which has `StdId = CAN_Command_StdId(sensor id of r, k)`,
`DLC = dlc`, `ExtId = 0`, the standard-id and data-frame flags and the
global-time flag disabled; the Tx queue gains the frames `added` (one frame when
the transmit fails and there is room, none otherwise), each with that header;
and `dlc` is at most 8. -/
def FeedbackHeader (hw : Platform) (s : Slave) (r : CAN_RxMessage) (k dlc : Nat)
    (res : Option Slave) : Prop :=
  ∃ s' a added, res = some s' ∧ s'.sent = s.sent ++ [a] ∧
    a.pHeader = { StdId := CAN_Command_StdId (getSensor_Id r.RxHeader) k, ExtId := 0,
                  IDE := CAN_ID_STD, RTR := CAN_RTR_DATA, DLC := dlc,
                  TransmitGlobalTime := DISABLE } ∧
    s'.Slave_TxQueue.frames = s.Slave_TxQueue.frames ++ added ∧
    (∀ m ∈ added, m.TxHeader = a.pHeader ∧ m.TxHeader.DLC ≤ 8) ∧
    ((hw.AddTxMessage a).1 ≠ HAL_OK → s.Slave_TxQueue.used < CAN_QUEUE_CAPACITY →
      added.length = 1) ∧
    ((hw.AddTxMessage a).1 = HAL_OK → added = []) ∧
    dlc ≤ 8

/-- The outcome `res` of a feedback function in the state `s`: it returns and
makes exactly one transmit attempt, whose data pointer leads to `data` (`none`
for `NULL`). -/
def FeedbackPayload (s : Slave) (data : Option (List Nat)) (res : Option Slave) : Prop :=
  ∃ s' a, res = some s' ∧ s'.sent = s.sent ++ [a] ∧ a.aData = data

/-- What `CAN_Slave_FIFO0_RxMessage` does in the state `s` when the hardware
answers with the status `st` and leaves the frame `m` in `Slave_RxMessage`:
it returns `res`, never touches the Tx side, and stores `m`, as delivered, at the
end of the Rx queue exactly when the status is `HAL_OK`, the sensor id of `m` is
`IMU_ID` or `ENC_ID` and the Rx queue holds fewer than `CAN_QUEUE_CAPACITY`
frames; otherwise the Rx queue holds the frames it held. -/
def Received (s : Slave) (st : Nat) (m : CAN_RxMessage) (res : Option Slave) : Prop :=
  ∃ s', res = some s' ∧ s'.Slave_TxQueue = s.Slave_TxQueue ∧ s'.sent = s.sent ∧
    s'.Slave_RxMessage = m ∧ s'.Slave_RxQueue.Ready ∧
    (st = HAL_OK → (getSensor_Id m.RxHeader = IMU_ID ∨ getSensor_Id m.RxHeader = ENC_ID) →
      s.Slave_RxQueue.used < CAN_QUEUE_CAPACITY →
      s'.Slave_RxQueue.frames = s.Slave_RxQueue.frames ++ [m]) ∧
    (¬ (st = HAL_OK ∧ (getSensor_Id m.RxHeader = IMU_ID ∨ getSensor_Id m.RxHeader = ENC_ID) ∧
        s.Slave_RxQueue.used < CAN_QUEUE_CAPACITY) →
      s'.Slave_RxQueue.frames = s.Slave_RxQueue.frames)

/-! ## Encoder counting (`EncoderPosition.c`) -/

/-- Store of an `int` value into an `int16_t` object. -/
def toInt16 (x : Int) : Int := (x + 32768) % 65536 - 32768

def TIMER_MAX_CNT : Int := 65535
def TIMER_MIN_CNT : Int := 0

/-- Modelled from the spec: the direction bit `TIM_CR1_DIR` of the timer control
register `CR1` (`stm32f103xb.h`, not among the sources). -/
def TIM_CR1_DIR : Nat := 0x10

/-- Modelled from the spec: the HAL macro `__HAL_TIM_IS_TIM_COUNTING_DOWN` of
the absent `stm32f1xx_hal_tim.h`, `((CR1 & TIM_CR1_DIR) == TIM_CR1_DIR)`: 1 when
the counter counts down, 0 when it counts up. -/
def HAL_TIM_IS_TIM_COUNTING_DOWN (htim : TIM_HandleTypeDef) : Nat :=
  if htim.CR1 &&& TIM_CR1_DIR = TIM_CR1_DIR then 1 else 0

/-- The value `Encoder_CNT_Counter` computes for its local `int16_t diff`, from
the counter reading `current_CNT_value`. -/
def Encoder_CNT_diff (encoder : Encoder_HandleTypeDef) (current_CNT_value : Nat) : Int :=
  if current_CNT_value = encoder.last_CNT_value then 0
  else if current_CNT_value > encoder.last_CNT_value then
    if HAL_TIM_IS_TIM_COUNTING_DOWN encoder.htim ≠ 0 then
      toInt16 (-(encoder.last_CNT_value : Int) - (TIMER_MAX_CNT - (current_CNT_value : Int)))
    else
      toInt16 ((current_CNT_value : Int) - (encoder.last_CNT_value : Int))
  else
    if HAL_TIM_IS_TIM_COUNTING_DOWN encoder.htim ≠ 0 then
      toInt16 ((current_CNT_value : Int) - (encoder.last_CNT_value : Int))
    else
      toInt16 ((current_CNT_value : Int) + (TIMER_MAX_CNT - (encoder.last_CNT_value : Int)))

/-- The function `Encoder_CNT_Counter` of `EncoderPosition.c`. The register
`CNT` is read into a `uint16_t`; `CNT_value` is an `int32_t`, and the addition
`CNT_value += diff` has no defined result outside its range. -/
def Encoder_CNT_Counter (encoder : Encoder_HandleTypeDef) : Option Encoder_HandleTypeDef :=
  let current_CNT_value := toUInt16 encoder.htim.CNT
  let diff := Encoder_CNT_diff encoder current_CNT_value
  let sum := encoder.CNT_value + diff
  if -2147483648 ≤ sum ∧ sum ≤ 2147483647 then
    some { encoder with CNT_value := sum, last_CNT_value := current_CNT_value }
  else none

/-! ## IMU reception and zero reset (`IMU.c`) -/

/-- The struct `Angle_ReadTypeDef` of `IMU.h`. The three `float` fields hold
their value as a rational number: `IMU_Data_Process` only stores values
`v * 180 / 32768` with `0 <= v <= 65535`, which `float` represents exactly. -/
structure Angle_ReadTypeDef where
  x : ℚ
  y : ℚ
  z : ℚ
deriving DecidableEq

/-- The assignment `a[i] = v` to an array of bytes. -/
def writeAt (a : List Nat) (i v : Nat) : Option (List Nat) :=
  if i < a.length then some (a.set i v) else none

/-- The function `IMU_Data_In` of `IMU.c`; `data` is a `uint8_t`. -/
def IMU_Data_In (imu : IMU_Statics) (data : Nat) : Option IMU_Statics := do
  let imu := if data = 0x55 ∧ imu.data_len = 0 then { imu with recieve_flag := 1 } else imu
  let imu ←
    if imu.recieve_flag ≠ 0 then do
      let buff ← writeAt imu.buff imu.data_len data
      let imu := { imu with buff := buff }
      pure { imu with data_len := toUInt8 (imu.data_len + 1) }
    else pure imu
  if imu.data_len > 10 then pure { imu with uart_flag := 1 } else pure imu

/-- The function `IMU_Data_Process` of `IMU.c`; `aData` is the caller's array. -/
def IMU_Data_Process (imu : IMU_Statics) (angle : Angle_ReadTypeDef) (aData : List Nat) :
    Option (IMU_Statics × Angle_ReadTypeDef × List Nat) :=
  if imu.uart_flag ≠ 0 then do
    let b2 ← imu.buff[2]?
    let b3 ← imu.buff[3]?
    let b4 ← imu.buff[4]?
    let b5 ← imu.buff[5]?
    let b6 ← imu.buff[6]?
    let b7 ← imu.buff[7]?
    let b8 ← imu.buff[8]?
    let b9 ← imu.buff[9]?
    let imu := { imu with
      checksum := toUInt8 (0x55 + 0x53 + b2 + b3 + b4 + b5 + b6 + b7 + b8 + b9) }
    let b1 ← imu.buff[1]?
    let accepted ←
      if b1 = 0x53 then do
        let b10 ← imu.buff[10]?
        pure (decide (imu.checksum = b10))
      else pure false
    let r ←
      if accepted then do
        let angle := { angle with x := ((((b3 <<< 8) ||| b2 : Nat) : ℚ) / 32768) * 180 }
        let angle := { angle with y := ((((b5 <<< 8) ||| b4 : Nat) : ℚ) / 32768) * 180 }
        let angle := { angle with z := ((((b7 <<< 8) ||| b6 : Nat) : ℚ) / 32768) * 180 }
        let aData ← writeAt aData 0 b2
        let aData ← writeAt aData 1 b3
        let aData ← writeAt aData 2 b4
        let aData ← writeAt aData 3 b5
        let aData ← writeAt aData 4 b6
        let aData ← writeAt aData 5 b7
        pure (angle, aData)
      else pure (angle, aData)
    let imu := { imu with uart_flag := 0 }
    let imu := { imu with recieve_flag := 0 }
    let imu := { imu with data_len := 0 }
    pure (imu, r.1, r.2)
  else pure (imu, angle, aData)

/-- Consecutive calls of `IMU_Data_In`, one for each byte. -/
def IMU_Data_In_calls : IMU_Statics → List Nat → Option IMU_Statics
  | imu, [] => some imu
  | imu, data :: rest =>
    match IMU_Data_In imu data with
    | some imu' => IMU_Data_In_calls imu' rest
    | none => none

/-- For each byte, a call of `IMU_Data_In` followed by a call of
`IMU_Data_Process`. -/
def IMU_Data_In_Process_calls :
    IMU_Statics × Angle_ReadTypeDef × List Nat → List Nat →
      Option (IMU_Statics × Angle_ReadTypeDef × List Nat)
  | st, [] => some st
  | st, data :: rest =>
    match IMU_Data_In st.1 data with
    | some imu' =>
      match IMU_Data_Process imu' st.2.1 st.2.2 with
      | some st' => IMU_Data_In_Process_calls st' rest
      | none => none
    | none => none

def unlock_cmd : List Nat := [0xFF, 0xAA, 0x69, 0x88, 0xB5]
def reset_zero_cmd : List Nat := [0xFF, 0xAA, 0x01, 0x04, 0x00]
def save_cmd : List Nat := [0xFF, 0xAA, 0x00, 0x00, 0x00]

/-- The function `IMU_Reset_Zero` of `IMU.c`: the statics after the call and the
commands handed to `HAL_UART_Transmit` during it. `tick0` is the value
`HAL_GetTick()` returns at the test, `tick1` the value it returns after the
transmit; the function-scope static `time` is `Reset_Zero_time`. -/
def IMU_Reset_Zero (tick0 tick1 : Nat) (imu : IMU_Statics) : IMU_Statics × List (List Nat) :=
  if sub32 tick0 imu.Reset_Zero_time > 100 ∧ imu.flag ≠ 3 then
    if imu.flag = 0 then
      ({ imu with flag := toUInt8 (imu.flag + 1), Reset_Zero_time := tick1 }, [unlock_cmd])
    else if imu.flag = 1 then
      ({ imu with flag := toUInt8 (imu.flag + 1), Reset_Zero_time := tick1 }, [reset_zero_cmd])
    else if imu.flag = 2 then
      ({ imu with flag := toUInt8 (imu.flag + 1), Reset_Zero_time := tick1 }, [save_cmd])
    else (imu, [])
  else (imu, [])

/-- Consecutive calls of `IMU_Reset_Zero`, one for each pair `(tick0, tick1)` of
tick values: the statics after the last call and, oldest first, the commands
transmitted, each with the two tick values of its call. -/
def IMU_Reset_Zero_calls :
    IMU_Statics → List (Nat × Nat) → IMU_Statics × List (Nat × Nat × List Nat)
  | imu, [] => (imu, [])
  | imu, t :: ts =>
    ((IMU_Reset_Zero_calls (IMU_Reset_Zero t.1 t.2 imu).1 ts).1,
     (IMU_Reset_Zero t.1 t.2 imu).2.map (fun c => (t.1, t.2, c)) ++
       (IMU_Reset_Zero_calls (IMU_Reset_Zero t.1 t.2 imu).1 ts).2)

/-- Each transmitted command was sent more than 100 ticks, in `uint32_t`
arithmetic, after the time stored by the previous one (`time` at the start). -/
def Spaced : Nat → List (Nat × Nat × List Nat) → Prop
  | _, [] => True
  | time, e :: es => sub32 e.1 time > 100 ∧ Spaced e.2.1 es

/-! ## States of the node reached by receiving and dispatching -/

/-- A received frame whose decoded sensor id is `IMU_ID` or `ENC_ID`. -/
def Recognised (f : CAN_RxMessage) : Prop :=
  getSensor_Id f.RxHeader = IMU_ID ∨ getSensor_Id f.RxHeader = ENC_ID

instance (f : CAN_RxMessage) : Decidable (Recognised f) := by
  unfold Recognised
  infer_instance

/-- One call made on the node: the receive callback, with what the hardware
answers, or one tick of the dispatcher. -/
inductive NodeCall where
  | receive (hw : Platform) (GetRxMessage : CAN_RxMessage → Nat × CAN_RxMessage)
  | tick (hw : Platform)

/-- The call made on the node `n`. -/
def NodeCall.run {U : Type} (user : Handlers U) (n : Node U) : NodeCall → Option (Node U)
  | NodeCall.receive hw GetRxMessage =>
    (CAN_Slave_FIFO0_RxMessage hw GetRxMessage n.slave).map fun s => { n with slave := s }
  | NodeCall.tick hw => CAN_Slave_FIFO0_Recieve_Cmd_Handle user hw n

/-- A sequence of calls made one after the other on the node. -/
def runNode {U : Type} (user : Handlers U) : Node U → List NodeCall → Option (Node U)
  | n, [] => some n
  | n, c :: cs =>
    match c.run user n with
    | some n' => runNode user n' cs
    | none => none

/-! ## Concrete frames and states, for the instances -/

/-- A transmit frame with identifier `n`, length 0 and a zero payload. -/
def sampleTx (n : Nat) : CAN_TxMessage :=
  { TxHeader := { StdId := n, ExtId := 0, IDE := 0, RTR := 0, DLC := 0,
                  TransmitGlobalTime := 0 }
    txdata := CAN_Data_zero }

/-- A received frame with identifier `StdId` and payload bytes `b0`, `b1`
followed by zeros. -/
def sampleRx (StdId b0 b1 : Nat) : CAN_RxMessage :=
  { RxHeader := { CAN_RxHeader_zero with StdId := StdId, DLC := 2 }
    rxdata := { CAN_Data_zero with d0 := b0, d1 := b1 } }

/-- A simulated peripheral: all three mailboxes free, every transmit answered
with `status`. -/
def samplePlatform (status : Nat) : Platform :=
  { TSR := CAN_TSR_TME0 ||| CAN_TSR_TME1 ||| CAN_TSR_TME2
    AddTxMessage := fun a => (status, a.TxMailbox)
    heapTx := fun _ => sampleTx 0
    heapRx := fun _ => sampleRx 0 0 0 }

/-- A queue of capacity `CAN_QUEUE_CAPACITY` holding `items` (at most four),
as `CAN_If_TxQueue_notCreate` and enqueues leave it. -/
def sampleQueue {α : Type} (fill : α) (items : List α) : CAN_Queue α :=
  { front := 0
    rear := (items.length : Int) - 1
    used := items.length
    capacity := CAN_QUEUE_CAPACITY
    is_create := 1
    Message := items ++ List.replicate (CAN_QUEUE_CAPACITY - items.length) fill }

/-- Handle functions of a node with one IMU sensor handle: the start handle
calls `CAN_Start_IMU`, the others keep their `__weak` bodies. -/
def sampleHandlers : Handlers Sensor_HandleTypedef :=
  { weak_Handlers Sensor_HandleTypedef with
    CAN_Sensor_Start_Handle := fun x => CAN_Start_IMU x.1 x.2 }

/-- A sensor handle for sensor `id` after a start command with frequency
`freq`. -/
def sampleSensor (id freq start_flag : Nat) : Sensor_HandleTypedef :=
  { sensor_id := id, freq := freq, start_flag := start_flag, stop_flag := 0 }

/-- A hardware receive that answers `status` and delivers the frame `m`. -/
def sampleGetRxMessage (status : Nat) (m : CAN_RxMessage) :
    CAN_RxMessage → Nat × CAN_RxMessage :=
  fun _ => (status, m)

/-- What both lazy-creation functions do, for the queue `q` and the contents
`junk` of a fresh block: with `is_create == 0` the result is an empty queue of
capacity `CAN_QUEUE_CAPACITY` with `is_create == 1` (`front` 0, `rear` -1, a
block of `CAN_QUEUE_CAPACITY` slots); with `is_create` set the result is `q`
itself, so it holds the frames it held; and a second call changes nothing. -/
def OneShot {α : Type} (q : CAN_Queue α) (junk : Nat → α) : Prop :=
  (q.is_create = 0 →
    (CAN_If_Queue_notCreate q junk).used = 0 ∧
    (CAN_If_Queue_notCreate q junk).frames = [] ∧
    (CAN_If_Queue_notCreate q junk).capacity = CAN_QUEUE_CAPACITY ∧
    (CAN_If_Queue_notCreate q junk).is_create = 1 ∧
    (CAN_If_Queue_notCreate q junk).front = 0 ∧
    (CAN_If_Queue_notCreate q junk).rear = -1 ∧
    (CAN_If_Queue_notCreate q junk).Message.length = CAN_QUEUE_CAPACITY ∧
    CAN_Queue_isEmpty (CAN_If_Queue_notCreate q junk) = 1 ∧
    (CAN_If_Queue_notCreate q junk).WF) ∧
  (q.is_create ≠ 0 →
    CAN_If_Queue_notCreate q junk = q ∧ (CAN_If_Queue_notCreate q junk).frames = q.frames) ∧
  (∀ junk2, CAN_If_Queue_notCreate (CAN_If_Queue_notCreate q junk) junk2 =
    CAN_If_Queue_notCreate q junk)

/-- Handle functions of a node with one sensor handle: the start handle calls
`CAN_Start_IMU`, the stop handle calls `CAN_Stop_Sensor`, the others keep their
`__weak` bodies. -/
def sampleStopHandlers (hw : Platform) : Handlers Sensor_HandleTypedef :=
  { weak_Handlers Sensor_HandleTypedef with
    CAN_Sensor_Start_Handle := fun x => CAN_Start_IMU x.1 x.2
    CAN_Sensor_Stop_Handle := fun x => CAN_Stop_Sensor hw x.1 x.2 }

/-- An encoder handle with total count 100 whose timer read `last` at the
previous call and reads `CNT` now, with the control register `CR1`. -/
def sampleCounting (last CNT CR1 : Nat) : Encoder_HandleTypeDef :=
  { sampleEncoder with
    htim := { CNT := CNT, CR1 := CR1 }, CNT_value := 100, last_CNT_value := last }

/-- The statics of `IMU.c` at program start: an 11-byte buffer of zeros. -/
def sampleIMU : IMU_Statics :=
  { buff := List.replicate 11 0, recieve_flag := 0, data_len := 0, uart_flag := 0,
    flag := 0, checksum := 0, Reset_Zero_time := 0 }

/-- Calls on a node: a frame for the unknown sensor 2 arrives, a start command
for sensor 0 arrives, a receive fails, a reset command for sensor 1 arrives, the
dispatcher runs once, a stop command for sensor 1 arrives. -/
def sampleCalls : List NodeCall :=
  [NodeCall.receive (samplePlatform HAL_OK) (sampleGetRxMessage HAL_OK (sampleRx 64 0 0)),
   NodeCall.receive (samplePlatform HAL_OK) (sampleGetRxMessage HAL_OK (sampleRx 0 0x64 0)),
   NodeCall.receive (samplePlatform HAL_OK) (sampleGetRxMessage HAL_ERROR (sampleRx 33 0 0)),
   NodeCall.receive (samplePlatform HAL_OK) (sampleGetRxMessage HAL_OK (sampleRx 33 0 0)),
   NodeCall.tick (samplePlatform HAL_OK),
   NodeCall.receive (samplePlatform HAL_OK) (sampleGetRxMessage HAL_OK (sampleRx 34 0 0))]

/-! # Properties -/

/-! ## Machine integers -/

theorem toInt8_of_range (x : Int) (h0 : -128 ≤ x) (h1 : x < 128) : toInt8 x = x := by
  unfold toInt8
  omega

theorem toUInt8_of_lt (x : Nat) (h : x < 256) : toUInt8 x = x := by
  unfold toUInt8
  omega

/-! ## Queues -/

section Queue

variable {α : Type}

/-- The indices of a well-formed queue as natural numbers. -/
theorem CAN_Queue.WF.indices {q : CAN_Queue α} (h : q.WF) :
    ∃ f r : Nat, q.front = f ∧ q.rear + 1 = r ∧ f < q.capacity ∧ r ≤ q.capacity ∧
      r % q.capacity = (f + q.used) % q.capacity := by
  obtain ⟨_, _, _, hf0, hf1, hr0, hr1, _, hmod⟩ := h
  refine ⟨q.front.toNat, (q.rear + 1).toNat, ?_, ?_, ?_, ?_, hmod⟩ <;> omega

theorem tmod_natCast (r c : Nat) : ((r : Int)).tmod (c : Int) = ((r % c : Nat) : Int) :=
  (Int.ofNat_tmod r c).symm

theorem slot_ne_of_lt {f c i u : Nat} (hi : i < u) (hu : u < c) :
    (f + i) % c ≠ (f + u) % c := by
  intro h
  have h1 : i % c = u % c := Nat.ModEq.add_left_cancel' f h
  rw [Nat.mod_eq_of_lt (by omega), Nat.mod_eq_of_lt hu] at h1
  omega

theorem length_filterMap_range {g : Nat → Option α} :
    ∀ k : Nat, (∀ i, i < k → ∃ x, g i = some x) →
      ((List.range k).filterMap g).length = k
  | 0, _ => by simp
  | k + 1, h => by
    obtain ⟨x, hx⟩ := h k (by omega)
    rw [List.range_succ, List.filterMap_append, List.length_append,
      length_filterMap_range k (fun i hi => h i (by omega))]
    simp [hx]

theorem CAN_Queue.WF.slot {q : CAN_Queue α} (h : q.WF) (i : Nat) :
    ∃ x, q.Message[(q.front.toNat + i) % q.capacity]? = some x := by
  have hlt : (q.front.toNat + i) % q.capacity < q.Message.length := by
    rw [h.2.2.1]
    exact Nat.mod_lt _ h.1
  exact ⟨_, List.getElem?_eq_getElem hlt⟩

theorem CAN_Queue.WF.length_frames {q : CAN_Queue α} (h : q.WF) :
    q.frames.length = q.used :=
  length_filterMap_range q.used (fun i _ => h.slot i)

theorem CAN_Create_Queue_WF (q0 : CAN_Queue α) (N : Nat) (junk : Nat → α)
    (h1 : 1 ≤ N) (h2 : N ≤ 128) :
    (CAN_Create_Queue q0 N junk).WF ∧ (CAN_Create_Queue q0 N junk).frames = [] ∧
      (CAN_Create_Queue q0 N junk).capacity = N ∧ (CAN_Create_Queue q0 N junk).used = 0 := by
  have hN : toUInt8 N = N := toUInt8_of_lt N (by omega)
  have hr : toInt8 (-1) = -1 := by decide
  refine ⟨?_, ?_, ?_, rfl⟩
  · simp only [CAN_Queue.WF, CAN_Create_Queue, hN, hr, malloc, List.length_map,
      List.length_range]
    refine ⟨h1, h2, trivial, le_refl _, ?_, le_refl _, ?_, Nat.zero_le _, ?_⟩
    · omega
    · omega
    · simp
  · simp [CAN_Queue.frames, CAN_Create_Queue]
  · simp [CAN_Create_Queue, hN]

/-- A dequeue on a non-empty well-formed queue returns 0, removes the oldest
frame and keeps the rest in order. -/
theorem CAN_DeQueue_WF {q : CAN_Queue α} (h : q.WF) (hne : q.used ≠ 0) :
    ∃ q' x, CAN_DeQueue q = some (q', 0) ∧ q'.WF ∧ q.frames = x :: q'.frames ∧
      CAN_Queue_getFront q = some x ∧ q'.used + 1 = q.used ∧
      q'.capacity = q.capacity ∧ q'.rear = q.rear ∧ q'.Message = q.Message ∧
      q'.is_create = q.is_create := by
  obtain ⟨f, r, hf, hr, hfc, hrc, hmod⟩ := h.indices
  obtain ⟨hc1, hc2, hlen, _, _, hr0, hr1, hu, _⟩ := h
  have hfront : toInt8 ((q.front + 1).tmod (q.capacity : Int)) = (((f + 1) % q.capacity : Nat) : Int) := by
    have : q.front + 1 = ((f + 1 : Nat) : Int) := by rw [hf]; push_cast; rfl
    rw [this, tmod_natCast]
    apply toInt8_of_range <;> have := Nat.mod_lt (f + 1) hc1 <;> omega
  have hused : toUInt8 (q.used + 255) + 1 = q.used := by unfold toUInt8; omega
  obtain ⟨x, hx⟩ : ∃ x, q.Message[f]? = some x :=
    ⟨_, List.getElem?_eq_getElem (by omega)⟩
  have hcap0 : q.capacity ≠ 0 := by omega
  refine ⟨{ q with front := (((f + 1) % q.capacity : Nat) : Int),
                   used := toUInt8 (q.used + 255) }, x, ?_, ?_, ?_, ?_, hused, rfl, rfl,
    rfl, rfl⟩
  · simp [CAN_DeQueue, CAN_Queue_isEmpty, hne, hcap0, hfront]
  · have hm := Nat.mod_lt (f + 1) hc1
    refine ⟨hc1, hc2, hlen, ?_, ?_, hr0, hr1, ?_, ?_⟩
    · simp only; omega
    · simp only; omega
    · simp only; omega
    · simp only [Int.toNat_ofNat]
      have hr' : (q.rear + 1).toNat = r := by omega
      rw [hr', hmod, Nat.mod_add_mod]
      congr 1
      omega
  · obtain ⟨k, hk⟩ : ∃ k, q.used = k + 1 := ⟨q.used - 1, by omega⟩
    have hk' : toUInt8 (k + 1 + 255) = k := by unfold toUInt8; omega
    simp only [CAN_Queue.frames, hk, hk', hf, Int.toNat_ofNat]
    rw [List.range_succ_eq_map, List.filterMap_cons_some
      (by simpa [Nat.mod_eq_of_lt hfc] using hx), List.filterMap_map]
    congr 1
    apply List.filterMap_congr
    intro i _
    simp only [Function.comp, Nat.succ_eq_add_one, Nat.mod_add_mod]
    congr 2
    omega
  · simp [CAN_Queue_getFront, readAt, hf, hx]

/-- An enqueue on a well-formed queue that is not full returns 0 and appends
the frame at the end. -/
theorem CAN_EnQueue_WF {q : CAN_Queue α} (h : q.WF) (hroom : q.used < q.capacity)
    (item : α) :
    ∃ q', CAN_EnQueue q item = some (q', 0) ∧ q'.WF ∧ q'.frames = q.frames ++ [item] ∧
      q'.used = q.used + 1 ∧ q'.capacity = q.capacity ∧ q'.front = q.front ∧
      q'.is_create = q.is_create := by
  obtain ⟨f, r, hf, hr, hfc, hrc, hmod⟩ := h.indices
  obtain ⟨hc1, hc2, hlen, _, _, hr0, hr1, hu, _⟩ := h
  have hm := Nat.mod_lt r hc1
  have hrear : toInt8 ((q.rear + 1).tmod (q.capacity : Int)) = ((r % q.capacity : Nat) : Int) := by
    rw [hr, tmod_natCast]
    apply toInt8_of_range <;> omega
  have hused : toUInt8 (q.used + 1) = q.used + 1 := toUInt8_of_lt _ (by omega)
  have hfull : q.used ≠ q.capacity := by omega
  have hcap0 : q.capacity ≠ 0 := by omega
  refine ⟨{ q with rear := ((r % q.capacity : Nat) : Int),
                   Message := q.Message.set (r % q.capacity) item,
                   used := q.used + 1 }, ?_, ?_, ?_, rfl, rfl, rfl, rfl⟩
  · have hin' : (0 : Int) ≤ ((r % q.capacity : Nat) : Int) ∧
        r % q.capacity < q.Message.length := by
      rw [hlen]
      exact ⟨Int.natCast_nonneg _, hm⟩
    simp only [CAN_EnQueue, CAN_Queue_isFull, if_neg hfull, if_neg hcap0, hrear, hused,
      if_pos hin', Int.toNat_ofNat, ne_eq, one_ne_zero, not_false_eq_true, not_true_eq_false,
      if_false, zero_ne_one]
  · refine ⟨hc1, hc2, ?_, ?_, ?_, ?_, ?_, ?_, ?_⟩
    · simp only [List.length_set]; exact hlen
    · simp only; omega
    · simp only; omega
    · simp only; omega
    · simp only; omega
    · simp only; omega
    · have e : ((((r % q.capacity : Nat) : Int) + 1).toNat) = r % q.capacity + 1 := by omega
      simp only [e, hf, Int.toNat_ofNat]
      rw [← Nat.mod_add_mod, hmod, Nat.mod_add_mod, Nat.mod_add_mod, Nat.add_assoc]
  · simp only [CAN_Queue.frames, hf, Int.toNat_ofNat]
    rw [List.range_succ, List.filterMap_append]
    congr 1
    · apply List.filterMap_congr
      intro i hi
      rw [List.mem_range] at hi
      apply List.getElem?_set_ne
      rw [hmod]
      exact fun e => slot_ne_of_lt hi hroom e.symm
    · have hlt : r % q.capacity < q.Message.length := by omega
      simp [← hmod, List.getElem?_set_self hlt]

/-- An enqueue on a full queue returns -1 and changes nothing. -/
theorem CAN_EnQueue_full {q : CAN_Queue α} (hfull : q.used = q.capacity) (item : α) :
    CAN_EnQueue q item = some (q, -1) := by
  simp [CAN_EnQueue, CAN_Queue_isFull, hfull]

/-- A dequeue on an empty queue returns -1 and changes nothing. -/
theorem CAN_DeQueue_empty {q : CAN_Queue α} (hempty : q.used = 0) :
    CAN_DeQueue q = some (q, -1) := by
  simp [CAN_DeQueue, CAN_Queue_isEmpty, hempty]

theorem CAN_Queue.frames_of_used_eq_zero {q : CAN_Queue α} (h : q.used = 0) :
    q.frames = [] := by
  simp [CAN_Queue.frames, h]

/-- A well-formed queue behaves as the list of its frames. -/
theorem CAN_Queue.WF.behavesAs {q : CAN_Queue α} (h : q.WF) :
    BehavesAs q.capacity q q.frames := by
  have hlen := h.length_frames
  refine ⟨rfl, hlen.symm, ?_, ?_, ?_⟩
  · intro item
    by_cases hroom : q.used < q.capacity
    · obtain ⟨q', he, _, hfr, _⟩ := CAN_EnQueue_WF h hroom item
      exact ⟨q', by simpa [hlen, hroom] using he, by simp [fifo_step, hlen, hroom, hfr]⟩
    · have hfull : q.used = q.capacity := le_antisymm h.2.2.2.2.2.2.2.1 (not_lt.mp hroom)
      exact ⟨q, by simpa [hlen, hroom] using CAN_EnQueue_full hfull item,
        by simp [fifo_step, hlen, hroom]⟩
  · by_cases hne : q.used = 0
    · exact ⟨q, by simpa [hlen, hne] using CAN_DeQueue_empty hne,
        by simp [fifo_step, CAN_Queue.frames_of_used_eq_zero hne]⟩
    · obtain ⟨q', x, hd, _, hfr, _⟩ := CAN_DeQueue_WF h hne
      exact ⟨q', by simpa [hlen, hne] using hd, by simp [fifo_step, hfr]⟩
  · intro f rest hl
    have hne : q.used ≠ 0 := by
      intro h0
      rw [CAN_Queue.frames_of_used_eq_zero h0] at hl
      exact List.noConfusion hl
    obtain ⟨q', x, _, _, hfr, hg, _⟩ := CAN_DeQueue_WF h hne
    rw [hfr] at hl
    rw [hg, (List.cons.inj hl).1]

/-- One call keeps a well-formed queue well-formed and follows the list. -/
theorem QueueCall.run_WF {q : CAN_Queue α} (h : q.WF) (c : QueueCall α) :
    ∃ r, c.run q = some r ∧ r.1.WF ∧ r.1.capacity = q.capacity ∧
      r.1.frames = fifo_step q.capacity q.frames c := by
  have hlen := h.length_frames
  cases c with
  | enqueue item =>
    by_cases hroom : q.used < q.capacity
    · obtain ⟨q', he, hwf, hfr, _, hcap, _⟩ := CAN_EnQueue_WF h hroom item
      exact ⟨(q', 0), he, hwf, hcap, by simp [fifo_step, hlen, hroom, hfr]⟩
    · have hfull : q.used = q.capacity := le_antisymm h.2.2.2.2.2.2.2.1 (not_lt.mp hroom)
      exact ⟨(q, -1), CAN_EnQueue_full hfull item, h, rfl, by simp [fifo_step, hlen, hroom]⟩
  | dequeue =>
    by_cases hne : q.used = 0
    · exact ⟨(q, -1), CAN_DeQueue_empty hne, h, rfl,
        by simp [fifo_step, CAN_Queue.frames_of_used_eq_zero hne]⟩
    · obtain ⟨q', x, hd, hwf, hfr, _, _, hcap, _⟩ := CAN_DeQueue_WF h hne
      exact ⟨(q', 0), hd, hwf, hcap, by simp [fifo_step, hfr]⟩

/-- A sequence of calls keeps a well-formed queue well-formed and follows the
list. -/
theorem runCalls_WF (calls : List (QueueCall α)) :
    ∀ {q : CAN_Queue α}, q.WF →
      ∃ q', runCalls q calls = some q' ∧ q'.WF ∧ q'.capacity = q.capacity ∧
        q'.frames = fifo_run q.capacity q.frames calls := by
  induction calls with
  | nil => intro q h; exact ⟨q, rfl, h, rfl, rfl⟩
  | cons c cs ih =>
    intro q h
    obtain ⟨r, hr, hwf, hcap, hfr⟩ := c.run_WF h
    obtain ⟨q', hq', hwf', hcap', hfr'⟩ := ih hwf
    refine ⟨q', by simp [runCalls, hr, hq'], hwf', hcap'.trans hcap, ?_⟩
    rw [hfr', hcap, hfr]
    rfl

/-- Every state reached from a fresh queue of capacity `1 ≤ N ≤ 128` behaves as
the list the calls build. -/
theorem fresh_behavesAs (q0 : CAN_Queue α) (N : Nat) (junk : Nat → α) (h1 : 1 ≤ N)
    (h2 : N ≤ 128) (calls : List (QueueCall α)) :
    ∃ q, runCalls (CAN_Create_Queue q0 N junk) calls = some q ∧
      BehavesAs N q (fifo_run N [] calls) := by
  obtain ⟨hwf, hfr, hcap, _⟩ := CAN_Create_Queue_WF q0 N junk h1 h2
  obtain ⟨q, hq, hwf', hcap', hfr'⟩ := runCalls_WF calls hwf
  refine ⟨q, hq, ?_⟩
  have := hwf'.behavesAs
  rw [hcap', hcap, hfr', hcap, hfr] at this
  exact this

theorem fifo_run_enqueues (N : Nat) (items : List α) :
    ∀ l : List α, l.length + items.length ≤ N →
      fifo_run N l (items.map QueueCall.enqueue) = l ++ items := by
  induction items with
  | nil => intro l _; simp [fifo_run]
  | cons x xs ih =>
    intro l h
    have hl : l.length < N := by simp at h; omega
    have := ih (l ++ [x]) (by simp at h ⊢; omega)
    simpa [fifo_run, fifo_step, hl] using this

/-- A fresh queue of capacity `N ≤ 128` accepts exactly `N` enqueues: after
`k ≤ N` of them it holds the `k` frames, it is full exactly when `k = N`, the
next enqueue returns 0 when `k < N` and returns -1, changing nothing, when
`k = N`. -/
theorem enqueue_up_to_capacity (q0 : CAN_Queue α) (N : Nat) (junk : Nat → α)
    (h2 : N ≤ 128) (items : List α) (hk : items.length ≤ N) :
    ∃ q, runCalls (CAN_Create_Queue q0 N junk) (items.map QueueCall.enqueue) = some q ∧
      q.frames = items ∧ q.used = items.length ∧ q.capacity = N ∧
      CAN_Queue_isFull q = (if items.length = N then 1 else 0) ∧
      ∀ item, (items.length < N → ∃ q', CAN_EnQueue q item = some (q', 0) ∧
                  q'.frames = items ++ [item]) ∧
              (items.length = N → CAN_EnQueue q item = some (q, -1)) := by
  rcases Nat.eq_zero_or_pos N with h0 | h1
  · subst h0
    have hnil : items = [] := List.length_eq_zero.mp (Nat.le_zero.mp hk)
    subst hnil
    refine ⟨CAN_Create_Queue q0 0 junk, rfl, rfl, rfl, rfl, rfl, ?_⟩
    intro item
    exact ⟨fun h => absurd h (by simp), fun _ => CAN_EnQueue_full rfl item⟩
  · obtain ⟨hwf, hfr, hcap, _⟩ := CAN_Create_Queue_WF q0 N junk h1 h2
    obtain ⟨q, hq, hwf', hcap', hfr'⟩ := runCalls_WF (items.map QueueCall.enqueue) hwf
    rw [hcap, hfr, fifo_run_enqueues N items [] (by simpa using hk)] at hfr'
    rw [hcap] at hcap'
    simp only [List.nil_append] at hfr'
    have hused : q.used = items.length := by rw [← hwf'.length_frames, hfr']
    refine ⟨q, hq, hfr', hused, hcap', ?_, ?_⟩
    · simp [CAN_Queue_isFull, hused, hcap']
    · intro item
      constructor
      · intro hlt
        obtain ⟨q', he, _, hfr'', _⟩ := CAN_EnQueue_WF hwf' (by omega) item
        exact ⟨q', he, by rw [hfr'', hfr']⟩
      · intro heq
        exact CAN_EnQueue_full (by omega) item

/-- On a fresh queue of capacity `3 ≤ N ≤ 128`, enqueuing `A`, `B`, `C` and
reading the front before each of three dequeues yields `A`, `B`, `C`. -/
theorem enqueue3_read3 (q0 : CAN_Queue α) (N : Nat) (junk : Nat → α) (h3 : 3 ≤ N)
    (h2 : N ≤ 128) (A B C : α) :
    ∃ q1 q2 q3 q4 q5 q6,
      CAN_EnQueue (CAN_Create_Queue q0 N junk) A = some (q1, 0) ∧
      CAN_EnQueue q1 B = some (q2, 0) ∧ CAN_EnQueue q2 C = some (q3, 0) ∧
      CAN_Queue_getFront q3 = some A ∧ CAN_DeQueue q3 = some (q4, 0) ∧
      CAN_Queue_getFront q4 = some B ∧ CAN_DeQueue q4 = some (q5, 0) ∧
      CAN_Queue_getFront q5 = some C ∧ CAN_DeQueue q5 = some (q6, 0) ∧
      CAN_Queue_isEmpty q6 = 1 := by
  obtain ⟨hwf, hfr, hcap, hu⟩ := CAN_Create_Queue_WF q0 N junk (by omega) h2
  obtain ⟨q1, e1, w1, f1, u1, c1, _⟩ := CAN_EnQueue_WF hwf (by omega) A
  obtain ⟨q2, e2, w2, f2, u2, c2, _⟩ := CAN_EnQueue_WF w1 (by omega) B
  obtain ⟨q3, e3, w3, f3, u3, c3, _⟩ := CAN_EnQueue_WF w2 (by omega) C
  obtain ⟨q4, x4, d4, w4, g4, r4, v4, _⟩ := CAN_DeQueue_WF w3 (by omega)
  obtain ⟨q5, x5, d5, w5, g5, r5, v5, _⟩ := CAN_DeQueue_WF w4 (by omega)
  obtain ⟨q6, x6, d6, w6, g6, r6, v6, _⟩ := CAN_DeQueue_WF w5 (by omega)
  rw [f3, f2, f1, hfr] at g4
  simp only [List.nil_append, List.cons_append, List.cons.injEq] at g4
  obtain ⟨rfl, g4⟩ := g4
  rw [← g4] at g5
  simp only [List.cons.injEq] at g5
  obtain ⟨rfl, g5⟩ := g5
  rw [← g5] at g6
  simp only [List.cons.injEq] at g6
  obtain ⟨rfl, _⟩ := g6
  refine ⟨q1, q2, q3, q4, q5, q6, e1, e2, e3, r4, d4, r5, d5, r6, d6, ?_⟩
  have : q6.used = 0 := by omega
  simp [CAN_Queue_isEmpty, this]

end Queue

/-! ## Claims on the queues -/

/-- C1. FIFO order: for every capacity `N` with `1 ≤ N ≤ 127`, every state
reached from `CAN_Create_TxQueue(N)` (resp. `CAN_Create_RxQueue(N)`) by any
sequence of enqueue and dequeue calls is reached without fault and behaves as
the list the calls build: a successful enqueue (return 0, exactly when there is
room) appends its frame at the end, a successful dequeue (return 0, exactly when
the list is non-empty) removes the head, and `getFront` on a non-empty queue
returns the oldest frame. In particular, where three frames fit (`3 ≤ N`),
enqueuing `A`, `B`, `C` and reading `getFront` before each of three dequeues
yields `A`, `B`, `C`. -/
theorem fifo_order (N : Nat) (h1 : 1 ≤ N) (h127 : N ≤ 127) :
    (∀ (q0 : CAN_TxQueue) (junk : Nat → CAN_TxMessage)
        (calls : List (QueueCall CAN_TxMessage)),
      ∃ q, runCalls (CAN_Create_TxQueue q0 N junk) calls = some q ∧
        BehavesAs N q (fifo_run N [] calls)) ∧
    (∀ (q0 : CAN_RxQueue) (junk : Nat → CAN_RxMessage)
        (calls : List (QueueCall CAN_RxMessage)),
      ∃ q, runCalls (CAN_Create_RxQueue q0 N junk) calls = some q ∧
        BehavesAs N q (fifo_run N [] calls)) ∧
    (3 ≤ N → ∀ (q0 : CAN_TxQueue) (junk : Nat → CAN_TxMessage) (A B C : CAN_TxMessage),
      ∃ q1 q2 q3 q4 q5 q6,
        CAN_EnTxQueue (CAN_Create_TxQueue q0 N junk) A = some (q1, 0) ∧
        CAN_EnTxQueue q1 B = some (q2, 0) ∧ CAN_EnTxQueue q2 C = some (q3, 0) ∧
        CAN_TxQueue_getFront q3 = some A ∧ CAN_DeTxQueue q3 = some (q4, 0) ∧
        CAN_TxQueue_getFront q4 = some B ∧ CAN_DeTxQueue q4 = some (q5, 0) ∧
        CAN_TxQueue_getFront q5 = some C ∧ CAN_DeTxQueue q5 = some (q6, 0) ∧
        CAN_TxQueue_isEmpty q6 = 1) ∧
    (3 ≤ N → ∀ (q0 : CAN_RxQueue) (junk : Nat → CAN_RxMessage) (A B C : CAN_RxMessage),
      ∃ q1 q2 q3 q4 q5 q6,
        CAN_EnRxQueue (CAN_Create_RxQueue q0 N junk) A = some (q1, 0) ∧
        CAN_EnRxQueue q1 B = some (q2, 0) ∧ CAN_EnRxQueue q2 C = some (q3, 0) ∧
        CAN_RxQueue_getFront q3 = some A ∧ CAN_DeRxQueue q3 = some (q4, 0) ∧
        CAN_RxQueue_getFront q4 = some B ∧ CAN_DeRxQueue q4 = some (q5, 0) ∧
        CAN_RxQueue_getFront q5 = some C ∧ CAN_DeRxQueue q5 = some (q6, 0) ∧
        CAN_RxQueue_isEmpty q6 = 1) :=
  ⟨fun q0 junk calls => fresh_behavesAs q0 N junk h1 (by omega) calls,
   fun q0 junk calls => fresh_behavesAs q0 N junk h1 (by omega) calls,
   fun h3 q0 junk A B C => enqueue3_read3 q0 N junk h3 (by omega) A B C,
   fun h3 q0 junk A B C => enqueue3_read3 q0 N junk h3 (by omega) A B C⟩

/-- C1 at capacity 4: after enqueue 1, enqueue 2, dequeue the queue behaves as
the list holding frame 2, and frames 1, 2, 3 are read back in order. -/
theorem fifo_order_witness :
    1 ≤ 4 ∧ 4 ≤ 127 ∧
    (∃ q, runCalls (CAN_Create_TxQueue CAN_Queue_zero 4 (fun _ => sampleTx 0))
        [QueueCall.enqueue (sampleTx 1), QueueCall.enqueue (sampleTx 2),
         QueueCall.dequeue] = some q ∧ BehavesAs 4 q [sampleTx 2]) ∧
    (∃ q1 q2 q3 q4 q5 q6,
        CAN_EnTxQueue (CAN_Create_TxQueue CAN_Queue_zero 4 (fun _ => sampleTx 0))
          (sampleTx 1) = some (q1, 0) ∧
        CAN_EnTxQueue q1 (sampleTx 2) = some (q2, 0) ∧
        CAN_EnTxQueue q2 (sampleTx 3) = some (q3, 0) ∧
        CAN_TxQueue_getFront q3 = some (sampleTx 1) ∧ CAN_DeTxQueue q3 = some (q4, 0) ∧
        CAN_TxQueue_getFront q4 = some (sampleTx 2) ∧ CAN_DeTxQueue q4 = some (q5, 0) ∧
        CAN_TxQueue_getFront q5 = some (sampleTx 3) ∧ CAN_DeTxQueue q5 = some (q6, 0) ∧
        CAN_TxQueue_isEmpty q6 = 1) :=
  ⟨by decide, by decide,
   (fifo_order 4 (by decide) (by decide)).1 CAN_Queue_zero (fun _ => sampleTx 0) _,
   (fifo_order 4 (by decide) (by decide)).2.2.1 (by decide) CAN_Queue_zero
     (fun _ => sampleTx 0) (sampleTx 1) (sampleTx 2) (sampleTx 3)⟩

set_option maxRecDepth 100000 in
/-- C2, capacity 129. After 128 enqueues on a fresh queue of capacity 129 the
queue holds 128 frames, `rear` is 127 and the queue is not full; the 129th call
of `CAN_EnTxQueue` computes `(127 + 1) % 129 = 128`, stores it into the `int8_t`
field as -128 and writes `TxMessage[-128]`, outside the allocated block, instead
of returning 0. -/
theorem enqueue_capacity_129 :
    (runCalls (CAN_Create_TxQueue CAN_Queue_zero 129 (fun _ => sampleTx 0))
        (List.replicate 128 (QueueCall.enqueue (sampleTx 1)))).map
      (fun q => (q.used, q.rear, CAN_TxQueue_isFull q,
        toInt8 ((q.rear + 1).tmod (q.capacity : Int)), CAN_EnTxQueue q (sampleTx 1)))
      = some (128, 127, 0, -128, none) := by
  rfl

/-! ## Claims on the identifier codec -/

theorem codec_table :
    ∀ s, s < 64 → ∀ c, c < 32 →
      toUInt8 (CAN_Command_StdId s c >>> 5) = s ∧
      toUInt8 (CAN_Command_StdId s c &&& 0x1F) = c := by
  decide

/-- C3. Identifier round trip: for every `sensor_id` in [0,63] and `sub_id` in
[0,31], a received header whose `StdId` is `CAN_Command_StdId(sensor_id, sub_id)`
decodes to `getSensor_Id = sensor_id` and `getSensor_Cmd = sub_id`. -/
theorem identifier_round_trip (sensor_id sub_id : Nat) (hs : sensor_id ≤ 63)
    (hc : sub_id ≤ 31) (RxHeader : CAN_RxHeaderTypeDef)
    (hid : RxHeader.StdId = CAN_Command_StdId sensor_id sub_id) :
    getSensor_Id RxHeader = sensor_id ∧ getSensor_Cmd RxHeader = sub_id := by
  unfold getSensor_Id getSensor_Cmd
  rw [hid]
  exact codec_table sensor_id (by omega) sub_id (by omega)

/-- C3 at sensor 1, sub-id 3: the identifier is 35 and decodes back. -/
theorem identifier_round_trip_witness :
    (1 ≤ 63 ∧ 3 ≤ 31) ∧ CAN_Command_StdId 1 3 = 35 ∧
    getSensor_Id (sampleRx 35 0 0).RxHeader = 1 ∧
    getSensor_Cmd (sampleRx 35 0 0).RxHeader = 3 :=
  ⟨by decide, by decide,
   identifier_round_trip 1 3 (by decide) (by decide) (sampleRx 35 0 0).RxHeader (by decide)⟩

/-! ## Claims on the retry pump -/

theorem CAN_TxHeader_Copy_eq (h0 h : CAN_TxHeaderTypeDef) : CAN_TxHeader_Copy h0 h = h := rfl

theorem CAN_Data_Copy_eq (d0 d : CAN_Data) : CAN_Data_Copy d0 d = d := rfl

/-- The state after the transmit attempt of a retry of the frame `f`. -/
theorem CAN_Slave_FIFO0_ReFb_Handle_eq (hw : Platform) (s : Slave) (f : CAN_TxMessage)
    (hu : s.Slave_TxQueue.used ≠ 0)
    (hf : CAN_TxQueue_getFront s.Slave_TxQueue = some f) :
    CAN_Slave_FIFO0_ReFb_Handle hw s =
      if (hw.AddTxMessage (retry_attempt hw f)).1 = HAL_OK then
        (CAN_DeTxQueue s.Slave_TxQueue).map fun d =>
          { s with Slave_TxHeader := f.TxHeader
                   mailbox := (hw.AddTxMessage (retry_attempt hw f)).2
                   sent := s.sent ++ [retry_attempt hw f]
                   Slave_TxQueue := d.1 }
      else
        some { s with Slave_TxHeader := f.TxHeader
                      mailbox := (hw.AddTxMessage (retry_attempt hw f)).2
                      sent := s.sent ++ [retry_attempt hw f] } := by
  by_cases hok : (hw.AddTxMessage (retry_attempt hw f)).1 = HAL_OK
  · rw [if_pos hok]
    simp only [retry_attempt] at hok
    simp only [CAN_Slave_FIFO0_ReFb_Handle, CAN_Queue_isEmpty, if_neg hu, hf,
      HAL_CAN_AddTxMessage, Option.bind_eq_bind, Option.some_bind, Option.pure_def,
      CAN_TxHeader_Copy_eq, ne_eq, one_ne_zero, not_true_eq_false, not_false_eq_true,
      if_false, if_true, zero_ne_one, retry_attempt, hok]
    cases CAN_DeTxQueue s.Slave_TxQueue <;> rfl
  · rw [if_neg hok]
    simp only [retry_attempt] at hok
    simp only [CAN_Slave_FIFO0_ReFb_Handle, CAN_Queue_isEmpty, if_neg hu, hf,
      HAL_CAN_AddTxMessage, Option.bind_eq_bind, Option.some_bind, Option.pure_def,
      CAN_TxHeader_Copy_eq, ne_eq, one_ne_zero, not_true_eq_false, not_false_eq_true,
      if_false, if_true, zero_ne_one, retry_attempt, hok]

/-- A retry whose transmit is answered with a status other than `HAL_OK` leaves
the Tx queue as it is. -/
theorem CAN_Slave_FIFO0_ReFb_Handle_fail (hw : Platform) (s : Slave)
    (hfront : s.Slave_TxQueue.used ≠ 0 → ∃ f, CAN_TxQueue_getFront s.Slave_TxQueue = some f)
    (hfail : ∀ a, (hw.AddTxMessage a).1 ≠ HAL_OK) :
    ∃ s', CAN_Slave_FIFO0_ReFb_Handle hw s = some s' ∧
      s'.Slave_TxQueue = s.Slave_TxQueue := by
  by_cases hu : s.Slave_TxQueue.used = 0
  · exact ⟨s, by simp [CAN_Slave_FIFO0_ReFb_Handle, CAN_Queue_isEmpty, hu], rfl⟩
  · obtain ⟨f, hf⟩ := hfront hu
    rw [CAN_Slave_FIFO0_ReFb_Handle_eq hw s f hu hf, if_neg (hfail _)]
    exact ⟨_, rfl, rfl⟩

/-- C4. Retry pump, transmit succeeds: on a Tx queue holding the frames
`f :: rest`, one call of `CAN_Slave_FIFO0_ReFb_Handle` whose hardware transmit
returns `HAL_OK` makes exactly one transmit attempt, with the header and the
data of `f`, and afterwards the queue holds exactly `rest`, in the same order,
with `used` smaller by exactly 1. -/
theorem retry_transmit_ok (hw : Platform) (s : Slave) (f : CAN_TxMessage)
    (rest : List CAN_TxMessage) (hwf : s.Slave_TxQueue.WF)
    (hframes : s.Slave_TxQueue.frames = f :: rest)
    (hok : (hw.AddTxMessage (retry_attempt hw f)).1 = HAL_OK) :
    ∃ s', CAN_Slave_FIFO0_ReFb_Handle hw s = some s' ∧
      s'.sent = s.sent ++ [retry_attempt hw f] ∧
      s'.Slave_TxQueue.frames = rest ∧
      s'.Slave_TxQueue.used + 1 = s.Slave_TxQueue.used := by
  have hu : s.Slave_TxQueue.used ≠ 0 := by
    intro h0
    rw [CAN_Queue.frames_of_used_eq_zero h0] at hframes
    exact List.noConfusion hframes
  obtain ⟨q', x, hd, _, hfr, hg, hused, _⟩ := CAN_DeQueue_WF hwf hu
  rw [hframes] at hfr
  obtain ⟨rfl, hrest⟩ := List.cons.inj hfr
  have hd' : CAN_DeTxQueue s.Slave_TxQueue = some (q', 0) := hd
  rw [CAN_Slave_FIFO0_ReFb_Handle_eq hw s f hu hg, if_pos hok, hd']
  exact ⟨_, rfl, rfl, hrest.symm, hused⟩

/-- C4 on a queue holding frames 1, 2, 3 with a transmit that succeeds: frame 1
is attempted and frames 2, 3 remain. -/
theorem retry_transmit_ok_witness :
    ∃ s', CAN_Slave_FIFO0_ReFb_Handle (samplePlatform HAL_OK)
        { Slave_zero with
          Slave_TxQueue := sampleQueue (sampleTx 0) [sampleTx 1, sampleTx 2, sampleTx 3] }
        = some s' ∧
      s'.sent = [retry_attempt (samplePlatform HAL_OK) (sampleTx 1)] ∧
      s'.Slave_TxQueue.frames = [sampleTx 2, sampleTx 3] ∧
      s'.Slave_TxQueue.used + 1 = 3 :=
  retry_transmit_ok (samplePlatform HAL_OK)
    { Slave_zero with
      Slave_TxQueue := sampleQueue (sampleTx 0) [sampleTx 1, sampleTx 2, sampleTx 3] }
    (sampleTx 1) [sampleTx 2, sampleTx 3] (by decide) (by decide) (by decide)

/-- C5. Retry pump, transmit fails: for every Tx queue state (whose front slot,
when the queue is not empty, lies in the allocated block) and every number of
consecutive calls of `CAN_Slave_FIFO0_ReFb_Handle` in which every hardware
transmit returns a status other than `HAL_OK`, the calls return and leave the
Tx queue (`used`, `front`, `rear`, the stored frames) unchanged, so the same
frame stays at the front. -/
theorem retry_transmit_fails (hws : List Platform) (s : Slave)
    (hfront : s.Slave_TxQueue.used ≠ 0 → ∃ f, CAN_TxQueue_getFront s.Slave_TxQueue = some f)
    (hfail : ∀ hw ∈ hws, ∀ a, (hw.AddTxMessage a).1 ≠ HAL_OK) :
    ∃ s', CAN_Slave_FIFO0_ReFb_Handle_calls s hws = some s' ∧
      s'.Slave_TxQueue.used = s.Slave_TxQueue.used ∧
      s'.Slave_TxQueue.front = s.Slave_TxQueue.front ∧
      s'.Slave_TxQueue.rear = s.Slave_TxQueue.rear ∧
      s'.Slave_TxQueue.Message = s.Slave_TxQueue.Message ∧
      s'.Slave_TxQueue = s.Slave_TxQueue ∧
      CAN_TxQueue_getFront s'.Slave_TxQueue = CAN_TxQueue_getFront s.Slave_TxQueue := by
  induction hws generalizing s with
  | nil => exact ⟨s, rfl, rfl, rfl, rfl, rfl, rfl, rfl⟩
  | cons hw hws ih =>
    obtain ⟨s1, h1, hq1⟩ := CAN_Slave_FIFO0_ReFb_Handle_fail hw s hfront
      (hfail hw (List.mem_cons_self _ _))
    obtain ⟨s', h', hq'⟩ := ih s1 (by rw [hq1]; exact hfront)
      (fun hw' hm => hfail hw' (List.mem_cons_of_mem _ hm))
    refine ⟨s', by simp [CAN_Slave_FIFO0_ReFb_Handle_calls, h1, h'], ?_⟩
    rw [hq1] at hq'
    exact hq'

/-- C5 on a queue holding frames 1, 2 with three calls whose transmits fail. -/
theorem retry_transmit_fails_witness :
    ∃ s', CAN_Slave_FIFO0_ReFb_Handle_calls
        { Slave_zero with Slave_TxQueue := sampleQueue (sampleTx 0) [sampleTx 1, sampleTx 2] }
        [samplePlatform HAL_ERROR, samplePlatform HAL_BUSY, samplePlatform HAL_TIMEOUT]
        = some s' ∧
      s'.Slave_TxQueue = sampleQueue (sampleTx 0) [sampleTx 1, sampleTx 2] ∧
      CAN_TxQueue_getFront s'.Slave_TxQueue = some (sampleTx 1) := by
  obtain ⟨s', h, _, _, _, _, hq, hf⟩ := retry_transmit_fails
    [samplePlatform HAL_ERROR, samplePlatform HAL_BUSY, samplePlatform HAL_TIMEOUT]
    { Slave_zero with Slave_TxQueue := sampleQueue (sampleTx 0) [sampleTx 1, sampleTx 2] }
    (fun _ => ⟨sampleTx 1, by decide⟩)
    (by
      intro hw hm a
      simp only [List.mem_cons, List.mem_singleton, List.not_mem_nil, or_false] at hm
      rcases hm with rfl | rfl | rfl <;> simp [samplePlatform, HAL_OK, HAL_ERROR, HAL_BUSY,
        HAL_TIMEOUT])
  exact ⟨s', h, hq, hf⟩

/-! ## Claims on the feedback functions -/

/-- Lazy creation of a queue in a regular state: the result is well-formed with
`CAN_QUEUE_CAPACITY` slots and holds the same frames; a queue already created
is returned as it is. -/
theorem CAN_Queue.Ready.notCreate {α : Type} {q : CAN_Queue α} (h : q.Ready)
    (junk : Nat → α) :
    (CAN_If_Queue_notCreate q junk).WF ∧
    (CAN_If_Queue_notCreate q junk).capacity = CAN_QUEUE_CAPACITY ∧
    (CAN_If_Queue_notCreate q junk).is_create ≠ 0 ∧
    (CAN_If_Queue_notCreate q junk).frames = q.frames ∧
    (CAN_If_Queue_notCreate q junk).used = q.used ∧
    (q.is_create ≠ 0 → CAN_If_Queue_notCreate q junk = q) := by
  rcases h with ⟨hc, hu⟩ | ⟨hc, hwf, hcap⟩
  · obtain ⟨hwf, hfr, hcap, hu'⟩ :=
      CAN_Create_Queue_WF q CAN_QUEUE_CAPACITY junk (by decide) (by decide)
    have e : CAN_If_Queue_notCreate q junk =
        { CAN_Create_Queue q CAN_QUEUE_CAPACITY junk with is_create := 1 } := by
      simp [CAN_If_Queue_notCreate, hc]
    rw [e]
    refine ⟨hwf, hcap, by simp, ?_, ?_, fun h => absurd hc h⟩
    · rw [CAN_Queue.frames_of_used_eq_zero hu]
      exact hfr
    · rw [hu]
      exact hu'
  · have e : CAN_If_Queue_notCreate q junk = q := by
      simp [CAN_If_Queue_notCreate, hc]
    rw [e]
    exact ⟨hwf, hcap, hc, rfl, rfl, fun _ => rfl⟩

/-- An enqueue on a well-formed queue returns: with room it appends, on a full
queue it changes nothing. -/
theorem CAN_EnQueue_WF_any {α : Type} {q : CAN_Queue α} (h : q.WF) (item : α) :
    ∃ e, CAN_EnQueue q item = some e ∧ e.1.WF ∧ e.1.capacity = q.capacity ∧
      e.1.is_create = q.is_create ∧
      (q.used < q.capacity → e.1.frames = q.frames ++ [item]) ∧
      (¬ q.used < q.capacity → e.1 = q) := by
  by_cases hroom : q.used < q.capacity
  · obtain ⟨q', he, hwf, hfr, _, hcap, _, hic⟩ := CAN_EnQueue_WF h hroom item
    exact ⟨(q', 0), he, hwf, hcap, hic, fun _ => hfr, fun h => absurd hroom h⟩
  · have hfull : q.used = q.capacity := le_antisymm h.2.2.2.2.2.2.2.1 (not_lt.mp hroom)
    exact ⟨(q, -1), CAN_EnQueue_full hfull item, h, rfl, rfl, fun h => absurd h hroom,
      fun _ => rfl⟩

/-- The state `CAN_Sensor_Start_fb` returns when the front of the Rx queue is
`r`. -/
theorem CAN_Sensor_Start_fb_eq (hw : Platform) (s : Slave) (r : CAN_RxMessage)
    (hrx : CAN_RxQueue_getFront s.Slave_RxQueue = some r) :
    CAN_Sensor_Start_fb hw s =
      if (hw.AddTxMessage (start_fb_attempt hw r)).1 = HAL_OK then
        some { s with Slave_TxQueue := CAN_If_TxQueue_notCreate s.Slave_TxQueue hw.heapTx
                      Slave_TxHeader := (start_fb_frame r).TxHeader
                      mailbox := (hw.AddTxMessage (start_fb_attempt hw r)).2
                      sent := s.sent ++ [start_fb_attempt hw r] }
      else
        (CAN_EnTxQueue (CAN_If_TxQueue_notCreate s.Slave_TxQueue hw.heapTx)
            (start_fb_frame r)).map fun e =>
          { s with Slave_TxQueue := e.1
                   Slave_TxHeader := (start_fb_frame r).TxHeader
                   Slave_TxMessage := start_fb_frame r
                   mailbox := (hw.AddTxMessage (start_fb_attempt hw r)).2
                   sent := s.sent ++ [start_fb_attempt hw r] } := by
  by_cases hok : (hw.AddTxMessage (start_fb_attempt hw r)).1 = HAL_OK
  · rw [if_pos hok]
    simp only [start_fb_attempt, CAN_TxHeader_Init] at hok
    simp only [CAN_Sensor_Start_fb, hrx, HAL_CAN_AddTxMessage, Option.bind_eq_bind,
      Option.some_bind, Option.pure_def, CAN_TxHeader_Init, start_fb_attempt, start_fb_frame,
      hok, ne_eq, not_true_eq_false, if_false]
  · rw [if_neg hok]
    simp only [start_fb_attempt, CAN_TxHeader_Init] at hok
    simp only [CAN_Sensor_Start_fb, hrx, HAL_CAN_AddTxMessage, Option.bind_eq_bind,
      Option.some_bind, Option.pure_def, CAN_TxHeader_Init, start_fb_attempt, start_fb_frame,
      hok, ne_eq, not_false_eq_true, if_true, CAN_TxHeader_Copy_eq, CAN_Data_Copy_eq]
    cases CAN_EnTxQueue (CAN_If_TxQueue_notCreate s.Slave_TxQueue hw.heapTx)
      { TxHeader := { StdId := CAN_Command_StdId (getSensor_Id r.RxHeader) START_FB_ID,
                      ExtId := 0, IDE := CAN_ID_STD, RTR := CAN_RTR_DATA, DLC := START_FB_DLC,
                      TransmitGlobalTime := DISABLE },
        txdata := r.rxdata } <;> rfl

/-- With the Rx front `r` and the Tx queue in a regular state,
`CAN_Sensor_Start_fb` returns, makes one transmit attempt, leaves the Rx queue
as it is and the Tx queue in a regular state; the Tx queue gains the feedback
frame when the transmit fails and there is room, and keeps its frames when the
transmit succeeds. -/
theorem CAN_Sensor_Start_fb_spec (hw : Platform) (s : Slave) (r : CAN_RxMessage)
    (hrx : CAN_RxQueue_getFront s.Slave_RxQueue = some r)
    (htx : s.Slave_TxQueue.Ready) :
    ∃ s', CAN_Sensor_Start_fb hw s = some s' ∧
      s'.Slave_RxQueue = s.Slave_RxQueue ∧ s'.Slave_TxQueue.Ready ∧
      s'.sent = s.sent ++ [start_fb_attempt hw r] ∧
      ((hw.AddTxMessage (start_fb_attempt hw r)).1 ≠ HAL_OK →
        s.Slave_TxQueue.used < CAN_QUEUE_CAPACITY →
        s'.Slave_TxQueue.frames = s.Slave_TxQueue.frames ++ [start_fb_frame r]) ∧
      ((hw.AddTxMessage (start_fb_attempt hw r)).1 = HAL_OK →
        s'.Slave_TxQueue.frames = s.Slave_TxQueue.frames ∧
        (s.Slave_TxQueue.is_create ≠ 0 → s'.Slave_TxQueue = s.Slave_TxQueue)) := by
  obtain ⟨hwf, hcap, hic, hfr, hu, hsame⟩ := htx.notCreate hw.heapTx
  rw [CAN_Sensor_Start_fb_eq hw s r hrx]
  by_cases hok : (hw.AddTxMessage (start_fb_attempt hw r)).1 = HAL_OK
  · rw [if_pos hok]
    exact ⟨_, rfl, rfl, Or.inr ⟨hic, hwf, hcap⟩, rfl, fun h => absurd hok h,
      fun _ => ⟨hfr, hsame⟩⟩
  · rw [if_neg hok]
    obtain ⟨e, he, hwf', hcap', hic', happ, _⟩ := CAN_EnQueue_WF_any hwf (start_fb_frame r)
    have he' : CAN_EnTxQueue (CAN_If_TxQueue_notCreate s.Slave_TxQueue hw.heapTx)
        (start_fb_frame r) = some e := he
    rw [he']
    refine ⟨_, rfl, rfl, Or.inr ⟨?_, hwf', hcap'.trans hcap⟩, rfl, ?_, fun h => absurd h hok⟩
    · show e.1.is_create ≠ 0
      rw [hic']
      exact hic
    · intro _ hroom
      show e.1.frames = _
      rw [happ (by rw [hu, hcap]; exact hroom), hfr]

/-- C6. Feedback queuing on failure: when `CAN_Sensor_Start_fb` runs with the
frame `r` at the front of the Rx queue and a Tx queue holding fewer than
`CAN_QUEUE_CAPACITY` frames, then, if the hardware transmit fails, the Tx queue
afterwards holds its previous frames followed by one new frame whose `StdId` is
`CAN_Command_StdId(sensor id of r, START_FB_ID)`, whose `DLC` is `START_FB_DLC`
and whose data bytes are the payload of `r`; if the transmit succeeds the Tx
queue holds the frames it held (and, once created, is the same object). -/
theorem start_fb_queues_on_failure (hw : Platform) (s : Slave) (r : CAN_RxMessage)
    (hrx : CAN_RxQueue_getFront s.Slave_RxQueue = some r)
    (htx : s.Slave_TxQueue.Ready)
    (hroom : s.Slave_TxQueue.used < CAN_QUEUE_CAPACITY) :
    ∃ s', CAN_Sensor_Start_fb hw s = some s' ∧
      ((hw.AddTxMessage (start_fb_attempt hw r)).1 ≠ HAL_OK →
        ∃ m, s'.Slave_TxQueue.frames = s.Slave_TxQueue.frames ++ [m] ∧
          m.TxHeader.StdId = CAN_Command_StdId (getSensor_Id r.RxHeader) START_FB_ID ∧
          m.TxHeader.DLC = START_FB_DLC ∧ m.txdata = r.rxdata) ∧
      ((hw.AddTxMessage (start_fb_attempt hw r)).1 = HAL_OK →
        s'.Slave_TxQueue.frames = s.Slave_TxQueue.frames ∧
        (s.Slave_TxQueue.is_create ≠ 0 → s'.Slave_TxQueue = s.Slave_TxQueue)) := by
  obtain ⟨s', h, _, _, _, hfail, hok⟩ := CAN_Sensor_Start_fb_spec hw s r hrx htx
  exact ⟨s', h, fun hf => ⟨start_fb_frame r, hfail hf hroom, rfl, rfl, rfl⟩, hok⟩

/-- C6 on a node that has received a start command for sensor 1 with payload
`[0x64, 0x00]`, holds one pending frame and whose transmit fails: the feedback
frame with identifier 32, length 2 and the same payload is queued behind it. -/
theorem start_fb_queues_on_failure_witness :
    ∃ s', CAN_Sensor_Start_fb (samplePlatform HAL_ERROR)
        { Slave_zero with
          Slave_RxQueue := sampleQueue (sampleRx 0 0 0) [sampleRx 32 0x64 0]
          Slave_TxQueue := sampleQueue (sampleTx 0) [sampleTx 7] } = some s' ∧
      ∃ m, s'.Slave_TxQueue.frames = [sampleTx 7, m] ∧ m.TxHeader.StdId = 32 ∧
        m.TxHeader.DLC = 2 ∧ m.txdata = (sampleRx 32 0x64 0).rxdata := by
  obtain ⟨s', h, hfail, _⟩ := start_fb_queues_on_failure (samplePlatform HAL_ERROR)
    { Slave_zero with
      Slave_RxQueue := sampleQueue (sampleRx 0 0 0) [sampleRx 32 0x64 0]
      Slave_TxQueue := sampleQueue (sampleTx 0) [sampleTx 7] }
    (sampleRx 32 0x64 0) (by decide) (by decide) (by decide)
  exact ⟨s', h, hfail (by decide)⟩

/-! ## Claims on the command handlers -/

/-- The 16-bit value assembled from two payload bytes, low byte first. -/
theorem freq_little_endian (lo hi : Nat) (hlo : lo < 256) (hhi : hi < 256) :
    toUInt16 ((toUInt16 hi <<< 8) ||| lo) = lo + 256 * hi := by
  have h1 : toUInt16 hi = hi := Nat.mod_eq_of_lt (by omega)
  have h2 : 2 ^ 8 * hi + lo = 2 ^ 8 * hi ||| lo := Nat.mul_add_lt_is_or (by omega) hi
  rw [h1, Nat.shiftLeft_eq, Nat.mul_comm, ← h2]
  unfold toUInt16
  omega

/-- C7. Start command effect on sensor state: with the frame `r` at the front of
the Rx queue, if the sensor id of `r` is `IMU_ID` (resp. `ENC_ID`) then
`CAN_Start_IMU` (resp. `CAN_Start_Encoder`) returns with the sensor's
`start_flag` set to 1 and its `freq` set to `rxdata[0] + 256 * rxdata[1]`, the
other fields kept; if the sensor id of `r` is a different one the sensor handle
(and every static of the library) is left unchanged. -/
theorem start_sets_sensor (s : Slave) (Sensor : Sensor_HandleTypedef) (r : CAN_RxMessage)
    (hrx : CAN_RxQueue_getFront s.Slave_RxQueue = some r)
    (h0 : r.rxdata.d0 < 256) (h1 : r.rxdata.d1 < 256) :
    (getSensor_Id r.RxHeader = IMU_ID →
      ∃ s', CAN_Start_IMU s Sensor =
        some (s', { Sensor with start_flag := 1, freq := r.rxdata.d0 + 256 * r.rxdata.d1 })) ∧
    (getSensor_Id r.RxHeader ≠ IMU_ID → CAN_Start_IMU s Sensor = some (s, Sensor)) ∧
    (getSensor_Id r.RxHeader = ENC_ID →
      ∃ s', CAN_Start_Encoder s Sensor =
        some (s', { Sensor with start_flag := 1, freq := r.rxdata.d0 + 256 * r.rxdata.d1 })) ∧
    (getSensor_Id r.RxHeader ≠ ENC_ID → CAN_Start_Encoder s Sensor = some (s, Sensor)) := by
  have hf := freq_little_endian r.rxdata.d0 r.rxdata.d1 h0 h1
  refine ⟨fun hid => ?_, fun hid => ?_, fun hid => ?_, fun hid => ?_⟩
  · by_cases hft : s.Start_IMU_first_time = 0 <;>
      simp [CAN_Start_IMU, hrx, hid, hf, hft]
  · simp [CAN_Start_IMU, hrx, hid]
  · by_cases hft : s.Start_Encoder_first_time = 0 <;>
      simp [CAN_Start_Encoder, hrx, hid, hf, hft]
  · simp [CAN_Start_Encoder, hrx, hid]

/-- C7 on the start command for sensor 0 with payload `[0x64, 0x00]`: the
frequency becomes 100 and the start flag is set. -/
theorem start_sets_sensor_witness :
    ∃ s', CAN_Start_IMU
        { Slave_zero with Slave_RxQueue := sampleQueue (sampleRx 0 0 0) [sampleRx 0 0x64 0] }
        { sensor_id := IMU_ID, freq := 0, start_flag := 0, stop_flag := 0 }
      = some (s', { sensor_id := IMU_ID, freq := 100, start_flag := 1, stop_flag := 0 }) :=
  (start_sets_sensor
    { Slave_zero with Slave_RxQueue := sampleQueue (sampleRx 0 0 0) [sampleRx 0 0x64 0] }
    { sensor_id := IMU_ID, freq := 0, start_flag := 0, stop_flag := 0 }
    (sampleRx 0 0x64 0) (by decide) (by decide) (by decide)).1 (by decide)

/-- C10. Stop on a never-started sensor produces no feedback: for every sensor
handle with `freq == 0` and every frame `r` at the front of the Rx queue that is
addressed to that sensor, `CAN_Stop_Sensor` returns without a hardware transmit
attempt and leaves the Tx queue unchanged. -/
theorem stop_never_started_no_feedback (hw : Platform) (s : Slave)
    (Sensor : Sensor_HandleTypedef) (r : CAN_RxMessage)
    (hrx : CAN_RxQueue_getFront s.Slave_RxQueue = some r)
    (_haddr : getSensor_Id r.RxHeader = Sensor.sensor_id)
    (hfreq : Sensor.freq = 0) :
    ∃ s' Sensor', CAN_Stop_Sensor hw s Sensor = some (s', Sensor') ∧
      s'.sent = s.sent ∧ s'.Slave_TxQueue = s.Slave_TxQueue := by
  refine ⟨s, Sensor, ?_, rfl, rfl⟩
  simp [CAN_Stop_Sensor, hrx, hfreq]

/-- C10 on a stop command for sensor 1, never started, with one frame pending in
the Tx queue: nothing is sent and the Tx queue is as before. -/
theorem stop_never_started_no_feedback_witness :
    ∃ s' Sensor', CAN_Stop_Sensor (samplePlatform HAL_OK)
        { Slave_zero with
          Slave_RxQueue := sampleQueue (sampleRx 0 0 0) [sampleRx 34 0 0]
          Slave_TxQueue := sampleQueue (sampleTx 0) [sampleTx 7] }
        { sensor_id := ENC_ID, freq := 0, start_flag := 0, stop_flag := 0 }
      = some (s', Sensor') ∧ s'.sent = [] ∧
      s'.Slave_TxQueue = sampleQueue (sampleTx 0) [sampleTx 7] :=
  stop_never_started_no_feedback (samplePlatform HAL_OK)
    { Slave_zero with
      Slave_RxQueue := sampleQueue (sampleRx 0 0 0) [sampleRx 34 0 0]
      Slave_TxQueue := sampleQueue (sampleTx 0) [sampleTx 7] }
    { sensor_id := ENC_ID, freq := 0, start_flag := 0, stop_flag := 0 }
    (sampleRx 34 0 0) (by decide) (by decide) (by decide)

/-! ## Claims on the command dispatch -/

section Dispatch

variable {U : Type}

/-- A call of a handle function that does not modify the Rx queue. -/
theorem callHook_keeps {rx : CAN_RxQueue} {handle : Slave × U → Option (Slave × U)}
    (hk : HookKeeps rx handle) (k : Hook) (n : Node U)
    (hrx : n.slave.Slave_RxQueue = rx) (htx : n.slave.Slave_TxQueue.Ready) :
    ∃ n', callHook handle k n = some n' ∧ n'.slave.Slave_RxQueue = rx ∧
      n'.slave.Slave_TxQueue.Ready ∧ n'.invoked = n.invoked ++ [k] := by
  obtain ⟨r, hr, hrx', htx'⟩ := hk n.slave n.user hrx htx
  exact ⟨{ slave := r.1, user := r.2, invoked := n.invoked ++ [k] },
    by simp [callHook, hr], hrx', htx', rfl⟩

theorem CAN_RxStart_RQ_spec (user : Handlers U) (hw : Platform) (n : Node U)
    (r : CAN_RxMessage) (hfront : CAN_RxQueue_getFront n.slave.Slave_RxQueue = some r)
    (htx : n.slave.Slave_TxQueue.Ready)
    (hk : HookKeeps n.slave.Slave_RxQueue user.CAN_Sensor_Start_Handle) :
    ∃ n', CAN_RxStart_RQ user hw n = some n' ∧
      n'.slave.Slave_RxQueue = n.slave.Slave_RxQueue ∧ n'.slave.Slave_TxQueue.Ready ∧
      n'.invoked = n.invoked ++
        (if getSensor_Cmd r.RxHeader = START_ID then [Hook.Start] else []) := by
  by_cases hc : getSensor_Cmd r.RxHeader = START_ID
  · obtain ⟨n1, h1, hrx1, htx1, hi1⟩ := callHook_keeps hk Hook.Start n rfl htx
    obtain ⟨s2, h2, hrx2, htx2, _⟩ :=
      CAN_Sensor_Start_fb_spec hw n1.slave r (by rw [hrx1]; exact hfront) htx1
    refine ⟨{ n1 with slave := s2 }, ?_, hrx2.trans hrx1, htx2, ?_⟩
    · simp [CAN_RxStart_RQ, hfront, hc, h1, h2]
    · simp [hc, hi1]
  · exact ⟨n, by simp [CAN_RxStart_RQ, hfront, hc], rfl, htx, by simp [hc]⟩

theorem CAN_RxReset_RQ_spec (user : Handlers U) (n : Node U)
    (r : CAN_RxMessage) (hfront : CAN_RxQueue_getFront n.slave.Slave_RxQueue = some r)
    (htx : n.slave.Slave_TxQueue.Ready)
    (hk : HookKeeps n.slave.Slave_RxQueue user.CAN_Sensor_Reset_Handle) :
    ∃ n', CAN_RxReset_RQ user n = some n' ∧
      n'.slave.Slave_RxQueue = n.slave.Slave_RxQueue ∧ n'.slave.Slave_TxQueue.Ready ∧
      n'.invoked = n.invoked ++
        (if getSensor_Cmd r.RxHeader = RESET_ID then [Hook.Reset] else []) := by
  by_cases hc : getSensor_Cmd r.RxHeader = RESET_ID
  · obtain ⟨n1, h1, hrx1, htx1, hi1⟩ := callHook_keeps hk Hook.Reset n rfl htx
    exact ⟨n1, by simp [CAN_RxReset_RQ, hfront, hc, h1], hrx1, htx1, by simp [hc, hi1]⟩
  · exact ⟨n, by simp [CAN_RxReset_RQ, hfront, hc], rfl, htx, by simp [hc]⟩

theorem CAN_RxStop_RQ_spec (user : Handlers U) (n : Node U)
    (r : CAN_RxMessage) (hfront : CAN_RxQueue_getFront n.slave.Slave_RxQueue = some r)
    (htx : n.slave.Slave_TxQueue.Ready)
    (hk : HookKeeps n.slave.Slave_RxQueue user.CAN_Sensor_Stop_Handle) :
    ∃ n', CAN_RxStop_RQ user n = some n' ∧
      n'.slave.Slave_RxQueue = n.slave.Slave_RxQueue ∧ n'.slave.Slave_TxQueue.Ready ∧
      n'.invoked = n.invoked ++
        (if getSensor_Cmd r.RxHeader = STOP_ID then [Hook.Stop] else []) := by
  by_cases hc : getSensor_Cmd r.RxHeader = STOP_ID
  · obtain ⟨n1, h1, hrx1, htx1, hi1⟩ := callHook_keeps hk Hook.Stop n rfl htx
    exact ⟨n1, by simp [CAN_RxStop_RQ, hfront, hc, h1], hrx1, htx1, by simp [hc, hi1]⟩
  · exact ⟨n, by simp [CAN_RxStop_RQ, hfront, hc], rfl, htx, by simp [hc]⟩

theorem CAN_RxEncoder_AssignRQ_spec (user : Handlers U) (n : Node U)
    (r : CAN_RxMessage) (hfront : CAN_RxQueue_getFront n.slave.Slave_RxQueue = some r)
    (htx : n.slave.Slave_TxQueue.Ready)
    (hk : HookKeeps n.slave.Slave_RxQueue user.CAN_Encoder_Assign_Handle) :
    ∃ n', CAN_RxEncoder_AssignRQ user n = some n' ∧
      n'.slave.Slave_RxQueue = n.slave.Slave_RxQueue ∧ n'.slave.Slave_TxQueue.Ready ∧
      n'.invoked = n.invoked ++
        (if getSensor_Cmd r.RxHeader = ENC_ASSIGN_ID then [Hook.Assign] else []) := by
  by_cases hc : getSensor_Cmd r.RxHeader = ENC_ASSIGN_ID
  · obtain ⟨n1, h1, hrx1, htx1, hi1⟩ := callHook_keeps hk Hook.Assign n rfl htx
    exact ⟨n1, by simp [CAN_RxEncoder_AssignRQ, hfront, hc, h1], hrx1, htx1,
      by simp [hc, hi1]⟩
  · exact ⟨n, by simp [CAN_RxEncoder_AssignRQ, hfront, hc], rfl, htx, by simp [hc]⟩

/-- The handle functions invoked for one frame: the one of its command, if it
has one. -/
theorem hooks_for_eq (cmd : Nat) :
    hooks_for cmd =
      if cmd = START_ID then [Hook.Start]
      else if cmd = RESET_ID then [Hook.Reset]
      else if cmd = STOP_ID then [Hook.Stop]
      else if cmd = ENC_ASSIGN_ID then [Hook.Assign]
      else [] := by
  unfold hooks_for START_ID RESET_ID STOP_ID ENC_ASSIGN_ID
  split_ifs <;> simp_all

/-- One tick of the dispatcher on an Rx queue holding `r :: rest`: it returns,
the handle functions invoked are those of the command of `r`, the Rx queue
holds `rest` afterwards and the Tx queue is in a regular state. -/
theorem CAN_Slave_FIFO0_Recieve_Cmd_Handle_spec (user : Handlers U) (hw : Platform)
    (n : Node U) (r : CAN_RxMessage) (rest : List CAN_RxMessage)
    (hwf : n.slave.Slave_RxQueue.WF)
    (hframes : n.slave.Slave_RxQueue.frames = r :: rest)
    (htx : n.slave.Slave_TxQueue.Ready)
    (hkeep : user.Keep n.slave.Slave_RxQueue) :
    ∃ n', CAN_Slave_FIFO0_Recieve_Cmd_Handle user hw n = some n' ∧
      n'.invoked = n.invoked ++ hooks_for (getSensor_Cmd r.RxHeader) ∧
      n'.slave.Slave_RxQueue.frames = rest ∧
      n'.slave.Slave_RxQueue.used + 1 = n.slave.Slave_RxQueue.used ∧
      n'.slave.Slave_TxQueue.Ready := by
  have hu : n.slave.Slave_RxQueue.used ≠ 0 := by
    intro h0
    rw [CAN_Queue.frames_of_used_eq_zero h0] at hframes
    exact List.noConfusion hframes
  obtain ⟨q', x, hd, _, hfr, hg, hused, _⟩ := CAN_DeQueue_WF hwf hu
  rw [hframes] at hfr
  obtain ⟨rfl, hrest⟩ := List.cons.inj hfr
  obtain ⟨k1, k2, k3, k4⟩ := hkeep
  obtain ⟨n1, e1, rx1, tx1, i1⟩ := CAN_RxStart_RQ_spec user hw n r hg htx k1
  obtain ⟨n2, e2, rx2, tx2, i2⟩ :=
    CAN_RxReset_RQ_spec user n1 r (by rw [rx1]; exact hg) tx1 (by rw [rx1]; exact k2)
  rw [rx1] at rx2
  obtain ⟨n3, e3, rx3, tx3, i3⟩ :=
    CAN_RxStop_RQ_spec user n2 r (by rw [rx2]; exact hg) tx2 (by rw [rx2]; exact k3)
  rw [rx2] at rx3
  obtain ⟨n4, e4, rx4, tx4, i4⟩ :=
    CAN_RxEncoder_AssignRQ_spec user n3 r (by rw [rx3]; exact hg) tx3 (by rw [rx3]; exact k4)
  rw [rx3] at rx4
  have hd' : CAN_DeRxQueue n4.slave.Slave_RxQueue = some (q', 0) := by
    rw [rx4]
    exact hd
  refine ⟨{ n4 with slave := { n4.slave with Slave_RxQueue := q' } }, ?_, ?_, hrest.symm,
    hused, tx4⟩
  · simp [CAN_Slave_FIFO0_Recieve_Cmd_Handle, hu, e1, e2, e3, e4, hd']
  · show n4.invoked = _
    rw [i4, i3, i2, i1]
    simp [hooks_for]

end Dispatch

/-- C8. Command dispatch: in one call of `CAN_Slave_FIFO0_Recieve_Cmd_Handle` on
an Rx queue whose front frame is `r`, with user handle functions that do not
modify the Rx queue, the start handle is invoked exactly once if the sub-id of
`r` is `START_ID` and not at all otherwise, and likewise the reset handle for
`RESET_ID`, the stop handle for `STOP_ID` and the assign handle for
`ENC_ASSIGN_ID`; at most one handle runs for a frame and none runs for the
sub-ids 4..31. -/
theorem command_dispatch {U : Type} (user : Handlers U) (hw : Platform) (n : Node U)
    (r : CAN_RxMessage) (rest : List CAN_RxMessage)
    (hwf : n.slave.Slave_RxQueue.WF)
    (hframes : n.slave.Slave_RxQueue.frames = r :: rest)
    (htx : n.slave.Slave_TxQueue.Ready)
    (hkeep : user.Keep n.slave.Slave_RxQueue) :
    ∃ n', CAN_Slave_FIFO0_Recieve_Cmd_Handle user hw n = some n' ∧
      n'.invoked = n.invoked ++
        (if getSensor_Cmd r.RxHeader = START_ID then [Hook.Start]
         else if getSensor_Cmd r.RxHeader = RESET_ID then [Hook.Reset]
         else if getSensor_Cmd r.RxHeader = STOP_ID then [Hook.Stop]
         else if getSensor_Cmd r.RxHeader = ENC_ASSIGN_ID then [Hook.Assign]
         else []) ∧
      (4 ≤ getSensor_Cmd r.RxHeader → n'.invoked = n.invoked) := by
  obtain ⟨n', h, hi, _⟩ :=
    CAN_Slave_FIFO0_Recieve_Cmd_Handle_spec user hw n r rest hwf hframes htx hkeep
  rw [hooks_for_eq] at hi
  refine ⟨n', h, hi, fun h4 => ?_⟩
  rw [hi]
  unfold START_ID RESET_ID STOP_ID ENC_ASSIGN_ID
  split_ifs <;> first | omega | simp

/-- The `__weak` handle functions do not modify the Rx queue. -/
theorem weak_Handlers_keep (U : Type) (rx : CAN_RxQueue) : (weak_Handlers U).Keep rx := by
  refine ⟨?_, ?_, ?_, ?_⟩ <;> exact fun s u hrx htx => ⟨(s, u), rfl, hrx, htx⟩

/-- The library's `CAN_Start_IMU`, used as start handle, does not modify the Rx
queue. -/
theorem sampleHandlers_keep (rx : CAN_RxQueue) (r : CAN_RxMessage)
    (hfront : CAN_RxQueue_getFront rx = some r) : sampleHandlers.Keep rx := by
  refine ⟨?_, ?_, ?_, ?_⟩
  · intro s u hrx htx
    subst hrx
    show ∃ x, CAN_Start_IMU s u = some x ∧ _
    by_cases hid : getSensor_Id r.RxHeader = IMU_ID <;>
      by_cases hft : s.Start_IMU_first_time = 0 <;>
        simp [CAN_Start_IMU, hfront, hid, hft, htx]
  all_goals exact fun s u hrx htx => ⟨(s, u), rfl, hrx, htx⟩

/-- C8 on a start command for sensor 0 with the library's `CAN_Start_IMU` as
start handle: exactly the start handle is invoked. -/
theorem command_dispatch_witness :
    ∃ n', CAN_Slave_FIFO0_Recieve_Cmd_Handle sampleHandlers (samplePlatform HAL_OK)
        { slave := { Slave_zero with
            Slave_RxQueue := sampleQueue (sampleRx 0 0 0) [sampleRx 0 0x64 0, sampleRx 33 0 0] }
          user := { sensor_id := IMU_ID, freq := 0, start_flag := 0, stop_flag := 0 }
          invoked := [] } = some n' ∧
      n'.invoked = [Hook.Start] := by
  obtain ⟨n', h, hi, _⟩ := command_dispatch sampleHandlers (samplePlatform HAL_OK)
    { slave := { Slave_zero with
        Slave_RxQueue := sampleQueue (sampleRx 0 0 0) [sampleRx 0 0x64 0, sampleRx 33 0 0] }
      user := { sensor_id := IMU_ID, freq := 0, start_flag := 0, stop_flag := 0 }
      invoked := [] }
    (sampleRx 0 0x64 0) [sampleRx 33 0 0] (by decide) (by decide) (by decide)
    (sampleHandlers_keep _ (sampleRx 0 0x64 0) (by decide))
  exact ⟨n', h, hi⟩

/-- C9. Unconditional dequeue: for every Rx queue holding `r :: rest` and every
front frame `r` (recognised command or not, whatever the hardware answers to a
transmit), with user handle functions that do not modify the Rx queue, one call
of `CAN_Slave_FIFO0_Recieve_Cmd_Handle` returns and removes exactly the front
frame from the Rx queue: `used` decreases by exactly 1 and the remaining frames
keep their order. -/
theorem unconditional_dequeue {U : Type} (user : Handlers U) (hw : Platform) (n : Node U)
    (r : CAN_RxMessage) (rest : List CAN_RxMessage)
    (hwf : n.slave.Slave_RxQueue.WF)
    (hframes : n.slave.Slave_RxQueue.frames = r :: rest)
    (htx : n.slave.Slave_TxQueue.Ready)
    (hkeep : user.Keep n.slave.Slave_RxQueue) :
    ∃ n', CAN_Slave_FIFO0_Recieve_Cmd_Handle user hw n = some n' ∧
      n'.slave.Slave_RxQueue.frames = rest ∧
      n'.slave.Slave_RxQueue.used + 1 = n.slave.Slave_RxQueue.used := by
  obtain ⟨n', h, _, hfr, hu, _⟩ :=
    CAN_Slave_FIFO0_Recieve_Cmd_Handle_spec user hw n r rest hwf hframes htx hkeep
  exact ⟨n', h, hfr, hu⟩

/-- C9 on a frame with the unrecognised sub-id 9 followed by a stop command,
with the `__weak` handle functions and a failing transmit: the first frame is
removed, the stop command remains. -/
theorem unconditional_dequeue_witness :
    ∃ n', CAN_Slave_FIFO0_Recieve_Cmd_Handle (weak_Handlers Unit) (samplePlatform HAL_ERROR)
        { slave := { Slave_zero with
            Slave_RxQueue := sampleQueue (sampleRx 0 0 0) [sampleRx 41 0 0, sampleRx 34 0 0] }
          user := ()
          invoked := [] } = some n' ∧
      n'.slave.Slave_RxQueue.frames = [sampleRx 34 0 0] ∧
      n'.slave.Slave_RxQueue.used + 1 = 2 :=
  unconditional_dequeue (weak_Handlers Unit) (samplePlatform HAL_ERROR)
    { slave := { Slave_zero with
        Slave_RxQueue := sampleQueue (sampleRx 0 0 0) [sampleRx 41 0 0, sampleRx 34 0 0] }
      user := ()
      invoked := [] }
    (sampleRx 41 0 0) [sampleRx 34 0 0] (by decide) (by decide) (by decide)
    (weak_Handlers_keep Unit _)

/-! ## Claims on the stop handler -/

/-- With `freq == 0`, `CAN_Stop_Sensor` returns before any assignment: the
sensor handle and the statics are as before. -/
theorem CAN_Stop_Sensor_never_started (hw : Platform) (s : Slave)
    (Sensor : Sensor_HandleTypedef) (r : CAN_RxMessage)
    (hrx : CAN_RxQueue_getFront s.Slave_RxQueue = some r)
    (hfreq : Sensor.freq = 0) :
    CAN_Stop_Sensor hw s Sensor = some (s, Sensor) := by
  simp [CAN_Stop_Sensor, hrx, hfreq]

/-- C11, failing input. A start command with frequency 0 (payload `[0, 0]`)
leaves the encoder sensor with `freq == 0` and `start_flag == 1`; a stop command
addressed to that sensor then returns at `if (!Sensor->freq) return;`, before
`Sensor->start_flag = 0`, and the start flag is still 1. -/
theorem stop_never_started_keeps_start_flag :
    (CAN_Start_Encoder
        { Slave_zero with Slave_RxQueue := sampleQueue (sampleRx 0 0 0) [sampleRx 32 0 0] }
        { sensor_id := ENC_ID, freq := 0, start_flag := 0, stop_flag := 0 }).map
      (fun x => x.2)
      = some { sensor_id := ENC_ID, freq := 0, start_flag := 1, stop_flag := 0 } ∧
    getSensor_Id (sampleRx 34 0 0).RxHeader = ENC_ID ∧
    getSensor_Cmd (sampleRx 34 0 0).RxHeader = STOP_ID ∧
    (CAN_Stop_Sensor (samplePlatform HAL_OK)
        { Slave_zero with Slave_RxQueue := sampleQueue (sampleRx 0 0 0) [sampleRx 34 0 0] }
        { sensor_id := ENC_ID, freq := 0, start_flag := 1, stop_flag := 0 }).map
      (fun x => x.2.start_flag) = some 1 := by
  decide

/-! ## Claims on the mailbox allocator -/

/-- C13. Mailbox priority: for every value of the transmit status register,
`get_Empty_Mailbox` returns `CAN_TX_MAILBOX0` whenever mailbox 0 is free,
`CAN_TX_MAILBOX1` when 0 is busy and 1 is free, `CAN_TX_MAILBOX2` when 0 and 1
are busy and 2 is free: the lowest-numbered free mailbox. -/
theorem mailbox_priority (TSR : Nat) :
    (TSR &&& CAN_TSR_TME0 ≠ 0 → get_Empty_Mailbox TSR = CAN_TX_MAILBOX0) ∧
    (TSR &&& CAN_TSR_TME0 = 0 → TSR &&& CAN_TSR_TME1 ≠ 0 →
      get_Empty_Mailbox TSR = CAN_TX_MAILBOX1) ∧
    (TSR &&& CAN_TSR_TME0 = 0 → TSR &&& CAN_TSR_TME1 = 0 → TSR &&& CAN_TSR_TME2 ≠ 0 →
      get_Empty_Mailbox TSR = CAN_TX_MAILBOX2) := by
  refine ⟨fun h0 => ?_, fun h0 h1 => ?_, fun h0 h1 h2 => ?_⟩
  · simp [get_Empty_Mailbox, h0]
  · simp [get_Empty_Mailbox, h0, h1]
  · simp [get_Empty_Mailbox, h0, h1, h2]

/-- C13 on three register values: all free gives slot 0, only 1 and 2 free
gives slot 1, only 2 free gives slot 2. -/
theorem mailbox_priority_witness :
    get_Empty_Mailbox (CAN_TSR_TME0 ||| CAN_TSR_TME1 ||| CAN_TSR_TME2) = CAN_TX_MAILBOX0 ∧
    get_Empty_Mailbox (CAN_TSR_TME1 ||| CAN_TSR_TME2) = CAN_TX_MAILBOX1 ∧
    get_Empty_Mailbox CAN_TSR_TME2 = CAN_TX_MAILBOX2 :=
  ⟨(mailbox_priority (CAN_TSR_TME0 ||| CAN_TSR_TME1 ||| CAN_TSR_TME2)).1 (by decide),
   (mailbox_priority (CAN_TSR_TME1 ||| CAN_TSR_TME2)).2.1 (by decide) (by decide),
   (mailbox_priority CAN_TSR_TME2).2.2 (by decide) (by decide) (by decide)⟩

/-- When all three mailboxes are busy `get_Empty_Mailbox` returns `HAL_BUSY`. -/
theorem get_Empty_Mailbox_all_busy (TSR : Nat) (h0 : TSR &&& CAN_TSR_TME0 = 0)
    (h1 : TSR &&& CAN_TSR_TME1 = 0) (h2 : TSR &&& CAN_TSR_TME2 = 0) :
    get_Empty_Mailbox TSR = HAL_BUSY := by
  simp [get_Empty_Mailbox, h0, h1, h2]

/-- C14, failing input. With mailbox 0 busy and mailbox 1 free
(`TSR = CAN_TSR_TME1`) `get_Empty_Mailbox` returns `CAN_TX_MAILBOX1`, and that
value, 2, is the sentinel `HAL_BUSY` itself: the result also returned when all
three mailboxes are busy (`TSR = 0`). -/
theorem mailbox_sentinel_collides :
    CAN_TSR_TME1 &&& CAN_TSR_TME0 = 0 ∧ CAN_TSR_TME1 &&& CAN_TSR_TME1 ≠ 0 ∧
    get_Empty_Mailbox CAN_TSR_TME1 = CAN_TX_MAILBOX1 ∧
    get_Empty_Mailbox CAN_TSR_TME1 = HAL_BUSY ∧
    get_Empty_Mailbox 0 = HAL_BUSY ∧
    HAL_BUSY = CAN_TX_MAILBOX1 := by
  decide

/-! ## Claims on the dequeue result -/

/-- The result of `CAN_DeTxQueue`/`CAN_DeRxQueue` on any queue state. -/
theorem CAN_DeQueue_result {α : Type} (q : CAN_Queue α) : DequeueResult q (CAN_DeQueue q) := by
  refine ⟨fun h0 => CAN_DeQueue_empty h0, fun hu hc h255 => ?_⟩
  refine ⟨{ q with front := toInt8 ((q.front + 1).tmod (q.capacity : Int)),
                   used := toUInt8 (q.used + 255) }, ?_, ?_, rfl, ?_, rfl, rfl, rfl, rfl⟩
  · simp [CAN_DeQueue, CAN_Queue_isEmpty, hu, hc]
  · show toUInt8 (q.used + 255) + 1 = q.used
    unfold toUInt8
    omega
  · intro hf0 hf1 h128
    show toInt8 ((q.front + 1).tmod (q.capacity : Int)) = _
    have hc0 : (0 : Int) < (q.capacity : Int) := by omega
    rw [Int.tmod_eq_emod (by omega) (by omega)]
    have h1 := Int.emod_nonneg (q.front + 1) (ne_of_gt hc0)
    have h2 := Int.emod_lt_of_pos (q.front + 1) hc0
    apply toInt8_of_range <;> omega

/-- What a dequeue does, for both queue families: on every queue state with
`used == 0` (including capacity 0 and the never-created, all-zero queue)
`CAN_DeTxQueue` and `CAN_DeRxQueue` return -1 and leave the queue unchanged, no
division by the capacity being evaluated; on every state with `used != 0` and a
capacity other than 0 they return 0, decrease `used` by 1, leave `rear` and the
stored frames unchanged and set `front` to the `int8_t` store of
`(front + 1) % capacity`, which is `(front + 1) mod capacity` when `front` is a
slot and the capacity is at most 128. -/
theorem dequeue_result :
    (∀ q : CAN_TxQueue, DequeueResult q (CAN_DeTxQueue q)) ∧
    (∀ q : CAN_RxQueue, DequeueResult q (CAN_DeRxQueue q)) ∧
    CAN_DeTxQueue CAN_Queue_zero = some (CAN_Queue_zero, -1) ∧
    CAN_DeRxQueue CAN_Queue_zero = some (CAN_Queue_zero, -1) :=
  ⟨fun q => CAN_DeQueue_result q, fun q => CAN_DeQueue_result q,
   CAN_DeQueue_empty rfl, CAN_DeQueue_empty rfl⟩

/-! ## Claims on the identifier codec, continued -/

theorem StdId_shift (s c : Nat) (hs : s ≤ 63) :
    CAN_Command_StdId s c >>> 5 = s ||| c >>> 5 := by
  have h : toUInt32 (s <<< 5) = s <<< 5 := by
    apply Nat.mod_eq_of_lt
    rw [Nat.shiftLeft_eq]
    omega
  unfold CAN_Command_StdId
  rw [h]
  apply Nat.eq_of_testBit_eq
  intro i
  simp [Nat.testBit_shiftRight, Nat.testBit_or, Nat.testBit_shiftLeft]

theorem StdId_low_bits (s c : Nat) : CAN_Command_StdId s c &&& 0x1F = c % 32 := by
  apply Nat.eq_of_testBit_eq
  intro i
  have e : (32 : Nat) = 2 ^ 5 := rfl
  have e2 : (4294967296 : Nat) = 2 ^ 32 := rfl
  have e3 : (0x1F : Nat) = 2 ^ 5 - 1 := rfl
  unfold CAN_Command_StdId toUInt32
  rw [e, e2, e3, Nat.testBit_mod_two_pow, Nat.testBit_and, Nat.testBit_or,
    Nat.testBit_mod_two_pow, Nat.testBit_shiftLeft, Nat.testBit_two_pow_sub_one]
  by_cases h5 : i < 5 <;> simp [h5]

/-- C20, as amended. For every `sensor_id` in [0,63] and every `Cmd_Id`, the
sub-id part of `CAN_Command_StdId(sensor_id, Cmd_Id)` is `Cmd_Id mod 32`, below
32, and `getSensor_Id` of a header with that identifier equals `sensor_id` when
`Cmd_Id` is in [0,31]; the encoder does not constrain `Cmd_Id`: in general
`getSensor_Id` is `sensor_id | (Cmd_Id >> 5)`, cut to 8 bits. -/
theorem encoder_sub_id (sensor_id Cmd_Id : Nat) (hs : sensor_id ≤ 63)
    (RxHeader : CAN_RxHeaderTypeDef)
    (hid : RxHeader.StdId = CAN_Command_StdId sensor_id Cmd_Id) :
    getSensor_Cmd RxHeader = Cmd_Id % 32 ∧ getSensor_Cmd RxHeader < 32 ∧
    getSensor_Id RxHeader = toUInt8 (sensor_id ||| Cmd_Id >>> 5) ∧
    (Cmd_Id ≤ 31 → getSensor_Id RxHeader = sensor_id) := by
  have hcmd : getSensor_Cmd RxHeader = Cmd_Id % 32 := by
    unfold getSensor_Cmd
    rw [hid, StdId_low_bits]
    unfold toUInt8
    omega
  have hsid : getSensor_Id RxHeader = toUInt8 (sensor_id ||| Cmd_Id >>> 5) := by
    unfold getSensor_Id
    rw [hid, StdId_shift sensor_id Cmd_Id hs]
  refine ⟨hcmd, by omega, hsid, fun hc => ?_⟩
  rw [hsid]
  have h0 : Cmd_Id >>> 5 = 0 := by
    rw [Nat.shiftRight_eq_div_pow]
    exact Nat.div_eq_of_lt (by omega)
  rw [h0, Nat.or_zero]
  exact toUInt8_of_lt _ (by omega)

/-- C20 at sensor 2 with the sub-ids 3 and 35: both give sub-id part 3; the
first decodes to sensor 2, the second to sensor 3. -/
theorem encoder_sub_id_witness :
    (getSensor_Cmd { CAN_RxHeader_zero with StdId := CAN_Command_StdId 2 35 } = 3 ∧
     getSensor_Id { CAN_RxHeader_zero with StdId := CAN_Command_StdId 2 35 } = 3) ∧
    getSensor_Id { CAN_RxHeader_zero with StdId := CAN_Command_StdId 2 3 } = 2 :=
  ⟨⟨(encoder_sub_id 2 35 (by decide) _ rfl).1, (encoder_sub_id 2 35 (by decide) _ rfl).2.2.1⟩,
   (encoder_sub_id 2 3 (by decide) _ rfl).2.2.2 (by decide)⟩

/-- C20, the claim as stated fails: with `sensor_id = 0` and `Cmd_Id = 32` the
identifier is 32 and `getSensor_Id` of a header carrying it is 1, not 0. -/
theorem encoder_sub_id_32 :
    CAN_Command_StdId 0 32 = 32 ∧
    getSensor_Id { CAN_RxHeader_zero with StdId := CAN_Command_StdId 0 32 } = 1 := by
  decide

/-! ## Counted runs -/

section Counting

variable {α : Type}

/-- What an enqueue that returns has done: nothing on a full queue (return -1);
otherwise (return 0) it has stored the item in the slot `rear`, a slot of the
block, and counted it. -/
theorem CAN_EnQueue_some {q : CAN_Queue α} {item : α} {r : CAN_Queue α × Int}
    (h : CAN_EnQueue q item = some r) :
    (r = (q, -1) ∧ q.used = q.capacity) ∨
    (r.2 = 0 ∧ q.used ≠ q.capacity ∧ q.capacity ≠ 0 ∧ r.1.used = toUInt8 (q.used + 1) ∧
      r.1.capacity = q.capacity ∧ r.1.front = q.front ∧ r.1.is_create = q.is_create ∧
      0 ≤ r.1.rear ∧ r.1.rear.toNat < q.Message.length ∧
      r.1.Message = q.Message.set r.1.rear.toNat item) := by
  unfold CAN_EnQueue at h
  by_cases hfull : q.used = q.capacity
  · left
    simp [CAN_Queue_isFull, hfull] at h
    exact ⟨h.symm, hfull⟩
  · right
    by_cases hc : q.capacity = 0
    · simp only [CAN_Queue_isFull, if_neg hfull, if_pos hc, ne_eq, not_true_eq_false,
        if_false] at h
      exact Option.noConfusion h
    · simp only [CAN_Queue_isFull, if_neg hfull, if_neg hc, ne_eq, not_true_eq_false,
        if_false] at h
      split_ifs at h with hb
      cases h
      exact ⟨rfl, hfull, hc, rfl, rfl, rfl, rfl, hb.1, hb.2, rfl⟩

/-- What a dequeue that returns has done: nothing on an empty queue (return
-1); otherwise (return 0) it has moved `front` and counted down. -/
theorem CAN_DeQueue_some {q : CAN_Queue α} {r : CAN_Queue α × Int}
    (h : CAN_DeQueue q = some r) :
    (r = (q, -1) ∧ q.used = 0) ∨
    (r.2 = 0 ∧ q.used ≠ 0 ∧ q.capacity ≠ 0 ∧ r.1.used = toUInt8 (q.used + 255) ∧
      r.1.capacity = q.capacity ∧ r.1.rear = q.rear ∧ r.1.is_create = q.is_create ∧
      r.1.Message = q.Message ∧
      r.1.front = toInt8 ((q.front + 1).tmod (q.capacity : Int))) := by
  unfold CAN_DeQueue at h
  by_cases hu : q.used = 0
  · left
    simp [CAN_Queue_isEmpty, hu] at h
    exact ⟨h.symm, hu⟩
  · right
    by_cases hc : q.capacity = 0
    · simp only [CAN_Queue_isEmpty, if_neg hu, if_pos hc, ne_eq, not_true_eq_false,
        if_false] at h
      exact Option.noConfusion h
    · simp only [CAN_Queue_isEmpty, if_neg hu, if_neg hc, ne_eq, not_true_eq_false,
        if_false] at h
      cases h
      exact ⟨rfl, hu, hc, rfl, rfl, rfl, rfl, rfl, rfl⟩

/-- After a successful enqueue `getRear` reads the frame just stored. -/
theorem CAN_EnQueue_getRear {q q' : CAN_Queue α} {item : α}
    (h : CAN_EnQueue q item = some (q', 0)) : CAN_Queue_getRear q' = some item := by
  rcases CAN_EnQueue_some h with ⟨h1, _⟩ | ⟨_, _, _, _, _, _, _, h0, hlt, hm⟩
  · simp at h1
  · simp only at h0 hlt hm
    simp [CAN_Queue_getRear, readAt, h0, hm, List.getElem?_set_self hlt]

/-- The occupancy of a counted queue of capacity `N`. -/
theorem Counted.call_occupancy {t t' : Counted α} {c : QueueCall α} {N : Nat}
    (h : t.call c = some t') (hN : N ≤ 255) (hcap : t.queue.capacity = N)
    (hu : t.queue.used ≤ N) (hcount : t.queue.used + t.dequeued = t.enqueued) :
    t'.queue.capacity = N ∧ t'.queue.used ≤ N ∧
      t'.queue.used + t'.dequeued = t'.enqueued := by
  cases c with
  | enqueue item =>
    simp only [Counted.call] at h
    cases hr : CAN_EnQueue t.queue item with
    | none => simp [hr] at h
    | some r =>
      simp only [hr, Option.some.injEq] at h
      subst h
      rcases CAN_EnQueue_some hr with ⟨rfl, _⟩ | ⟨h0, hne, _, hused, hc, _⟩
      · exact ⟨hcap, hu, by simpa using hcount⟩
      · have e : toUInt8 (t.queue.used + 1) = t.queue.used + 1 :=
          toUInt8_of_lt _ (by omega)
        simp only [h0, if_true]
        rw [hused, e, hc]
        exact ⟨hcap, by omega, by omega⟩
  | dequeue =>
    simp only [Counted.call] at h
    cases hr : CAN_DeQueue t.queue with
    | none => simp [hr] at h
    | some r =>
      simp only [hr, Option.some.injEq] at h
      subst h
      rcases CAN_DeQueue_some hr with ⟨rfl, _⟩ | ⟨h0, hne, _, hused, hc, _⟩
      · exact ⟨hcap, hu, by simpa using hcount⟩
      · have e : toUInt8 (t.queue.used + 255) + 1 = t.queue.used := by
          unfold toUInt8
          omega
        simp only [h0, if_true]
        rw [hused, hc]
        exact ⟨hcap, by omega, by omega⟩

theorem Counted.calls_occupancy {N : Nat} (hN : N ≤ 255) (calls : List (QueueCall α)) :
    ∀ {t t' : Counted α}, t.calls calls = some t' → t.queue.capacity = N →
      t.queue.used ≤ N → t.queue.used + t.dequeued = t.enqueued →
      t'.queue.capacity = N ∧ t'.queue.used ≤ N ∧
        t'.queue.used + t'.dequeued = t'.enqueued := by
  induction calls with
  | nil =>
    intro t t' h hcap hu hcount
    simp only [Counted.calls, Option.some.injEq] at h
    subst h
    exact ⟨hcap, hu, hcount⟩
  | cons c cs ih =>
    intro t t' h hcap hu hcount
    simp only [Counted.calls] at h
    cases h1 : t.call c with
    | none => simp [h1] at h
    | some t1 =>
      simp only [h1] at h
      obtain ⟨a, b, d⟩ := Counted.call_occupancy h1 hN hcap hu hcount
      exact ih h a b d

/-- The queue of a counted run is the queue of the plain run. -/
theorem Counted.calls_queue (calls : List (QueueCall α)) :
    ∀ t : Counted α, (t.calls calls).map (fun x => x.queue) = runCalls t.queue calls := by
  induction calls with
  | nil => intro t; rfl
  | cons c cs ih =>
    intro t
    cases c with
    | enqueue item =>
      simp only [Counted.calls, Counted.call, runCalls, QueueCall.run]
      cases CAN_EnQueue t.queue item with
      | none => rfl
      | some r => exact ih _
    | dequeue =>
      simp only [Counted.calls, Counted.call, runCalls, QueueCall.run]
      cases CAN_DeQueue t.queue with
      | none => rfl
      | some r => exact ih _

/-- On a queue of capacity 0 holding nothing every call returns -1 and changes
nothing. -/
theorem runCalls_capacity_zero (calls : List (QueueCall α)) (q : CAN_Queue α)
    (hu : q.used = 0) (hc : q.capacity = 0) : runCalls q calls = some q := by
  induction calls with
  | nil => rfl
  | cons c cs ih =>
    cases c with
    | enqueue item =>
      simp [runCalls, QueueCall.run, CAN_EnQueue_full (hu.trans hc.symm) item, ih]
    | dequeue => simp [runCalls, QueueCall.run, CAN_DeQueue_empty hu, ih]

/-- For a capacity of at most 128 every counted run on a fresh queue returns,
and the queue then holds `used` frames. -/
theorem countCalls_fresh_total (q0 : CAN_Queue α) (N : Nat) (junk : Nat → α)
    (h128 : N ≤ 128) (calls : List (QueueCall α)) :
    ∃ t, countCalls (CAN_Create_Queue q0 N junk) calls = some t ∧
      t.queue.frames.length = t.queue.used := by
  have key : ∃ q, runCalls (CAN_Create_Queue q0 N junk) calls = some q ∧
      q.frames.length = q.used := by
    rcases Nat.eq_zero_or_pos N with h0 | h1
    · subst h0
      refine ⟨_, runCalls_capacity_zero calls _ rfl rfl, ?_⟩
      simp [CAN_Queue.frames, CAN_Create_Queue]
    · obtain ⟨hwf, _⟩ := CAN_Create_Queue_WF q0 N junk h1 h128
      obtain ⟨q, hq, hwf', _⟩ := runCalls_WF calls hwf
      exact ⟨q, hq, hwf'.length_frames⟩
  obtain ⟨q, hq, hlen⟩ := key
  have hmap := Counted.calls_queue calls
    { queue := CAN_Create_Queue q0 N junk, enqueued := 0, dequeued := 0 }
  rw [hq] at hmap
  cases ht : Counted.calls
      { queue := CAN_Create_Queue q0 N junk, enqueued := 0, dequeued := 0 } calls with
  | none => simp [ht] at hmap
  | some t =>
    simp only [ht, Option.map_some', Option.some.injEq] at hmap
    exact ⟨t, ht, by rw [hmap]; exact hlen⟩

/-- The occupancy invariant on every state reached from a fresh queue. -/
theorem countCalls_fresh_occupancy (q0 : CAN_Queue α) (N : Nat) (junk : Nat → α)
    (hN : N ≤ 255) (calls : List (QueueCall α)) (t : Counted α)
    (h : countCalls (CAN_Create_Queue q0 N junk) calls = some t) :
    t.queue.capacity = N ∧ t.queue.used ≤ N ∧ t.queue.used + t.dequeued = t.enqueued ∧
      (CAN_Queue_isEmpty t.queue = 1 ↔ t.enqueued = t.dequeued) ∧
      (CAN_Queue_isFull t.queue = 1 ↔ t.enqueued = t.dequeued + N) := by
  have hcap : (CAN_Create_Queue q0 N junk).capacity = N := toUInt8_of_lt N (by omega)
  obtain ⟨a, b, c⟩ := Counted.calls_occupancy hN calls h hcap (Nat.zero_le _) rfl
  refine ⟨a, b, c, ?_, ?_⟩
  · unfold CAN_Queue_isEmpty
    split_ifs with h0 <;> constructor <;> intro h' <;> first | omega | simp at h'
  · unfold CAN_Queue_isFull
    rw [a]
    split_ifs with h0 <;> constructor <;> intro h' <;> first | omega | simp at h'

/-- One counted call on a well-formed queue returns, keeps it well-formed and,
once an enqueue has succeeded, `rear` is not the initial -1 any more. -/
theorem Counted.call_WF {t : Counted α} (c : QueueCall α) (hwf : t.queue.WF)
    (hrear : 1 ≤ t.enqueued → 0 ≤ t.queue.rear) :
    ∃ t', t.call c = some t' ∧ t'.queue.WF ∧ t'.queue.capacity = t.queue.capacity ∧
      (1 ≤ t'.enqueued → 0 ≤ t'.queue.rear) := by
  obtain ⟨r, hr, hwf', hcap, _⟩ := c.run_WF hwf
  cases c with
  | enqueue item =>
    have hr' : CAN_EnQueue t.queue item = some r := hr
    refine ⟨{ queue := r.1, enqueued := t.enqueued + (if r.2 = 0 then 1 else 0),
              dequeued := t.dequeued }, by simp only [Counted.call, hr'], hwf', hcap, ?_⟩
    rcases CAN_EnQueue_some hr' with ⟨rfl, _⟩ | ⟨_, _, _, _, _, _, _, h0, _⟩
    · simpa using hrear
    · exact fun _ => h0
  | dequeue =>
    have hr' : CAN_DeQueue t.queue = some r := hr
    refine ⟨{ queue := r.1, enqueued := t.enqueued,
              dequeued := t.dequeued + (if r.2 = 0 then 1 else 0) },
      by simp only [Counted.call, hr'], hwf', hcap, ?_⟩
    rcases CAN_DeQueue_some hr' with ⟨rfl, _⟩ | ⟨_, _, _, _, _, hrr, _⟩
    · simpa using hrear
    · intro h
      show 0 ≤ r.1.rear
      rw [hrr]
      exact hrear h

theorem Counted.calls_WF (calls : List (QueueCall α)) :
    ∀ {t : Counted α}, t.queue.WF → (1 ≤ t.enqueued → 0 ≤ t.queue.rear) →
      ∃ t', t.calls calls = some t' ∧ t'.queue.WF ∧
        t'.queue.capacity = t.queue.capacity ∧ (1 ≤ t'.enqueued → 0 ≤ t'.queue.rear) := by
  induction calls with
  | nil => intro t hwf hrear; exact ⟨t, rfl, hwf, rfl, hrear⟩
  | cons c cs ih =>
    intro t hwf hrear
    obtain ⟨t1, h1, hwf1, hcap1, hrear1⟩ := Counted.call_WF c hwf hrear
    obtain ⟨t', h', hwf', hcap', hrear'⟩ := ih hwf1 hrear1
    exact ⟨t', by simp only [Counted.calls, h1, h'], hwf', hcap'.trans hcap1, hrear'⟩

/-- For a capacity of 1..128, in every state reached from a fresh queue by calls
of which at least one enqueue returned 0, `front` and `rear` are slots of the
block. -/
theorem index_valid_upto_128 (q0 : CAN_Queue α) (N : Nat) (junk : Nat → α) (h1 : 1 ≤ N)
    (h128 : N ≤ 128) (calls : List (QueueCall α)) :
    ∃ t, countCalls (CAN_Create_Queue q0 N junk) calls = some t ∧
      (1 ≤ t.enqueued → 0 ≤ t.queue.front ∧ t.queue.front < N ∧
        0 ≤ t.queue.rear ∧ t.queue.rear < N) := by
  obtain ⟨hwf, _, hcap, _⟩ := CAN_Create_Queue_WF q0 N junk h1 h128
  obtain ⟨t, ht, hwf', hcap', hrear⟩ :=
    Counted.calls_WF calls
      (t := { queue := CAN_Create_Queue q0 N junk, enqueued := 0, dequeued := 0 }) hwf
      (fun h => absurd h (Nat.not_succ_le_zero 0))
  refine ⟨t, ht, fun he => ?_⟩
  obtain ⟨_, _, _, hf0, hf1, _, hr1, _⟩ := hwf'
  have hc : t.queue.capacity = N := hcap'.trans hcap
  rw [hc] at hf1 hr1
  exact ⟨hf0, hf1, hrear he, hr1⟩

theorem Counted.calls_append (a b : List (QueueCall α)) :
    ∀ t : Counted α, t.calls (a ++ b) = (t.calls a).bind fun t' => t'.calls b := by
  induction a with
  | nil => intro t; rfl
  | cons c cs ih =>
    intro t
    simp only [List.cons_append, Counted.calls]
    cases t.call c with
    | none => rfl
    | some t1 => exact ih t1

/-- Enqueues that fit all return 0 and append their frames. -/
theorem Counted.enqueues (items : List α) :
    ∀ {t : Counted α}, t.queue.WF → t.queue.used + items.length ≤ t.queue.capacity →
      ∃ t', t.calls (items.map QueueCall.enqueue) = some t' ∧ t'.queue.WF ∧
        t'.queue.frames = t.queue.frames ++ items ∧
        t'.queue.capacity = t.queue.capacity ∧
        t'.queue.used = t.queue.used + items.length ∧
        t'.enqueued = t.enqueued + items.length ∧ t'.dequeued = t.dequeued := by
  induction items with
  | nil => intro t hwf _; exact ⟨t, rfl, hwf, by simp, rfl, rfl, rfl, rfl⟩
  | cons x xs ih =>
    intro t hwf hfit
    simp only [List.length_cons] at hfit
    obtain ⟨q1, he, hwf1, hfr1, hu1, hc1, _⟩ := CAN_EnQueue_WF hwf (by omega) x
    obtain ⟨t', h', hwf', hfr', hc', hu', he', hd'⟩ :=
      ih (t := { queue := q1, enqueued := t.enqueued + 1, dequeued := t.dequeued }) hwf1
        (by show q1.used + xs.length ≤ q1.capacity; omega)
    refine ⟨t', ?_, hwf', ?_, hc'.trans hc1, ?_, ?_, hd'⟩
    · simp only [List.map_cons, Counted.calls, Counted.call, he, if_true]
      exact h'
    · rw [hfr']
      show q1.frames ++ xs = _
      rw [hfr1, List.append_assoc]
      rfl
    · rw [hu']
      show q1.used + xs.length = _
      rw [hu1, List.length_cons]
      omega
    · rw [he', List.length_cons]
      show t.enqueued + 1 + xs.length = _
      omega

/-- Dequeues on a queue holding at least as many frames all return 0. -/
theorem Counted.dequeues (k : Nat) :
    ∀ {t : Counted α}, t.queue.WF → k ≤ t.queue.used →
      ∃ t', t.calls (List.replicate k QueueCall.dequeue) = some t' ∧ t'.queue.WF ∧
        t'.queue.capacity = t.queue.capacity ∧ t'.queue.used + k = t.queue.used ∧
        t'.enqueued = t.enqueued ∧ t'.dequeued = t.dequeued + k := by
  induction k with
  | zero => intro t hwf _; exact ⟨t, rfl, hwf, rfl, rfl, rfl, rfl⟩
  | succ k ih =>
    intro t hwf hk
    obtain ⟨q1, x, hd, hwf1, _, _, hu1, hc1, _⟩ := CAN_DeQueue_WF hwf (by omega)
    obtain ⟨t', h', hwf', hc', hu', he', hd'⟩ :=
      ih (t := { queue := q1, enqueued := t.enqueued, dequeued := t.dequeued + 1 }) hwf1
        (by show k ≤ q1.used; omega)
    refine ⟨t', ?_, hwf', hc'.trans hc1, ?_, he', ?_⟩
    · simp only [List.replicate_succ, Counted.calls, Counted.call, hd, if_true]
      exact h'
    · have : t'.queue.used + k = q1.used := hu'
      omega
    · rw [hd']
      show t.dequeued + 1 + k = _
      omega

/-- Wraparound on a fresh queue of capacity `1 ≤ N ≤ 128`. -/
theorem wraparound_generic (q0 : CAN_Queue α) (N : Nat) (junk : Nat → α) (h1 : 1 ≤ N)
    (h128 : N ≤ 128) (items : List α) (hlen : items.length = N) (item : α) :
    ∃ t q', countCalls (CAN_Create_Queue q0 N junk)
        (items.map QueueCall.enqueue ++ List.replicate N QueueCall.dequeue) = some t ∧
      t.enqueued = N ∧ t.dequeued = N ∧
      CAN_Queue_isEmpty t.queue = 1 ∧ CAN_Queue_isFull t.queue = 0 ∧
      CAN_EnQueue t.queue item = some (q', 0) ∧
      CAN_Queue_getFront q' = some item ∧ CAN_Queue_getRear q' = some item := by
  obtain ⟨hwf, hfr, hcap, hu⟩ := CAN_Create_Queue_WF q0 N junk h1 h128
  obtain ⟨t1, e1, w1, _, c1, u1, n1, d1⟩ :=
    Counted.enqueues items
      (t := { queue := CAN_Create_Queue q0 N junk, enqueued := 0, dequeued := 0 }) hwf
      (by show (CAN_Create_Queue q0 N junk).used + items.length ≤ _; rw [hu, hcap]; omega)
  have u1' : t1.queue.used = N := by
    rw [u1]
    show (CAN_Create_Queue q0 N junk).used + items.length = N
    omega
  obtain ⟨t2, e2, w2, c2, u2, n2, d2⟩ := Counted.dequeues N (t := t1) w1 (by omega)
  have hused : t2.queue.used = 0 := by omega
  have hcap2 : t2.queue.capacity = N := by
    rw [c2, c1]
    exact hcap
  obtain ⟨q', he, w', hfr', _⟩ := CAN_EnQueue_WF w2 (by omega) item
  rw [CAN_Queue.frames_of_used_eq_zero hused, List.nil_append] at hfr'
  refine ⟨t2, q', ?_, ?_, ?_, ?_, ?_, he, ?_, CAN_EnQueue_getRear he⟩
  · unfold countCalls
    rw [Counted.calls_append, e1]
    exact e2
  · rw [n2, n1]
    show 0 + items.length = N
    omega
  · rw [d2, d1]
    show 0 + N = N
    omega
  · simp [CAN_Queue_isEmpty, hused]
  · have : t2.queue.used ≠ t2.queue.capacity := by omega
    simp [CAN_Queue_isFull, this]
  · have hb := w'.behavesAs
    rw [hfr'] at hb
    exact hb.2.2.2.2 item [] rfl

end Counting

/-! ## Claims on occupancy, indices and wraparound -/

/-- C16. Occupancy invariant: in every queue state reached from
`CAN_Create_TxQueue(N)` (resp. `CAN_Create_RxQueue(N)`), `N` a `uint8_t`, by
enqueue and dequeue calls, `0 <= used <= capacity == N` and `used` is the number
of enqueues that returned 0 minus the number of dequeues that returned 0;
`isEmpty` holds exactly when that difference is 0 and `isFull` exactly when it
is `N`. For `N <= 128` every sequence of calls reaches a state, and the queue
then holds `used` frames. -/
theorem occupancy_invariant (N : Nat) (hN : N ≤ 255) :
    (∀ (q0 : CAN_TxQueue) (junk : Nat → CAN_TxMessage)
        (calls : List (QueueCall CAN_TxMessage)) (t : Counted CAN_TxMessage),
      countCalls (CAN_Create_TxQueue q0 N junk) calls = some t →
        t.queue.capacity = N ∧ t.queue.used ≤ N ∧
        t.queue.used + t.dequeued = t.enqueued ∧
        (CAN_TxQueue_isEmpty t.queue = 1 ↔ t.enqueued = t.dequeued) ∧
        (CAN_TxQueue_isFull t.queue = 1 ↔ t.enqueued = t.dequeued + N)) ∧
    (∀ (q0 : CAN_RxQueue) (junk : Nat → CAN_RxMessage)
        (calls : List (QueueCall CAN_RxMessage)) (t : Counted CAN_RxMessage),
      countCalls (CAN_Create_RxQueue q0 N junk) calls = some t →
        t.queue.capacity = N ∧ t.queue.used ≤ N ∧
        t.queue.used + t.dequeued = t.enqueued ∧
        (CAN_RxQueue_isEmpty t.queue = 1 ↔ t.enqueued = t.dequeued) ∧
        (CAN_RxQueue_isFull t.queue = 1 ↔ t.enqueued = t.dequeued + N)) ∧
    (N ≤ 128 →
      (∀ (q0 : CAN_TxQueue) (junk : Nat → CAN_TxMessage)
          (calls : List (QueueCall CAN_TxMessage)),
        ∃ t, countCalls (CAN_Create_TxQueue q0 N junk) calls = some t ∧
          t.queue.frames.length = t.queue.used) ∧
      (∀ (q0 : CAN_RxQueue) (junk : Nat → CAN_RxMessage)
          (calls : List (QueueCall CAN_RxMessage)),
        ∃ t, countCalls (CAN_Create_RxQueue q0 N junk) calls = some t ∧
          t.queue.frames.length = t.queue.used)) :=
  ⟨fun q0 junk calls t h => countCalls_fresh_occupancy q0 N junk hN calls t h,
   fun q0 junk calls t h => countCalls_fresh_occupancy q0 N junk hN calls t h,
   fun h128 => ⟨fun q0 junk calls => countCalls_fresh_total q0 N junk h128 calls,
                fun q0 junk calls => countCalls_fresh_total q0 N junk h128 calls⟩⟩

/-- C16 at capacity 4 after enqueue, enqueue, dequeue, dequeue, dequeue: the
state is reached and satisfies the invariant. -/
theorem occupancy_invariant_witness :
    4 ≤ 255 ∧
    ∃ t, countCalls (CAN_Create_TxQueue CAN_Queue_zero 4 (fun _ => sampleTx 0))
        [QueueCall.enqueue (sampleTx 1), QueueCall.enqueue (sampleTx 2), QueueCall.dequeue,
         QueueCall.dequeue, QueueCall.dequeue] = some t ∧
      t.queue.frames.length = t.queue.used ∧
      (t.queue.capacity = 4 ∧ t.queue.used ≤ 4 ∧
        t.queue.used + t.dequeued = t.enqueued ∧
        (CAN_TxQueue_isEmpty t.queue = 1 ↔ t.enqueued = t.dequeued) ∧
        (CAN_TxQueue_isFull t.queue = 1 ↔ t.enqueued = t.dequeued + 4)) := by
  refine ⟨by decide, ?_⟩
  obtain ⟨t, ht, hl⟩ := ((occupancy_invariant 4 (by decide)).2.2 (by decide)).1
    CAN_Queue_zero (fun _ => sampleTx 0)
    [QueueCall.enqueue (sampleTx 1), QueueCall.enqueue (sampleTx 2), QueueCall.dequeue,
     QueueCall.dequeue, QueueCall.dequeue]
  exact ⟨t, ht, hl, (occupancy_invariant 4 (by decide)).1 _ _ _ t ht⟩

set_option maxRecDepth 100000 in
/-- C17, capacity 129. On a fresh queue of capacity 129, 128 enqueues followed by
128 dequeues all return 0; the last dequeue computes `(127 + 1) % 129 = 128` and
stores it into the `int8_t` field `front` as -128, which is no index of the
block. -/
theorem index_invalid_capacity_129 :
    (countCalls (CAN_Create_TxQueue CAN_Queue_zero 129 (fun _ => sampleTx 0))
        (List.replicate 128 (QueueCall.enqueue (sampleTx 1)) ++
          List.replicate 128 QueueCall.dequeue)).map
      (fun t => (t.enqueued, t.dequeued, t.queue.used, t.queue.front, t.queue.rear))
      = some (128, 128, 0, -128, 127) := by
  rfl

/-- C18. Wraparound: for every capacity `N` with `1 <= N <= 127`, on a freshly
created queue the `N` enqueues followed by `N` dequeues all return 0, the queue
is then empty (`isEmpty` 1, `isFull` 0), the next `CAN_EnTxQueue` returns 0, and
the frame it stored is the one `getFront` and `getRear` both return. -/
theorem wraparound (N : Nat) (h1 : 1 ≤ N) (h127 : N ≤ 127) (q0 : CAN_TxQueue)
    (junk : Nat → CAN_TxMessage) (items : List CAN_TxMessage) (hlen : items.length = N)
    (item : CAN_TxMessage) :
    ∃ t q', countCalls (CAN_Create_TxQueue q0 N junk)
        (items.map QueueCall.enqueue ++ List.replicate N QueueCall.dequeue) = some t ∧
      t.enqueued = N ∧ t.dequeued = N ∧
      CAN_TxQueue_isEmpty t.queue = 1 ∧ CAN_TxQueue_isFull t.queue = 0 ∧
      CAN_EnTxQueue t.queue item = some (q', 0) ∧
      CAN_TxQueue_getFront q' = some item ∧ CAN_TxQueue_getRear q' = some item :=
  wraparound_generic q0 N junk h1 (by omega) items hlen item

/-- C18 at capacity 2: after enqueuing frames 1, 2 and dequeuing twice, frame 3
is accepted and read back at both ends. -/
theorem wraparound_witness :
    ∃ t q', countCalls (CAN_Create_TxQueue CAN_Queue_zero 2 (fun _ => sampleTx 0))
        [QueueCall.enqueue (sampleTx 1), QueueCall.enqueue (sampleTx 2), QueueCall.dequeue,
         QueueCall.dequeue] = some t ∧
      t.enqueued = 2 ∧ t.dequeued = 2 ∧
      CAN_TxQueue_isEmpty t.queue = 1 ∧ CAN_TxQueue_isFull t.queue = 0 ∧
      CAN_EnTxQueue t.queue (sampleTx 3) = some (q', 0) ∧
      CAN_TxQueue_getFront q' = some (sampleTx 3) ∧
      CAN_TxQueue_getRear q' = some (sampleTx 3) :=
  wraparound 2 (by decide) (by decide) CAN_Queue_zero (fun _ => sampleTx 0)
    [sampleTx 1, sampleTx 2] (by decide) (sampleTx 3)

/-- A dequeue on a queue of capacity 4 holding frames 1, 2: it returns 0, `used`
becomes 1 and `front` becomes 1. -/
theorem dequeue_result_witness :
    ∃ q, CAN_DeTxQueue (sampleQueue (sampleTx 0) [sampleTx 1, sampleTx 2]) = some (q, 0) ∧
      q.used + 1 = 2 ∧ q.front = 1 := by
  obtain ⟨q, h, hu, _, hf, _⟩ := (dequeue_result.1
    (sampleQueue (sampleTx 0) [sampleTx 1, sampleTx 2])).2 (by decide) (by decide) (by decide)
  exact ⟨q, h, hu, (hf (by decide) (by decide) (by decide)).trans (by decide)⟩

set_option maxRecDepth 100000 in
/-- C19, failing input. On a fresh queue of capacity 129, 128 enqueues followed
by 127 dequeues all return 0 and leave one frame, with `front = 127` and
`rear = 127`. The next `CAN_DeTxQueue` returns 0, decreases `used` to 0 and
leaves `rear` as it is, but the value `(127 + 1) % 129 = 128` it assigns to the
`int8_t` field `front` is stored as -128: `front` is not
`(front + 1) mod capacity`. -/
theorem dequeue_front_wraps_129 :
    (countCalls (CAN_Create_TxQueue CAN_Queue_zero 129 (fun _ => sampleTx 0))
        (List.replicate 128 (QueueCall.enqueue (sampleTx 1)) ++
          List.replicate 127 QueueCall.dequeue)).map
      (fun t => (t.enqueued, t.dequeued, t.queue.capacity, t.queue.used, t.queue.front,
        t.queue.rear, (t.queue.front + 1) % (t.queue.capacity : Int),
        (CAN_DeTxQueue t.queue).map
          (fun r => (r.2, r.1.used, r.1.front, r.1.rear))))
      = some (128, 127, 129, 1, 127, 127, 128, some (0, 0, -128, 127)) := by
  rfl

/-! ## The four feedback functions -/

theorem bind_some_eq_map {β γ : Type} (o : Option β) (f g : β → γ) (h : ∀ e, f e = g e) :
    (o.bind fun e => some (f e)) = o.map g := by
  cases o with
  | none => rfl
  | some e => simp [h e]

/-- What a feedback function does once its transmit attempt `a` is made: on
`HAL_OK` it returns the statics `mkOk q` around the (lazily created) Tx queue
`q`; otherwise it enqueues `item` and returns `mkFail` around the resulting
queue. With the Tx queue in a regular state it returns, one attempt is logged,
and the Tx queue gains `item` when there is room, is unchanged when it is full
or the transmit succeeded. -/
theorem feedback_outcome (hw : Platform) (s : Slave) (a : TxAttempt) (item : CAN_TxMessage)
    (mkOk mkFail : CAN_TxQueue → Slave) (res : Option Slave)
    (hres : res =
      if (hw.AddTxMessage a).1 = HAL_OK then
        some (mkOk (CAN_If_TxQueue_notCreate s.Slave_TxQueue hw.heapTx))
      else
        (CAN_EnTxQueue (CAN_If_TxQueue_notCreate s.Slave_TxQueue hw.heapTx) item).map
          fun e => mkFail e.1)
    (hOk : ∀ q, (mkOk q).Slave_TxQueue = q ∧ (mkOk q).Slave_RxQueue = s.Slave_RxQueue ∧
      (mkOk q).sent = s.sent ++ [a])
    (hFail : ∀ q, (mkFail q).Slave_TxQueue = q ∧ (mkFail q).Slave_RxQueue = s.Slave_RxQueue ∧
      (mkFail q).sent = s.sent ++ [a])
    (htx : s.Slave_TxQueue.Ready) :
    ∃ s', res = some s' ∧ s'.Slave_RxQueue = s.Slave_RxQueue ∧ s'.Slave_TxQueue.Ready ∧
      s'.sent = s.sent ++ [a] ∧
      ((hw.AddTxMessage a).1 ≠ HAL_OK → s.Slave_TxQueue.used < CAN_QUEUE_CAPACITY →
        s'.Slave_TxQueue.frames = s.Slave_TxQueue.frames ++ [item]) ∧
      ((hw.AddTxMessage a).1 ≠ HAL_OK → s.Slave_TxQueue.used = CAN_QUEUE_CAPACITY →
        s'.Slave_TxQueue = s.Slave_TxQueue ∧
        CAN_EnTxQueue s.Slave_TxQueue item = some (s.Slave_TxQueue, -1)) ∧
      ((hw.AddTxMessage a).1 = HAL_OK →
        s'.Slave_TxQueue.frames = s.Slave_TxQueue.frames ∧
        (s.Slave_TxQueue.is_create ≠ 0 → s'.Slave_TxQueue = s.Slave_TxQueue)) := by
  obtain ⟨hwf, hcap, hic, hfr, hu, hsame⟩ := htx.notCreate hw.heapTx
  subst hres
  by_cases hok : (hw.AddTxMessage a).1 = HAL_OK
  · rw [if_pos hok]
    obtain ⟨h1, h2, h3⟩ := hOk (CAN_If_TxQueue_notCreate s.Slave_TxQueue hw.heapTx)
    refine ⟨_, rfl, h2, ?_, h3, fun h => absurd hok h, fun h => absurd hok h, fun _ => ?_⟩
    · rw [h1]
      exact Or.inr ⟨hic, hwf, hcap⟩
    · rw [h1]
      exact ⟨hfr, hsame⟩
  · rw [if_neg hok]
    obtain ⟨e, he, hwf', hcap', hic', happ, hkeep⟩ := CAN_EnQueue_WF_any hwf item
    have he' : CAN_EnTxQueue (CAN_If_TxQueue_notCreate s.Slave_TxQueue hw.heapTx) item
        = some e := he
    rw [he']
    obtain ⟨h1, h2, h3⟩ := hFail e.1
    refine ⟨_, rfl, h2, ?_, h3, fun _ hroom => ?_, fun _ hfull => ?_, fun h => absurd h hok⟩
    · rw [h1]
      exact Or.inr ⟨by rw [hic']; exact hic, hwf', hcap'.trans hcap⟩
    · show (mkFail e.1).Slave_TxQueue.frames = _
      rw [h1, happ (by rw [hu, hcap]; exact hroom), hfr]
    · have hcreated : s.Slave_TxQueue.is_create ≠ 0 := by
        rcases htx with ⟨_, h0⟩ | ⟨h, _⟩
        · rw [h0] at hfull
          exact absurd hfull (by decide)
        · exact h
      have hq := hsame hcreated
      have hq' : CAN_If_TxQueue_notCreate s.Slave_TxQueue hw.heapTx = s.Slave_TxQueue := hq
      have hnoroom : ¬ (CAN_If_Queue_notCreate s.Slave_TxQueue hw.heapTx).used <
          (CAN_If_Queue_notCreate s.Slave_TxQueue hw.heapTx).capacity := by
        rw [hu, hcap, hfull]
        exact lt_irrefl _
      have hsameq := hkeep hnoroom
      constructor
      · show (mkFail e.1).Slave_TxQueue = _
        rw [h1, hsameq]
        exact hq
      · rw [← hq']
        have hfullq : (CAN_If_Queue_notCreate s.Slave_TxQueue hw.heapTx).used =
            (CAN_If_Queue_notCreate s.Slave_TxQueue hw.heapTx).capacity := by
          rw [hu, hcap, hfull]
        exact CAN_EnQueue_full hfullq item

/-- The state `CAN_Sensor_Reset_fb` returns when the front of the Rx queue is
`r`. -/
theorem CAN_Sensor_Reset_fb_eq (hw : Platform) (s : Slave) (r : CAN_RxMessage)
    (hrx : CAN_RxQueue_getFront s.Slave_RxQueue = some r) :
    CAN_Sensor_Reset_fb hw s =
      if (hw.AddTxMessage (reset_fb_attempt hw r)).1 = HAL_OK then
        some ((fun q => { s with
          Slave_TxQueue := q
          Slave_TxHeader := fb_header r RESET_FB_ID RESET_FB_DLC
          mailbox := (hw.AddTxMessage (reset_fb_attempt hw r)).2
          sent := s.sent ++ [reset_fb_attempt hw r] })
            (CAN_If_TxQueue_notCreate s.Slave_TxQueue hw.heapTx))
      else
        (CAN_EnTxQueue (CAN_If_TxQueue_notCreate s.Slave_TxQueue hw.heapTx)
            { s.Slave_TxMessage with TxHeader := fb_header r RESET_FB_ID RESET_FB_DLC }).map
          fun e => (fun q => { s with
            Slave_TxQueue := q
            Slave_TxHeader := fb_header r RESET_FB_ID RESET_FB_DLC
            Slave_TxMessage :=
              { s.Slave_TxMessage with TxHeader := fb_header r RESET_FB_ID RESET_FB_DLC }
            mailbox := (hw.AddTxMessage (reset_fb_attempt hw r)).2
            sent := s.sent ++ [reset_fb_attempt hw r] }) e.1 := by
  by_cases hok : (hw.AddTxMessage (reset_fb_attempt hw r)).1 = HAL_OK
  · rw [if_pos hok]
    simp only [reset_fb_attempt, fb_header, CAN_TxHeader_Init] at hok
    simp only [CAN_Sensor_Reset_fb, hrx, HAL_CAN_AddTxMessage, Option.bind_eq_bind,
      Option.some_bind, Option.pure_def, CAN_TxHeader_Init, reset_fb_attempt, fb_header,
      hok, ne_eq, not_true_eq_false, if_false]
  · rw [if_neg hok]
    simp only [reset_fb_attempt, fb_header, CAN_TxHeader_Init] at hok
    simp only [CAN_Sensor_Reset_fb, hrx, HAL_CAN_AddTxMessage, Option.bind_eq_bind,
      Option.some_bind, Option.pure_def, CAN_TxHeader_Init, reset_fb_attempt, fb_header,
      hok, ne_eq, not_false_eq_true, if_true, CAN_TxHeader_Copy_eq]
    exact bind_some_eq_map _ _ _ (fun _ => rfl)

/-- The state `CAN_Sensor_Stop_fb` returns when the front of the Rx queue is
`r`. -/
theorem CAN_Sensor_Stop_fb_eq (hw : Platform) (s : Slave) (r : CAN_RxMessage)
    (hrx : CAN_RxQueue_getFront s.Slave_RxQueue = some r) :
    CAN_Sensor_Stop_fb hw s =
      if (hw.AddTxMessage (stop_fb_attempt hw r)).1 = HAL_OK then
        some ((fun q => { s with
          Slave_TxQueue := q
          Slave_TxHeader := fb_header r STOP_FB_ID STOP_FB_DLC
          mailbox := (hw.AddTxMessage (stop_fb_attempt hw r)).2
          sent := s.sent ++ [stop_fb_attempt hw r] })
            (CAN_If_TxQueue_notCreate s.Slave_TxQueue hw.heapTx))
      else
        (CAN_EnTxQueue (CAN_If_TxQueue_notCreate s.Slave_TxQueue hw.heapTx)
            { s.Slave_TxMessage with TxHeader := fb_header r STOP_FB_ID STOP_FB_DLC }).map
          fun e => (fun q => { s with
            Slave_TxQueue := q
            Slave_TxHeader := fb_header r STOP_FB_ID STOP_FB_DLC
            Slave_TxMessage :=
              { s.Slave_TxMessage with TxHeader := fb_header r STOP_FB_ID STOP_FB_DLC }
            mailbox := (hw.AddTxMessage (stop_fb_attempt hw r)).2
            sent := s.sent ++ [stop_fb_attempt hw r] }) e.1 := by
  by_cases hok : (hw.AddTxMessage (stop_fb_attempt hw r)).1 = HAL_OK
  · rw [if_pos hok]
    simp only [stop_fb_attempt, fb_header, CAN_TxHeader_Init] at hok
    simp only [CAN_Sensor_Stop_fb, hrx, HAL_CAN_AddTxMessage, Option.bind_eq_bind,
      Option.some_bind, Option.pure_def, CAN_TxHeader_Init, stop_fb_attempt, fb_header,
      hok, ne_eq, not_true_eq_false, if_false]
  · rw [if_neg hok]
    simp only [stop_fb_attempt, fb_header, CAN_TxHeader_Init] at hok
    simp only [CAN_Sensor_Stop_fb, hrx, HAL_CAN_AddTxMessage, Option.bind_eq_bind,
      Option.some_bind, Option.pure_def, CAN_TxHeader_Init, stop_fb_attempt, fb_header,
      hok, ne_eq, not_false_eq_true, if_true, CAN_TxHeader_Copy_eq]
    exact bind_some_eq_map _ _ _ (fun _ => rfl)

/-- The state `CAN_Sensor_Assign_fb` returns when the front of the Rx queue is
`r`. -/
theorem CAN_Sensor_Assign_fb_eq (hw : Platform) (s : Slave) (r : CAN_RxMessage)
    (hrx : CAN_RxQueue_getFront s.Slave_RxQueue = some r) :
    CAN_Sensor_Assign_fb hw s =
      if (hw.AddTxMessage (assign_fb_attempt hw r)).1 = HAL_OK then
        some ((fun q => { s with
          Slave_TxQueue := q
          Slave_TxHeader := fb_header r ASSIGN_FB_ID ASSIGN_FB_DLC
          mailbox := (hw.AddTxMessage (assign_fb_attempt hw r)).2
          sent := s.sent ++ [assign_fb_attempt hw r] })
            (CAN_If_TxQueue_notCreate s.Slave_TxQueue hw.heapTx))
      else
        (CAN_EnTxQueue (CAN_If_TxQueue_notCreate s.Slave_TxQueue hw.heapTx)
            { TxHeader := fb_header r ASSIGN_FB_ID ASSIGN_FB_DLC, txdata := r.rxdata }).map
          fun e => (fun q => { s with
            Slave_TxQueue := q
            Slave_TxHeader := fb_header r ASSIGN_FB_ID ASSIGN_FB_DLC
            Slave_TxMessage :=
              { TxHeader := fb_header r ASSIGN_FB_ID ASSIGN_FB_DLC, txdata := r.rxdata }
            mailbox := (hw.AddTxMessage (assign_fb_attempt hw r)).2
            sent := s.sent ++ [assign_fb_attempt hw r] }) e.1 := by
  by_cases hok : (hw.AddTxMessage (assign_fb_attempt hw r)).1 = HAL_OK
  · rw [if_pos hok]
    simp only [assign_fb_attempt, fb_header, CAN_TxHeader_Init] at hok
    simp only [CAN_Sensor_Assign_fb, hrx, HAL_CAN_AddTxMessage, Option.bind_eq_bind,
      Option.some_bind, Option.pure_def, CAN_TxHeader_Init, assign_fb_attempt, fb_header,
      hok, ne_eq, not_true_eq_false, if_false]
  · rw [if_neg hok]
    simp only [assign_fb_attempt, fb_header, CAN_TxHeader_Init] at hok
    simp only [CAN_Sensor_Assign_fb, hrx, HAL_CAN_AddTxMessage, Option.bind_eq_bind,
      Option.some_bind, Option.pure_def, CAN_TxHeader_Init, assign_fb_attempt, fb_header,
      hok, ne_eq, not_false_eq_true, if_true, CAN_TxHeader_Copy_eq, CAN_Data_Copy_eq]
    exact bind_some_eq_map _ _ _ (fun _ => rfl)

theorem CAN_Sensor_Start_fb_outcome (hw : Platform) (s : Slave) (r : CAN_RxMessage)
    (hrx : CAN_RxQueue_getFront s.Slave_RxQueue = some r) (htx : s.Slave_TxQueue.Ready) :
    FeedbackOutcome hw s (start_fb_attempt hw r) (start_fb_frame r)
      (CAN_Sensor_Start_fb hw s) :=
  feedback_outcome hw s (start_fb_attempt hw r) (start_fb_frame r)
    (fun q => { s with
      Slave_TxQueue := q
      Slave_TxHeader := (start_fb_frame r).TxHeader
      mailbox := (hw.AddTxMessage (start_fb_attempt hw r)).2
      sent := s.sent ++ [start_fb_attempt hw r] })
    (fun q => { s with
      Slave_TxQueue := q
      Slave_TxHeader := (start_fb_frame r).TxHeader
      Slave_TxMessage := start_fb_frame r
      mailbox := (hw.AddTxMessage (start_fb_attempt hw r)).2
      sent := s.sent ++ [start_fb_attempt hw r] })
    (CAN_Sensor_Start_fb hw s) (CAN_Sensor_Start_fb_eq hw s r hrx)
    (fun _ => ⟨rfl, rfl, rfl⟩) (fun _ => ⟨rfl, rfl, rfl⟩) htx

theorem CAN_Sensor_Reset_fb_outcome (hw : Platform) (s : Slave) (r : CAN_RxMessage)
    (hrx : CAN_RxQueue_getFront s.Slave_RxQueue = some r) (htx : s.Slave_TxQueue.Ready) :
    FeedbackOutcome hw s (reset_fb_attempt hw r)
      (header_only_frame s r RESET_FB_ID RESET_FB_DLC) (CAN_Sensor_Reset_fb hw s) :=
  feedback_outcome hw s (reset_fb_attempt hw r)
    (header_only_frame s r RESET_FB_ID RESET_FB_DLC)
    (fun q => { s with
      Slave_TxQueue := q
      Slave_TxHeader := fb_header r RESET_FB_ID RESET_FB_DLC
      mailbox := (hw.AddTxMessage (reset_fb_attempt hw r)).2
      sent := s.sent ++ [reset_fb_attempt hw r] })
    (fun q => { s with
      Slave_TxQueue := q
      Slave_TxHeader := fb_header r RESET_FB_ID RESET_FB_DLC
      Slave_TxMessage := header_only_frame s r RESET_FB_ID RESET_FB_DLC
      mailbox := (hw.AddTxMessage (reset_fb_attempt hw r)).2
      sent := s.sent ++ [reset_fb_attempt hw r] })
    (CAN_Sensor_Reset_fb hw s) (CAN_Sensor_Reset_fb_eq hw s r hrx)
    (fun _ => ⟨rfl, rfl, rfl⟩) (fun _ => ⟨rfl, rfl, rfl⟩) htx

theorem CAN_Sensor_Stop_fb_outcome (hw : Platform) (s : Slave) (r : CAN_RxMessage)
    (hrx : CAN_RxQueue_getFront s.Slave_RxQueue = some r) (htx : s.Slave_TxQueue.Ready) :
    FeedbackOutcome hw s (stop_fb_attempt hw r)
      (header_only_frame s r STOP_FB_ID STOP_FB_DLC) (CAN_Sensor_Stop_fb hw s) :=
  feedback_outcome hw s (stop_fb_attempt hw r)
    (header_only_frame s r STOP_FB_ID STOP_FB_DLC)
    (fun q => { s with
      Slave_TxQueue := q
      Slave_TxHeader := fb_header r STOP_FB_ID STOP_FB_DLC
      mailbox := (hw.AddTxMessage (stop_fb_attempt hw r)).2
      sent := s.sent ++ [stop_fb_attempt hw r] })
    (fun q => { s with
      Slave_TxQueue := q
      Slave_TxHeader := fb_header r STOP_FB_ID STOP_FB_DLC
      Slave_TxMessage := header_only_frame s r STOP_FB_ID STOP_FB_DLC
      mailbox := (hw.AddTxMessage (stop_fb_attempt hw r)).2
      sent := s.sent ++ [stop_fb_attempt hw r] })
    (CAN_Sensor_Stop_fb hw s) (CAN_Sensor_Stop_fb_eq hw s r hrx)
    (fun _ => ⟨rfl, rfl, rfl⟩) (fun _ => ⟨rfl, rfl, rfl⟩) htx

theorem CAN_Sensor_Assign_fb_outcome (hw : Platform) (s : Slave) (r : CAN_RxMessage)
    (hrx : CAN_RxQueue_getFront s.Slave_RxQueue = some r) (htx : s.Slave_TxQueue.Ready) :
    FeedbackOutcome hw s (assign_fb_attempt hw r) (assign_fb_frame r)
      (CAN_Sensor_Assign_fb hw s) :=
  feedback_outcome hw s (assign_fb_attempt hw r) (assign_fb_frame r)
    (fun q => { s with
      Slave_TxQueue := q
      Slave_TxHeader := fb_header r ASSIGN_FB_ID ASSIGN_FB_DLC
      mailbox := (hw.AddTxMessage (assign_fb_attempt hw r)).2
      sent := s.sent ++ [assign_fb_attempt hw r] })
    (fun q => { s with
      Slave_TxQueue := q
      Slave_TxHeader := fb_header r ASSIGN_FB_ID ASSIGN_FB_DLC
      Slave_TxMessage := assign_fb_frame r
      mailbox := (hw.AddTxMessage (assign_fb_attempt hw r)).2
      sent := s.sent ++ [assign_fb_attempt hw r] })
    (CAN_Sensor_Assign_fb hw s) (CAN_Sensor_Assign_fb_eq hw s r hrx)
    (fun _ => ⟨rfl, rfl, rfl⟩) (fun _ => ⟨rfl, rfl, rfl⟩) htx

/-- C15. Tx queue at capacity: when the Tx queue already holds
`CAN_QUEUE_CAPACITY` frames and a feedback function (`CAN_Sensor_Start_fb`,
`CAN_Sensor_Reset_fb`, `CAN_Sensor_Stop_fb` or `CAN_Sensor_Assign_fb`) runs with
a hardware transmit that fails, the function returns, the enqueue it attempts
fails (`CAN_EnTxQueue` returns -1 for every frame) and the Tx queue (`front`,
`rear`, `used`, `capacity` and every stored frame) is unchanged. -/
theorem tx_queue_at_capacity (hw : Platform) (s : Slave) (r : CAN_RxMessage)
    (hrx : CAN_RxQueue_getFront s.Slave_RxQueue = some r)
    (htx : s.Slave_TxQueue.Ready)
    (hfull : s.Slave_TxQueue.used = CAN_QUEUE_CAPACITY)
    (hfail : ∀ a, (hw.AddTxMessage a).1 ≠ HAL_OK) :
    (∀ item, CAN_EnTxQueue s.Slave_TxQueue item = some (s.Slave_TxQueue, -1)) ∧
    (∃ s', CAN_Sensor_Start_fb hw s = some s' ∧ s'.Slave_TxQueue = s.Slave_TxQueue) ∧
    (∃ s', CAN_Sensor_Reset_fb hw s = some s' ∧ s'.Slave_TxQueue = s.Slave_TxQueue) ∧
    (∃ s', CAN_Sensor_Stop_fb hw s = some s' ∧ s'.Slave_TxQueue = s.Slave_TxQueue) ∧
    (∃ s', CAN_Sensor_Assign_fb hw s = some s' ∧ s'.Slave_TxQueue = s.Slave_TxQueue) := by
  have hcap : s.Slave_TxQueue.used = s.Slave_TxQueue.capacity := by
    rcases htx with ⟨_, h0⟩ | ⟨_, _, hc⟩
    · rw [h0] at hfull
      exact absurd hfull (by decide)
    · rw [hfull, hc]
  refine ⟨fun item => CAN_EnQueue_full hcap item, ?_, ?_, ?_, ?_⟩
  · obtain ⟨s', h, _, _, _, _, hq, _⟩ := CAN_Sensor_Start_fb_outcome hw s r hrx htx
    exact ⟨s', h, (hq (hfail _) hfull).1⟩
  · obtain ⟨s', h, _, _, _, _, hq, _⟩ := CAN_Sensor_Reset_fb_outcome hw s r hrx htx
    exact ⟨s', h, (hq (hfail _) hfull).1⟩
  · obtain ⟨s', h, _, _, _, _, hq, _⟩ := CAN_Sensor_Stop_fb_outcome hw s r hrx htx
    exact ⟨s', h, (hq (hfail _) hfull).1⟩
  · obtain ⟨s', h, _, _, _, _, hq, _⟩ := CAN_Sensor_Assign_fb_outcome hw s r hrx htx
    exact ⟨s', h, (hq (hfail _) hfull).1⟩

/-- C15 on a Tx queue holding four frames, a received stop command and a
transmit that fails: the stop feedback leaves the Tx queue as it is. -/
theorem tx_queue_at_capacity_witness :
    CAN_EnTxQueue sampleFullTx (sampleTx 9) = some (sampleFullTx, -1) ∧
    ∃ s', CAN_Sensor_Stop_fb (samplePlatform HAL_ERROR)
        { Slave_zero with
          Slave_RxQueue := sampleQueue (sampleRx 0 0 0) [sampleRx 34 0 0]
          Slave_TxQueue := sampleFullTx } = some s' ∧
      s'.Slave_TxQueue = sampleFullTx := by
  have h := tx_queue_at_capacity (samplePlatform HAL_ERROR)
    { Slave_zero with
      Slave_RxQueue := sampleQueue (sampleRx 0 0 0) [sampleRx 34 0 0]
      Slave_TxQueue := sampleFullTx }
    (sampleRx 34 0 0) (by decide) (by decide) (by decide)
    (fun a => by simp [samplePlatform, HAL_ERROR, HAL_OK])
  exact ⟨h.1 (sampleTx 9), h.2.2.2.1⟩

/-! ## Claims on the reset and assign handlers -/

/-- C24. Telemetry gating: whenever the Rx queue or the Tx queue holds at least
one frame (`used != 0`), `CAN_IMU_Data_Transmit` and `CAN_Encoder_Data_Transmit`
return with the statics exactly as they were: no transmit attempt is logged, the
queues, the shared Tx header, the mailbox and the last-sent timestamps are
unchanged, for every sensor state, payload and tick value. -/
theorem telemetry_gating (hw : Platform) (tick0 tick1 : Nat) (s : Slave)
    (Sensor : Sensor_HandleTypedef) (aData : List Nat) (x_pos y_pos : Nat)
    (hq : s.Slave_RxQueue.used ≠ 0 ∨ s.Slave_TxQueue.used ≠ 0) :
    CAN_IMU_Data_Transmit hw tick0 tick1 s Sensor aData = s ∧
    CAN_Encoder_Data_Transmit hw tick0 tick1 s Sensor x_pos y_pos = s := by
  simp [CAN_IMU_Data_Transmit, CAN_Encoder_Data_Transmit, hq]

/-- C24 on a started sensor (period 100) whose last frame was sent at tick 0,
at tick 5000, with one feedback frame waiting in the Tx queue: nothing is
sent. -/
theorem telemetry_gating_witness :
    CAN_IMU_Data_Transmit (samplePlatform HAL_OK) 5000 5000
        { Slave_zero with Slave_TxQueue := sampleQueue (sampleTx 0) [sampleTx 2] }
        (sampleSensor IMU_ID 100 1) [1, 2, 3, 4, 5, 6] =
      { Slave_zero with Slave_TxQueue := sampleQueue (sampleTx 0) [sampleTx 2] } ∧
    CAN_Encoder_Data_Transmit (samplePlatform HAL_OK) 5000 5000
        { Slave_zero with Slave_TxQueue := sampleQueue (sampleTx 0) [sampleTx 2] }
        (sampleSensor IMU_ID 100 1) 7 9 =
      { Slave_zero with Slave_TxQueue := sampleQueue (sampleTx 0) [sampleTx 2] } :=
  telemetry_gating (samplePlatform HAL_OK) 5000 5000
    { Slave_zero with Slave_TxQueue := sampleQueue (sampleTx 0) [sampleTx 2] }
    (sampleSensor IMU_ID 100 1) [1, 2, 3, 4, 5, 6] 7 9 (Or.inr (by decide))

/-- The `uint32_t` difference of the tick `(t + d) mod 2^32` and `t` is `d`. -/
theorem sub32_elapsed (t d : Nat) (hd : d < 4294967296) :
    sub32 ((t + d) % 4294967296) t = d := by
  unfold sub32 toUInt32
  omega

/-- C25. Wraparound-safe telemetry timing: for every last-sent tick `t` (a
`uint32_t`) and every elapsed duration `d < 2^32`, with the current tick
`now = (t + d) mod 2^32`, the difference `now - t` the telemetry functions
compute in `uint32_t` arithmetic is `d`, so it exceeds the period `freq` exactly
when `d > freq`; accordingly, with both queues empty and the sensor not gated
off, each telemetry function makes its transmit attempt when `d > freq` and
changes nothing when `d <= freq`, also when the counter has wrapped between `t`
and `now`. -/
theorem telemetry_timing (hw : Platform) (t d tick1 : Nat) (s : Slave)
    (Sensor : Sensor_HandleTypedef) (aData : List Nat) (x_pos y_pos : Nat)
    (hd : d < 4294967296) :
    (sub32 ((t + d) % 4294967296) t > Sensor.freq ↔ d > Sensor.freq) ∧
    (s.Slave_RxQueue.used = 0 → s.Slave_TxQueue.used = 0 →
      ¬ (Sensor.freq = 0 ∧ Sensor.start_flag = 0) →
      (s.IMU_Data_time = t →
        (d > Sensor.freq →
          (CAN_IMU_Data_Transmit hw ((t + d) % 4294967296) tick1 s Sensor aData).sent.length
            = s.sent.length + 1) ∧
        (¬ d > Sensor.freq →
          CAN_IMU_Data_Transmit hw ((t + d) % 4294967296) tick1 s Sensor aData = s)) ∧
      (s.Encoder_Data_time = t →
        (d > Sensor.freq →
          (CAN_Encoder_Data_Transmit hw ((t + d) % 4294967296) tick1 s Sensor
            x_pos y_pos).sent.length = s.sent.length + 1) ∧
        (¬ d > Sensor.freq →
          CAN_Encoder_Data_Transmit hw ((t + d) % 4294967296) tick1 s Sensor
            x_pos y_pos = s))) := by
  have he := sub32_elapsed t d hd
  refine ⟨by rw [he], fun hrx htx hon => ⟨fun htime => ⟨fun hgt => ?_, fun hle => ?_⟩,
    fun htime => ⟨fun hgt => ?_, fun hle => ?_⟩⟩⟩
  · simp [CAN_IMU_Data_Transmit, hrx, htx, hon, htime, he, hgt, HAL_CAN_AddTxMessage]
  · simp [CAN_IMU_Data_Transmit, hrx, htx, hon, htime, he, hle]
  · simp [CAN_Encoder_Data_Transmit, hrx, htx, hon, htime, he, hgt, HAL_CAN_AddTxMessage]
  · simp [CAN_Encoder_Data_Transmit, hrx, htx, hon, htime, he, hle]

/-- C25 across a wrap of the tick counter: the last frame was sent at tick
`2^32 - 50` and 150 ticks have passed, so the counter reads 100; with period 100
the IMU frame is sent (150 > 100), and `100 - (2^32 - 50)` in `uint32_t`
arithmetic is 150. -/
theorem telemetry_timing_witness :
    (sub32 ((4294967246 + 150) % 4294967296) 4294967246 > 100 ↔ 150 > 100) ∧
    (4294967246 + 150) % 4294967296 = 100 ∧
    (CAN_IMU_Data_Transmit (samplePlatform HAL_OK) ((4294967246 + 150) % 4294967296) 100
        { Slave_zero with IMU_Data_time := 4294967246 }
        (sampleSensor IMU_ID 100 1) [1, 2, 3, 4, 5, 6]).sent.length = 0 + 1 :=
  ⟨(telemetry_timing (samplePlatform HAL_OK) 4294967246 150 100
      { Slave_zero with IMU_Data_time := 4294967246 }
      (sampleSensor IMU_ID 100 1) [1, 2, 3, 4, 5, 6] 0 0 (by decide)).1,
   by decide,
   ((telemetry_timing (samplePlatform HAL_OK) 4294967246 150 100
      { Slave_zero with IMU_Data_time := 4294967246 }
      (sampleSensor IMU_ID 100 1) [1, 2, 3, 4, 5, 6] 0 0 (by decide)).2
      rfl rfl (by decide)).1 rfl |>.1 (by decide)⟩

/-! ## Lazy creation; claims on the idle tick -/

theorem CAN_If_Queue_notCreate_oneShot {α : Type} (q : CAN_Queue α) (junk : Nat → α) :
    OneShot q junk := by
  have hr : toInt8 (-1) = -1 := by decide
  refine ⟨fun h0 => ?_, fun h1 => ?_, fun junk2 => ?_⟩
  · obtain ⟨hwf, hfr, hcap, hu⟩ :=
      CAN_Create_Queue_WF q CAN_QUEUE_CAPACITY junk (by decide) (by decide)
    have e : CAN_If_Queue_notCreate q junk =
        { CAN_Create_Queue q CAN_QUEUE_CAPACITY junk with is_create := 1 } := by
      simp [CAN_If_Queue_notCreate, h0]
    rw [e]
    refine ⟨hu, hfr, hcap, rfl, rfl, hr, ?_, ?_, hwf⟩
    · simp [CAN_Create_Queue, malloc, toUInt8, CAN_QUEUE_CAPACITY]
    · simp [CAN_Queue_isEmpty, CAN_Create_Queue]
  · have e : CAN_If_Queue_notCreate q junk = q := by simp [CAN_If_Queue_notCreate, h1]
    rw [e]
    exact ⟨rfl, rfl⟩
  · by_cases h0 : q.is_create = 0
    · simp [CAN_If_Queue_notCreate, h0]
    · simp [CAN_If_Queue_notCreate, h0]

/-- C29. Idle tick is a no-op: when the Rx queue is empty (`used == 0`, which
includes the never-created queue), `CAN_Slave_FIFO0_Recieve_Cmd_Handle` returns
the node as it was: no handle function is invoked, no transmit attempt is
logged, and the Rx queue, the Tx queue, the other statics and the user's objects
(the sensor handles) are unchanged. -/
theorem idle_tick {U : Type} (user : Handlers U) (hw : Platform) (n : Node U)
    (hidle : n.slave.Slave_RxQueue.used = 0) :
    CAN_Slave_FIFO0_Recieve_Cmd_Handle user hw n = some n := by
  simp [CAN_Slave_FIFO0_Recieve_Cmd_Handle, hidle]

/-- C29 on the node at program start (Rx queue never created), with the
library's `CAN_Start_IMU` as start handle. -/
theorem idle_tick_witness :
    (CAN_Slave_FIFO0_Recieve_Cmd_Handle sampleHandlers (samplePlatform HAL_OK)
        { slave := Slave_zero, user := sampleSensor IMU_ID 0 0, invoked := [] }).map
      (fun n => (n.slave, n.user, n.invoked)) = some (Slave_zero, sampleSensor IMU_ID 0 0, []) := by
  rw [idle_tick sampleHandlers (samplePlatform HAL_OK)
    { slave := Slave_zero, user := sampleSensor IMU_ID 0 0, invoked := [] } rfl]
  rfl

/-! ## Claims on the feedback header and payload -/

/-- A queue in a regular state holds at most `CAN_QUEUE_CAPACITY` frames. -/
theorem CAN_Queue.Ready.used_le {α : Type} {q : CAN_Queue α} (h : q.Ready) :
    q.used ≤ CAN_QUEUE_CAPACITY := by
  rcases h with ⟨_, hu⟩ | ⟨_, hwf, hcap⟩
  · rw [hu]
    exact Nat.zero_le _
  · rw [← hcap]
    exact hwf.2.2.2.2.2.2.2.1

/-- The outcome of a feedback function, read for its header. -/
theorem FeedbackOutcome.header {hw : Platform} {s : Slave} {a : TxAttempt}
    {item : CAN_TxMessage} {res : Option Slave} (h : FeedbackOutcome hw s a item res)
    (htx : s.Slave_TxQueue.Ready) (r : CAN_RxMessage) (k dlc : Nat)
    (ha : a.pHeader = fb_header r k dlc) (hi : item.TxHeader = fb_header r k dlc)
    (hd : dlc ≤ 8) : FeedbackHeader hw s r k dlc res := by
  obtain ⟨s', hres, _, _, hsent, hroom, hfull, hok⟩ := h
  by_cases hs : (hw.AddTxMessage a).1 = HAL_OK
  · exact ⟨s', a, [], hres, hsent, ha, by simp [(hok hs).1], by simp,
      fun h => absurd hs h, fun _ => rfl, hd⟩
  · by_cases hr : s.Slave_TxQueue.used < CAN_QUEUE_CAPACITY
    · refine ⟨s', a, [item], hres, hsent, ha, hroom hs hr, ?_, fun _ _ => rfl,
        fun h => absurd h hs, hd⟩
      intro m hm
      rw [List.mem_singleton] at hm
      subst hm
      refine ⟨hi.trans ha.symm, ?_⟩
      rw [hi]
      exact hd
    · have hu : s.Slave_TxQueue.used = CAN_QUEUE_CAPACITY :=
        le_antisymm htx.used_le (not_lt.mp hr)
      refine ⟨s', a, [], hres, hsent, ha, by simp [(hfull hs hu).1], by simp,
        fun _ h => absurd h hr, fun _ => rfl, hd⟩

/-- C21. Feedback header: with the frame `r` at the front of the Rx queue and
the Tx queue in a regular state, each of the four feedback functions returns and
hands exactly one header to the hardware, with
`StdId = CAN_Command_StdId(sensor id of r, k)`, `DLC` the table entry of its
kind (start `k = 0x00`, DLC 2; reset `k = 0x01`, DLC 0; stop `k = 0x02`, DLC 0;
assign `k = 0x03`, DLC 8), `ExtId = 0`, `IDE = CAN_ID_STD`, `RTR = CAN_RTR_DATA`
and `TransmitGlobalTime = DISABLE`; the Tx queue gains one frame when the
transmit fails and there is room, none otherwise, and every frame it gains has
that same header, hence a DLC of at most 8 that matches the table. -/
theorem feedback_header (hw : Platform) (s : Slave) (r : CAN_RxMessage)
    (hrx : CAN_RxQueue_getFront s.Slave_RxQueue = some r)
    (htx : s.Slave_TxQueue.Ready) :
    FeedbackHeader hw s r START_FB_ID START_FB_DLC (CAN_Sensor_Start_fb hw s) ∧
    FeedbackHeader hw s r RESET_FB_ID RESET_FB_DLC (CAN_Sensor_Reset_fb hw s) ∧
    FeedbackHeader hw s r STOP_FB_ID STOP_FB_DLC (CAN_Sensor_Stop_fb hw s) ∧
    FeedbackHeader hw s r ASSIGN_FB_ID ASSIGN_FB_DLC (CAN_Sensor_Assign_fb hw s) ∧
    (START_FB_ID = 0x00 ∧ START_FB_DLC = 2) ∧ (RESET_FB_ID = 0x01 ∧ RESET_FB_DLC = 0) ∧
    (STOP_FB_ID = 0x02 ∧ STOP_FB_DLC = 0) ∧ (ASSIGN_FB_ID = 0x03 ∧ ASSIGN_FB_DLC = 8) :=
  ⟨(CAN_Sensor_Start_fb_outcome hw s r hrx htx).header htx r _ _ rfl rfl (by decide),
   (CAN_Sensor_Reset_fb_outcome hw s r hrx htx).header htx r _ _ rfl rfl (by decide),
   (CAN_Sensor_Stop_fb_outcome hw s r hrx htx).header htx r _ _ rfl rfl (by decide),
   (CAN_Sensor_Assign_fb_outcome hw s r hrx htx).header htx r _ _ rfl rfl (by decide),
   ⟨rfl, rfl⟩, ⟨rfl, rfl⟩, ⟨rfl, rfl⟩, ⟨rfl, rfl⟩⟩

/-- C21 on a received assign command for sensor 1 (identifier 35), one frame
waiting in the Tx queue and a transmit that fails: the header handed to the
hardware and the header queued both have identifier 35 and length 8. -/
theorem feedback_header_witness :
    FeedbackHeader (samplePlatform HAL_ERROR)
      { Slave_zero with
        Slave_RxQueue := sampleQueue (sampleRx 0 0 0) [sampleRx 35 0x64 0]
        Slave_TxQueue := sampleQueue (sampleTx 0) [sampleTx 7] }
      (sampleRx 35 0x64 0) ASSIGN_FB_ID ASSIGN_FB_DLC
      (CAN_Sensor_Assign_fb (samplePlatform HAL_ERROR)
        { Slave_zero with
          Slave_RxQueue := sampleQueue (sampleRx 0 0 0) [sampleRx 35 0x64 0]
          Slave_TxQueue := sampleQueue (sampleTx 0) [sampleTx 7] }) ∧
    (CAN_Sensor_Assign_fb (samplePlatform HAL_ERROR)
        { Slave_zero with
          Slave_RxQueue := sampleQueue (sampleRx 0 0 0) [sampleRx 35 0x64 0]
          Slave_TxQueue := sampleQueue (sampleTx 0) [sampleTx 7] }).map
      (fun s' => (s'.sent.map (fun a => (a.pHeader.StdId, a.pHeader.DLC)),
        s'.Slave_TxQueue.frames.map (fun m => (m.TxHeader.StdId, m.TxHeader.DLC))))
      = some ([(35, 8)], [(7, 0), (35, 8)]) :=
  ⟨(feedback_header (samplePlatform HAL_ERROR)
      { Slave_zero with
        Slave_RxQueue := sampleQueue (sampleRx 0 0 0) [sampleRx 35 0x64 0]
        Slave_TxQueue := sampleQueue (sampleTx 0) [sampleTx 7] }
      (sampleRx 35 0x64 0) (by decide) (by decide)).2.2.2.1, by decide⟩

/-- The outcome of a feedback function, read for its payload. -/
theorem FeedbackOutcome.payload {hw : Platform} {s : Slave} {a : TxAttempt}
    {item : CAN_TxMessage} {res : Option Slave} (h : FeedbackOutcome hw s a item res)
    (data : Option (List Nat)) (ha : a.aData = data) : FeedbackPayload s data res := by
  obtain ⟨s', hres, _, _, hsent, _⟩ := h
  exact ⟨s', a, hres, hsent, ha⟩

/-- C22. Feedback payload: with the frame `r` at the front of the Rx queue and
the Tx queue in a regular state, each feedback function returns and makes
exactly one transmit attempt; the data handed to the hardware by
`CAN_Sensor_Start_fb` and by `CAN_Sensor_Assign_fb` is, byte for byte, the
payload of `r`, while `CAN_Sensor_Reset_fb` and `CAN_Sensor_Stop_fb` hand over
no payload (a null data pointer). -/
theorem feedback_payload (hw : Platform) (s : Slave) (r : CAN_RxMessage)
    (hrx : CAN_RxQueue_getFront s.Slave_RxQueue = some r)
    (htx : s.Slave_TxQueue.Ready) :
    FeedbackPayload s
      (some [r.rxdata.d0, r.rxdata.d1, r.rxdata.d2, r.rxdata.d3, r.rxdata.d4, r.rxdata.d5,
             r.rxdata.d6, r.rxdata.d7]) (CAN_Sensor_Start_fb hw s) ∧
    FeedbackPayload s
      (some [r.rxdata.d0, r.rxdata.d1, r.rxdata.d2, r.rxdata.d3, r.rxdata.d4, r.rxdata.d5,
             r.rxdata.d6, r.rxdata.d7]) (CAN_Sensor_Assign_fb hw s) ∧
    FeedbackPayload s none (CAN_Sensor_Reset_fb hw s) ∧
    FeedbackPayload s none (CAN_Sensor_Stop_fb hw s) :=
  ⟨(CAN_Sensor_Start_fb_outcome hw s r hrx htx).payload _ rfl,
   (CAN_Sensor_Assign_fb_outcome hw s r hrx htx).payload _ rfl,
   (CAN_Sensor_Reset_fb_outcome hw s r hrx htx).payload _ rfl,
   (CAN_Sensor_Stop_fb_outcome hw s r hrx htx).payload _ rfl⟩

/-- C22 on a received start command with payload `[0x64, 0x00]` (frequency
100): the start feedback hands the same eight bytes to the hardware. -/
theorem feedback_payload_witness :
    FeedbackPayload
      { Slave_zero with Slave_RxQueue := sampleQueue (sampleRx 0 0 0) [sampleRx 0 0x64 0] }
      (some [0x64, 0, 0, 0, 0, 0, 0, 0])
      (CAN_Sensor_Start_fb (samplePlatform HAL_OK)
        { Slave_zero with
          Slave_RxQueue := sampleQueue (sampleRx 0 0 0) [sampleRx 0 0x64 0] }) :=
  (feedback_payload (samplePlatform HAL_OK)
    { Slave_zero with Slave_RxQueue := sampleQueue (sampleRx 0 0 0) [sampleRx 0 0x64 0] }
    (sampleRx 0 0x64 0) (by decide) (by decide)).1

/-! ## Claims on the error report -/

/-- On a Tx queue that has been created and has room, an error report whose
transmit fails is queued: the Tx queue gains one frame with
`StdId = CAN_Command_StdId(sensor_id, ERROR_ID)` and `DLC = ERROR_DLC`. -/
theorem CAN_Sensor_ErrorFb_created (hw : Platform) (s : Slave)
    (Sensor : Sensor_HandleTypedef) (hwf : s.Slave_TxQueue.WF)
    (hroom : s.Slave_TxQueue.used < s.Slave_TxQueue.capacity)
    (hfail : ∀ a, (hw.AddTxMessage a).1 ≠ HAL_OK) :
    ∃ s' m, CAN_Sensor_ErrorFb hw s Sensor = some s' ∧
      s'.Slave_TxQueue.frames = s.Slave_TxQueue.frames ++ [m] ∧
      m.TxHeader.StdId = CAN_Command_StdId Sensor.sensor_id ERROR_ID ∧
      m.TxHeader.DLC = ERROR_DLC := by
  obtain ⟨q', he, _, hfr, _⟩ := CAN_EnQueue_WF hwf hroom
    { s.Slave_TxMessage with
      TxHeader := CAN_TxHeader_Init CAN_TxHeader_zero
        (CAN_Command_StdId Sensor.sensor_id ERROR_ID) ERROR_DLC }
  have he' : CAN_EnTxQueue s.Slave_TxQueue
      { s.Slave_TxMessage with
        TxHeader := CAN_TxHeader_Init CAN_TxHeader_zero
          (CAN_Command_StdId Sensor.sensor_id ERROR_ID) ERROR_DLC } = some (q', 0) := he
  simp only [CAN_Sensor_ErrorFb, HAL_CAN_AddTxMessage, Option.bind_eq_bind, Option.pure_def,
    ne_eq, hfail, not_false_eq_true, if_true, CAN_TxHeader_Copy_eq]
  simp only [CAN_TxHeader_Init] at he' ⊢
  rw [he']
  exact ⟨_, _, rfl, hfr, rfl, rfl⟩

/-- An error report made while the Tx queue is still untouched static storage
(`used == capacity == 0`, `is_create == 0`) and whose transmit fails is not
queued: `CAN_EnTxQueue` finds the queue full and the Tx queue stays as it is. -/
theorem CAN_Sensor_ErrorFb_not_created (hw : Platform) (s : Slave)
    (Sensor : Sensor_HandleTypedef) (hu : s.Slave_TxQueue.used = 0)
    (hc : s.Slave_TxQueue.capacity = 0)
    (hfail : ∀ a, (hw.AddTxMessage a).1 ≠ HAL_OK) :
    ∃ s', CAN_Sensor_ErrorFb hw s Sensor = some s' ∧
      s'.Slave_TxQueue = s.Slave_TxQueue ∧ s'.Slave_TxQueue.frames = [] := by
  have hfull : s.Slave_TxQueue.used = s.Slave_TxQueue.capacity := by rw [hu, hc]
  simp only [CAN_Sensor_ErrorFb, HAL_CAN_AddTxMessage, Option.bind_eq_bind, Option.pure_def,
    ne_eq, hfail, not_false_eq_true, if_true, CAN_TxHeader_Copy_eq]
  rw [show CAN_EnTxQueue s.Slave_TxQueue _ = some (s.Slave_TxQueue, -1) from
    CAN_EnQueue_full hfull _]
  exact ⟨_, rfl, rfl, CAN_Queue.frames_of_used_eq_zero hu⟩

/-- C27, failing input. At program start (no feedback function has run, the Tx
queue holds 0 < `CAN_QUEUE_CAPACITY` frames) `CAN_Sensor_ErrorFb` for the IMU
sensor with a failing transmit makes its one transmit attempt and then leaves
the Tx queue as it was, zero-initialised and holding no frame: the queue is
never created on this path, so `CAN_TxQueue_isFull` is 1 (`used == capacity ==
0`) and `CAN_EnTxQueue` returns -1. -/
theorem error_report_lost_before_creation :
    Slave_zero.Slave_TxQueue.used < CAN_QUEUE_CAPACITY ∧
    (CAN_Sensor_ErrorFb (samplePlatform HAL_ERROR) Slave_zero (sampleSensor IMU_ID 0 0)).map
      (fun s' => (s'.Slave_TxQueue, s'.Slave_TxQueue.frames, s'.sent.length))
      = some (CAN_Queue_zero, [], 1) ∧
    CAN_TxQueue_isFull Slave_zero.Slave_TxQueue = 1 ∧
    (CAN_EnTxQueue Slave_zero.Slave_TxQueue (sampleTx 11)).map (fun e => e.2) = some (-1) ∧
    ((CAN_Sensor_Stop_fb (samplePlatform HAL_ERROR)
        { Slave_zero with
          Slave_RxQueue := sampleQueue (sampleRx 0 0 0) [sampleRx 2 0 0] }).map
      (fun s' => s'.Slave_TxQueue.frames.map (fun m => m.TxHeader.StdId))) = some [2] := by
  decide

/-! ## Claims on telemetry after a stop command -/

/-- For a sensor with `freq != 0` the telemetry functions do not depend on
`start_flag`: the gate `(!freq) && (!start_flag)` is false whatever the flag. -/
theorem telemetry_ignores_start_flag (hw : Platform) (tick0 tick1 : Nat) (s : Slave)
    (Sensor : Sensor_HandleTypedef) (aData : List Nat) (x_pos y_pos : Nat)
    (hf : Sensor.freq ≠ 0) (flag : Nat) :
    CAN_IMU_Data_Transmit hw tick0 tick1 s { Sensor with start_flag := flag } aData =
      CAN_IMU_Data_Transmit hw tick0 tick1 s Sensor aData ∧
    CAN_Encoder_Data_Transmit hw tick0 tick1 s { Sensor with start_flag := flag } x_pos y_pos =
      CAN_Encoder_Data_Transmit hw tick0 tick1 s Sensor x_pos y_pos := by
  simp [CAN_IMU_Data_Transmit, CAN_Encoder_Data_Transmit, hf]

/-- C30, failing input. The IMU sensor is started with period 100
(`freq = 100`, `start_flag = 1`) and a stop command for sensor 0 (identifier 2)
is at the front of the Rx queue. One dispatcher tick whose stop handle calls
`CAN_Stop_Sensor` clears `start_flag`, sends the stop feedback (identifier 2,
accepted by the hardware) and leaves both queues empty. The next call of
`CAN_IMU_Data_Transmit`, at tick 1000, still makes a telemetry transmit attempt
(identifier 10, length 6): the gate `(!freq) && (!start_flag)` only closes when
`freq` is 0 as well. The same holds for `CAN_Encoder_Data_Transmit` and the
encoder sensor (stop identifier 34, telemetry identifier 42, length 8). -/
theorem telemetry_after_stop :
    (CAN_Slave_FIFO0_Recieve_Cmd_Handle (sampleStopHandlers (samplePlatform HAL_OK))
        (samplePlatform HAL_OK)
        { slave := { Slave_zero with
            Slave_RxQueue := sampleQueue (sampleRx 0 0 0) [sampleRx 2 0 0] }
          user := sampleSensor IMU_ID 100 1
          invoked := [] }).map
      (fun n => (n.user, n.invoked, n.slave.Slave_RxQueue.used, n.slave.Slave_TxQueue.used,
        (CAN_IMU_Data_Transmit (samplePlatform HAL_OK) 1000 1000 n.slave n.user
          [1, 2, 3, 4, 5, 6]).sent.map
            (fun a => (a.pHeader.StdId, a.pHeader.DLC, a.aData))))
      = some (sampleSensor IMU_ID 100 0, [Hook.Stop], 0, 0,
          [(2, 0, none), (10, 6, some [1, 2, 3, 4, 5, 6])]) ∧
    (CAN_Slave_FIFO0_Recieve_Cmd_Handle (sampleStopHandlers (samplePlatform HAL_OK))
        (samplePlatform HAL_OK)
        { slave := { Slave_zero with
            Slave_RxQueue := sampleQueue (sampleRx 0 0 0) [sampleRx 34 0 0] }
          user := sampleSensor ENC_ID 100 1
          invoked := [] }).map
      (fun n => (n.user, n.invoked, n.slave.Slave_RxQueue.used, n.slave.Slave_TxQueue.used,
        (CAN_Encoder_Data_Transmit (samplePlatform HAL_OK) 1000 1000 n.slave n.user
          0x3F800000 0).sent.map
            (fun a => (a.pHeader.StdId, a.pHeader.DLC, a.aData))))
      = some (sampleSensor ENC_ID 100 0, [Hook.Stop], 0, 0,
          [(34, 0, none), (42, 8, some [0, 0, 0x80, 0x3F, 0, 0, 0, 0])]) :=
  ⟨rfl, rfl⟩

/-! ## Claims on reception -/

/-- What `CAN_Slave_FIFO0_RxMessage` does with the answer of the hardware, the
Rx queue being in a regular state. -/
theorem CAN_Slave_FIFO0_RxMessage_received (hw : Platform)
    (GetRxMessage : CAN_RxMessage → Nat × CAN_RxMessage) (s : Slave) (st : Nat)
    (m : CAN_RxMessage) (hrxq : s.Slave_RxQueue.Ready)
    (hget : GetRxMessage s.Slave_RxMessage = (st, m)) :
    Received s st m (CAN_Slave_FIFO0_RxMessage hw GetRxMessage s) := by
  obtain ⟨hwf, hcap, hic, hfr, hu, _⟩ := hrxq.notCreate hw.heapRx
  by_cases hst : st = HAL_OK
  · by_cases hid : getSensor_Id m.RxHeader = IMU_ID ∨ getSensor_Id m.RxHeader = ENC_ID
    · obtain ⟨e, he, hwf', hcap', hic', happ, hkeep⟩ := CAN_EnQueue_WF_any hwf m
      have he' : CAN_EnRxQueue (CAN_If_RxQueue_notCreate s.Slave_RxQueue hw.heapRx) m
          = some e := he
      have hres : CAN_Slave_FIFO0_RxMessage hw GetRxMessage s =
          some { s with Slave_RxMessage := m, Slave_RxQueue := e.1 } := by
        simp only [CAN_Slave_FIFO0_RxMessage, hget, hst, ne_eq, not_true_eq_false, if_false,
          if_pos hid, he', Option.bind_eq_bind, Option.some_bind, Option.pure_def]
      rw [hres]
      refine ⟨_, rfl, rfl, rfl, rfl, Or.inr ⟨?_, hwf', hcap'.trans hcap⟩, ?_, ?_⟩
      · show e.1.is_create ≠ 0
        rw [hic']
        exact hic
      · intro _ _ hroom
        show e.1.frames = _
        rw [happ (by rw [hu, hcap]; exact hroom), hfr]
      · intro hn
        have hnr : ¬ s.Slave_RxQueue.used < CAN_QUEUE_CAPACITY := fun h => hn ⟨hst, hid, h⟩
        show e.1.frames = _
        rw [hkeep (by rw [hu, hcap]; exact hnr), hfr]
    · have hres : CAN_Slave_FIFO0_RxMessage hw GetRxMessage s =
          some { s with Slave_RxMessage := m } := by
        simp only [CAN_Slave_FIFO0_RxMessage, hget, hst, ne_eq, not_true_eq_false, if_false,
          if_neg hid]
      rw [hres]
      exact ⟨_, rfl, rfl, rfl, rfl, hrxq, fun _ h => absurd h hid, fun _ => rfl⟩
  · have hres : CAN_Slave_FIFO0_RxMessage hw GetRxMessage s =
        some { s with Slave_RxMessage := m } := by
      simp only [CAN_Slave_FIFO0_RxMessage, hget, ne_eq, hst, not_false_eq_true, if_true]
    rw [hres]
    exact ⟨_, rfl, rfl, rfl, rfl, hrxq, fun h => absurd h hst, fun _ => rfl⟩

/-- C26, as amended. Every frame that `CAN_Slave_FIFO0_RxMessage` places in the
Rx queue is the frame the hardware delivered with status `HAL_OK`, header (its
DLC included) and payload as delivered, and its sensor id is `IMU_ID` or
`ENC_ID`: with the Rx queue in a regular state the call returns, stores the
delivered frame `m` at the end of the Rx queue when the status is `HAL_OK`, the
sensor id of `m` is `IMU_ID` or `ENC_ID` and the queue holds fewer than
`CAN_QUEUE_CAPACITY` frames, and leaves the frames of the Rx queue as they are
otherwise; the DLC of `m` is not compared with the protocol table. -/
theorem rx_frame_as_delivered (hw : Platform)
    (GetRxMessage : CAN_RxMessage → Nat × CAN_RxMessage) (s : Slave) (st : Nat)
    (m : CAN_RxMessage) (hrxq : s.Slave_RxQueue.Ready)
    (hget : GetRxMessage s.Slave_RxMessage = (st, m)) :
    Received s st m (CAN_Slave_FIFO0_RxMessage hw GetRxMessage s) ∧
    (∀ s', CAN_Slave_FIFO0_RxMessage hw GetRxMessage s = some s' →
      ∀ f ∈ s'.Slave_RxQueue.frames, f ∈ s.Slave_RxQueue.frames ∨
        (f = m ∧ st = HAL_OK ∧
          (getSensor_Id f.RxHeader = IMU_ID ∨ getSensor_Id f.RxHeader = ENC_ID))) := by
  have h := CAN_Slave_FIFO0_RxMessage_received hw GetRxMessage s st m hrxq hget
  refine ⟨h, ?_⟩
  obtain ⟨s1, hres, _, _, _, _, hadd, hkeep⟩ := h
  intro s' hs' f hf
  rw [hres] at hs'
  obtain rfl := Option.some.inj hs'
  by_cases hc : st = HAL_OK ∧
      (getSensor_Id m.RxHeader = IMU_ID ∨ getSensor_Id m.RxHeader = ENC_ID) ∧
      s.Slave_RxQueue.used < CAN_QUEUE_CAPACITY
  · rw [hadd hc.1 hc.2.1 hc.2.2, List.mem_append, List.mem_singleton] at hf
    rcases hf with hf | hf
    · exact Or.inl hf
    · subst hf
      exact Or.inr ⟨rfl, hc.1, hc.2.1⟩
  · rw [hkeep hc] at hf
    exact Or.inl hf

/-- C26 as amended, on a start command for sensor 0 with DLC 2 delivered to a
node that holds one received frame: the frame is stored behind it as
delivered. -/
theorem rx_frame_as_delivered_witness :
    Received
      { Slave_zero with Slave_RxQueue := sampleQueue (sampleRx 0 0 0) [sampleRx 33 0 0] }
      HAL_OK (sampleRx 0 0x64 0)
      (CAN_Slave_FIFO0_RxMessage (samplePlatform HAL_OK)
        (sampleGetRxMessage HAL_OK (sampleRx 0 0x64 0))
        { Slave_zero with
          Slave_RxQueue := sampleQueue (sampleRx 0 0 0) [sampleRx 33 0 0] }) ∧
    (CAN_Slave_FIFO0_RxMessage (samplePlatform HAL_OK)
        (sampleGetRxMessage HAL_OK (sampleRx 0 0x64 0))
        { Slave_zero with
          Slave_RxQueue := sampleQueue (sampleRx 0 0 0) [sampleRx 33 0 0] }).map
      (fun s' => s'.Slave_RxQueue.frames) = some [sampleRx 33 0 0, sampleRx 0 0x64 0] :=
  ⟨(rx_frame_as_delivered (samplePlatform HAL_OK)
      (sampleGetRxMessage HAL_OK (sampleRx 0 0x64 0))
      { Slave_zero with Slave_RxQueue := sampleQueue (sampleRx 0 0 0) [sampleRx 33 0 0] }
      HAL_OK (sampleRx 0 0x64 0) (by decide) rfl).1, by decide⟩

/-- C26, counterexample. The hardware delivers, with status `HAL_OK`, a frame
with identifier 0 (sensor 0, sub-id `START_ID`) and DLC 5 to the node at program
start: `CAN_Slave_FIFO0_RxMessage` places it in the Rx queue although the
protocol table expects DLC `START_DLC = 2` for a start command. -/
theorem rx_dlc_not_checked :
    (CAN_Slave_FIFO0_RxMessage (samplePlatform HAL_OK)
        (sampleGetRxMessage HAL_OK
          { RxHeader := { CAN_RxHeader_zero with StdId := 0, DLC := 5 }
            rxdata := CAN_Data_zero })
        Slave_zero).map
      (fun s' => s'.Slave_RxQueue.frames.map
        (fun f => (getSensor_Id f.RxHeader, getSensor_Cmd f.RxHeader, f.RxHeader.DLC)))
      = some [(IMU_ID, START_ID, 5)] ∧
    START_DLC = 2 ∧ (5 : Nat) ≠ START_DLC := by
  decide

/-! ## Claims on retrying in order -/

/-- One call of the retry pump on a well-formed Tx queue. -/
theorem CAN_Slave_FIFO0_ReFb_Handle_retryCall (hw : Platform) (t : Slave)
    (hwf : t.Slave_TxQueue.WF) : RetryCall hw t := by
  refine ⟨fun hu => by simp [CAN_Slave_FIFO0_ReFb_Handle, CAN_Queue_isEmpty, hu], ?_⟩
  intro f rest hframes
  have hu : t.Slave_TxQueue.used ≠ 0 := by
    intro h0
    rw [CAN_Queue.frames_of_used_eq_zero h0] at hframes
    exact List.noConfusion hframes
  obtain ⟨q', x, hd, hwf', hfr, hg, _⟩ := CAN_DeQueue_WF hwf hu
  rw [hframes] at hfr
  obtain ⟨hx, hrest⟩ := List.cons.inj hfr
  subst hx
  have hd' : CAN_DeTxQueue t.Slave_TxQueue = some (q', 0) := hd
  have hg' : CAN_TxQueue_getFront t.Slave_TxQueue = some f := hg
  rw [CAN_Slave_FIFO0_ReFb_Handle_eq hw t f hu hg']
  by_cases hok : (hw.AddTxMessage (retry_attempt hw f)).1 = HAL_OK
  · rw [if_pos hok, hd']
    exact ⟨_, rfl, rfl, hg', hwf', fun _ => hrest.symm, fun h => absurd hok h⟩
  · rw [if_neg hok]
    exact ⟨_, rfl, rfl, hg', hwf, fun h => absurd h hok, fun _ => rfl⟩

/-- Any number of calls of the retry pump on a well-formed Tx queue: the calls
return; the attempts the hardware accepted are, in order, those of the first `j`
frames of the queue, and the queue then holds the others. -/
theorem CAN_Slave_FIFO0_ReFb_Handle_delivered_spec (hws : List Platform) :
    ∀ s : Slave, s.Slave_TxQueue.WF →
      ∃ s' delivered j,
        CAN_Slave_FIFO0_ReFb_Handle_delivered s hws = some (s', delivered) ∧
        CAN_Slave_FIFO0_ReFb_Handle_calls s hws = some s' ∧
        j ≤ s.Slave_TxQueue.frames.length ∧ j ≤ hws.length ∧
        delivered.map (fun a => (a.pHeader, a.aData)) =
          (s.Slave_TxQueue.frames.take j).map (fun f => (f.TxHeader, some f.txdata.bytes)) ∧
        s'.Slave_TxQueue.frames = s.Slave_TxQueue.frames.drop j ∧
        s'.Slave_TxQueue.WF ∧ s'.sent.length ≤ s.sent.length + hws.length := by
  induction hws with
  | nil =>
    intro s hwf
    exact ⟨s, [], 0, rfl, rfl, Nat.zero_le _, Nat.zero_le _, rfl, rfl, hwf, Nat.le_refl _⟩
  | cons hw hws ih =>
    intro s hwf
    obtain ⟨hempty, hstep⟩ := CAN_Slave_FIFO0_ReFb_Handle_retryCall hw s hwf
    rcases hframes : s.Slave_TxQueue.frames with _ | ⟨f, rest⟩
    · have hu : s.Slave_TxQueue.used = 0 := by
        rw [← hwf.length_frames, hframes]
        rfl
      have h1 := hempty hu
      obtain ⟨s', del, j, hdel, hcalls, hj, hj', hmap, hfr, hwf', hlen⟩ := ih s hwf
      rw [hframes] at hj hmap hfr
      refine ⟨s', del, j, ?_, ?_, hj, Nat.le_succ_of_le hj', hmap, hfr, hwf', ?_⟩
      · simp [CAN_Slave_FIFO0_ReFb_Handle_delivered, h1, hdel]
      · simp [CAN_Slave_FIFO0_ReFb_Handle_calls, h1, hcalls]
      · simp only [List.length_cons]
        omega
    · obtain ⟨t, ht, hsent, _, hwft, hok, hfail⟩ := hstep f rest hframes
      obtain ⟨s', del, j, hdel, hcalls, hj, hj', hmap, hfr, hwf', hlen⟩ := ih t hwft
      have hdrop : t.sent.drop s.sent.length = [retry_attempt hw f] := by
        rw [hsent]
        exact List.drop_left _ _
      have hlen' : t.sent.length = s.sent.length + 1 := by
        rw [hsent, List.length_append]
        rfl
      by_cases hs : (hw.AddTxMessage (retry_attempt hw f)).1 = HAL_OK
      · rw [hok hs] at hj hmap hfr
        refine ⟨s', retry_attempt hw f :: del, j + 1, ?_, ?_, ?_, ?_, ?_, ?_, hwf', ?_⟩
        · simp [CAN_Slave_FIFO0_ReFb_Handle_delivered, ht, hdel, hdrop, hs]
        · simp [CAN_Slave_FIFO0_ReFb_Handle_calls, ht, hcalls]
        · simp only [List.length_cons]
          omega
        · simp only [List.length_cons]
          omega
        · simp only [List.map_cons, List.take_succ_cons, hmap]
          rfl
        · simpa using hfr
        · simp only [List.length_cons]
          omega
      · rw [hfail hs, hframes] at hj hmap hfr
        refine ⟨s', del, j, ?_, ?_, hj, Nat.le_succ_of_le hj', hmap, hfr, hwf', ?_⟩
        · simp [CAN_Slave_FIFO0_ReFb_Handle_delivered, ht, hdel, hdrop, hs]
        · simp [CAN_Slave_FIFO0_ReFb_Handle_calls, ht, hcalls]
        · simp only [List.length_cons]
          omega

/-- C23. In-order retry: starting from a (well-formed) Tx queue holding
`f1..fk`, for every number of consecutive calls of `CAN_Slave_FIFO0_ReFb_Handle`
and every answer of the hardware in each of them, the calls return; each call
makes at most one transmit attempt, none and no change of state at all when the
Tx queue is empty, and otherwise exactly one, of the frame then at the front;
the attempts the hardware accepted are, in order, those of a prefix `f1..fj` of
the original contents (header and data of each), and the queue then holds
`f(j+1)..fk`. -/
theorem in_order_retry (hws : List Platform) (s : Slave)
    (hwf : s.Slave_TxQueue.WF) :
    (∃ s' delivered j,
      CAN_Slave_FIFO0_ReFb_Handle_delivered s hws = some (s', delivered) ∧
      CAN_Slave_FIFO0_ReFb_Handle_calls s hws = some s' ∧
      j ≤ s.Slave_TxQueue.frames.length ∧ j ≤ hws.length ∧
      delivered.map (fun a => (a.pHeader, a.aData)) =
        (s.Slave_TxQueue.frames.take j).map (fun f => (f.TxHeader, some f.txdata.bytes)) ∧
      s'.Slave_TxQueue.frames = s.Slave_TxQueue.frames.drop j ∧
      s'.Slave_TxQueue.WF ∧ s'.sent.length ≤ s.sent.length + hws.length) ∧
    (∀ (hw : Platform) (t : Slave), t.Slave_TxQueue.used = 0 →
      CAN_Slave_FIFO0_ReFb_Handle hw t = some t) ∧
    (∀ (hw : Platform) (t : Slave), t.Slave_TxQueue.WF → RetryCall hw t) :=
  ⟨CAN_Slave_FIFO0_ReFb_Handle_delivered_spec hws s hwf,
   fun hw t hu => by simp [CAN_Slave_FIFO0_ReFb_Handle, CAN_Queue_isEmpty, hu],
   fun hw t h => CAN_Slave_FIFO0_ReFb_Handle_retryCall hw t h⟩

/-- C23 on a Tx queue holding frames 1, 2, 3 and five calls answered failure,
success, failure, success, failure: four attempts are made (frame 1 twice,
frame 2 twice, frame 3 once), frames 1 and 2 are delivered in that order and
frame 3 remains. -/
theorem in_order_retry_witness :
    (CAN_Slave_FIFO0_ReFb_Handle_delivered
        { Slave_zero with
          Slave_TxQueue := sampleQueue (sampleTx 0) [sampleTx 1, sampleTx 2, sampleTx 3] }
        [samplePlatform HAL_ERROR, samplePlatform HAL_OK, samplePlatform HAL_BUSY,
         samplePlatform HAL_OK, samplePlatform HAL_ERROR]).map
      (fun r => (r.1.sent.map (fun a => a.pHeader.StdId), r.2.map (fun a => a.pHeader.StdId),
        r.1.Slave_TxQueue.frames))
      = some ([1, 1, 2, 2, 3], [1, 2], [sampleTx 3]) ∧
    ∃ s' delivered j,
      CAN_Slave_FIFO0_ReFb_Handle_delivered
        { Slave_zero with
          Slave_TxQueue := sampleQueue (sampleTx 0) [sampleTx 1, sampleTx 2, sampleTx 3] }
        [samplePlatform HAL_ERROR, samplePlatform HAL_OK, samplePlatform HAL_BUSY,
         samplePlatform HAL_OK, samplePlatform HAL_ERROR] = some (s', delivered) ∧
      j ≤ 3 ∧ s'.Slave_TxQueue.frames = [sampleTx 1, sampleTx 2, sampleTx 3].drop j := by
  refine ⟨by decide, ?_⟩
  obtain ⟨s', delivered, j, h, _, hj, _, _, hfr, _⟩ := (in_order_retry
    [samplePlatform HAL_ERROR, samplePlatform HAL_OK, samplePlatform HAL_BUSY,
     samplePlatform HAL_OK, samplePlatform HAL_ERROR]
    { Slave_zero with
      Slave_TxQueue := sampleQueue (sampleTx 0) [sampleTx 1, sampleTx 2, sampleTx 3] }
    (by decide)).1
  exact ⟨s', delivered, j, h, hj, hfr⟩

/-! ## Claims on lazy creation -/

/-- A feedback function keeps the frames already in the Tx queue. -/
theorem FeedbackOutcome.keeps {hw : Platform} {s : Slave} {a : TxAttempt}
    {item : CAN_TxMessage} {res : Option Slave} (h : FeedbackOutcome hw s a item res)
    (htx : s.Slave_TxQueue.Ready) :
    ∃ s' added, res = some s' ∧
      s'.Slave_TxQueue.frames = s.Slave_TxQueue.frames ++ added := by
  obtain ⟨s', hres, _, _, _, hroom, hfull, hok⟩ := h
  by_cases hs : (hw.AddTxMessage a).1 = HAL_OK
  · exact ⟨s', [], hres, by simp [(hok hs).1]⟩
  · by_cases hr : s.Slave_TxQueue.used < CAN_QUEUE_CAPACITY
    · exact ⟨s', [item], hres, hroom hs hr⟩
    · have hu : s.Slave_TxQueue.used = CAN_QUEUE_CAPACITY :=
        le_antisymm htx.used_le (not_lt.mp hr)
      exact ⟨s', [], hres, by simp [(hfull hs hu).1]⟩

/-- C28. Lazy creation is one-shot: `CAN_If_TxQueue_notCreate` (resp.
`CAN_If_RxQueue_notCreate`) applied to a queue whose `is_create` flag is 0
yields an empty queue of capacity `CAN_QUEUE_CAPACITY` (4) with `is_create = 1`;
applied to a queue whose flag is already set it returns the queue unchanged,
frames included, and a call after a call changes nothing. So the frames already
queued are kept by every later feedback call (on the Tx queue) and receive call
(on the Rx queue): the queue afterwards holds them, in order, followed by what
the call added. -/
theorem lazy_creation_one_shot (tx : CAN_TxQueue) (rx : CAN_RxQueue)
    (junkTx : Nat → CAN_TxMessage) (junkRx : Nat → CAN_RxMessage) :
    CAN_QUEUE_CAPACITY = 4 ∧
    ((tx.is_create = 0 →
        (CAN_If_TxQueue_notCreate tx junkTx).used = 0 ∧
        (CAN_If_TxQueue_notCreate tx junkTx).frames = [] ∧
        (CAN_If_TxQueue_notCreate tx junkTx).capacity = CAN_QUEUE_CAPACITY ∧
        (CAN_If_TxQueue_notCreate tx junkTx).is_create = 1) ∧
      (tx.is_create ≠ 0 → CAN_If_TxQueue_notCreate tx junkTx = tx)) ∧
    ((rx.is_create = 0 →
        (CAN_If_RxQueue_notCreate rx junkRx).used = 0 ∧
        (CAN_If_RxQueue_notCreate rx junkRx).frames = [] ∧
        (CAN_If_RxQueue_notCreate rx junkRx).capacity = CAN_QUEUE_CAPACITY ∧
        (CAN_If_RxQueue_notCreate rx junkRx).is_create = 1) ∧
      (rx.is_create ≠ 0 → CAN_If_RxQueue_notCreate rx junkRx = rx)) ∧
    OneShot tx junkTx ∧ OneShot rx junkRx ∧
    (∀ (hw : Platform) (s : Slave) (r : CAN_RxMessage),
      CAN_RxQueue_getFront s.Slave_RxQueue = some r → s.Slave_TxQueue.Ready →
      (∃ s' added, CAN_Sensor_Start_fb hw s = some s' ∧
        s'.Slave_TxQueue.frames = s.Slave_TxQueue.frames ++ added) ∧
      (∃ s' added, CAN_Sensor_Reset_fb hw s = some s' ∧
        s'.Slave_TxQueue.frames = s.Slave_TxQueue.frames ++ added) ∧
      (∃ s' added, CAN_Sensor_Stop_fb hw s = some s' ∧
        s'.Slave_TxQueue.frames = s.Slave_TxQueue.frames ++ added) ∧
      (∃ s' added, CAN_Sensor_Assign_fb hw s = some s' ∧
        s'.Slave_TxQueue.frames = s.Slave_TxQueue.frames ++ added)) ∧
    (∀ (hw : Platform) (GetRxMessage : CAN_RxMessage → Nat × CAN_RxMessage) (s : Slave),
      s.Slave_RxQueue.Ready →
      ∃ s' added, CAN_Slave_FIFO0_RxMessage hw GetRxMessage s = some s' ∧
        s'.Slave_RxQueue.frames = s.Slave_RxQueue.frames ++ added) := by
  have htx := CAN_If_Queue_notCreate_oneShot tx junkTx
  have hrx := CAN_If_Queue_notCreate_oneShot rx junkRx
  refine ⟨rfl, ⟨fun h => ?_, fun h => (htx.2.1 h).1⟩, ⟨fun h => ?_, fun h => (hrx.2.1 h).1⟩,
    htx, hrx, fun hw s r hfront hready => ?_, fun hw gr s hready => ?_⟩
  · obtain ⟨a, b, c, d, _⟩ := htx.1 h
    exact ⟨a, b, c, d⟩
  · obtain ⟨a, b, c, d, _⟩ := hrx.1 h
    exact ⟨a, b, c, d⟩
  · exact ⟨(CAN_Sensor_Start_fb_outcome hw s r hfront hready).keeps hready,
      (CAN_Sensor_Reset_fb_outcome hw s r hfront hready).keeps hready,
      (CAN_Sensor_Stop_fb_outcome hw s r hfront hready).keeps hready,
      (CAN_Sensor_Assign_fb_outcome hw s r hfront hready).keeps hready⟩
  · obtain ⟨s', hres, _, _, _, _, hadd, hkeep⟩ :=
      CAN_Slave_FIFO0_RxMessage_received hw gr s (gr s.Slave_RxMessage).1
        (gr s.Slave_RxMessage).2 hready rfl
    by_cases hc : (gr s.Slave_RxMessage).1 = HAL_OK ∧
        (getSensor_Id (gr s.Slave_RxMessage).2.RxHeader = IMU_ID ∨
          getSensor_Id (gr s.Slave_RxMessage).2.RxHeader = ENC_ID) ∧
        s.Slave_RxQueue.used < CAN_QUEUE_CAPACITY
    · exact ⟨s', [(gr s.Slave_RxMessage).2], hres, hadd hc.1 hc.2.1 hc.2.2⟩
    · exact ⟨s', [], hres, by simp [hkeep hc]⟩

/-- C28 on the Tx queue at program start and on a Tx queue holding two frames:
the first is created empty with four slots, the second is returned as it is. -/
theorem lazy_creation_one_shot_witness :
    (CAN_If_TxQueue_notCreate CAN_Queue_zero (fun _ => sampleTx 0)).frames = [] ∧
    (CAN_If_TxQueue_notCreate CAN_Queue_zero (fun _ => sampleTx 0)).capacity = 4 ∧
    (CAN_If_TxQueue_notCreate CAN_Queue_zero (fun _ => sampleTx 0)).is_create = 1 ∧
    (CAN_If_TxQueue_notCreate (sampleQueue (sampleTx 0) [sampleTx 1, sampleTx 2])
      (fun _ => sampleTx 0)).frames = [sampleTx 1, sampleTx 2] ∧
    OneShot (sampleQueue (sampleTx 0) [sampleTx 1, sampleTx 2]) (fun _ => sampleTx 0) :=
  ⟨by decide, by decide, by decide, by decide,
   (lazy_creation_one_shot (sampleQueue (sampleTx 0) [sampleTx 1, sampleTx 2])
      CAN_Queue_zero (fun _ => sampleTx 0) (fun _ => sampleRx 0 0 0)).2.2.2.1⟩

/-! ## Claims on the encoder count -/

/-- The value of `diff` for a true movement `d` with `|d| <= 32767`, the counter
reading `(last_CNT_value + d) mod 65536` and the direction flag set exactly when
`d < 0`: `d` when the counter did not wrap, `d - 1` when it wrapped past 65535
and `d + 1` when it wrapped below 0. -/
theorem Encoder_CNT_diff_eq (encoder : Encoder_HandleTypeDef) (d : Int) (cur : Nat)
    (hlast : encoder.last_CNT_value < 65536) (hd1 : -32767 ≤ d) (hd2 : d ≤ 32767)
    (hcur : (cur : Int) = ((encoder.last_CNT_value : Int) + d) % 65536)
    (hdir : HAL_TIM_IS_TIM_COUNTING_DOWN encoder.htim ≠ 0 ↔ d < 0) :
    Encoder_CNT_diff encoder cur =
      if 65536 ≤ (encoder.last_CNT_value : Int) + d then d - 1
      else if (encoder.last_CNT_value : Int) + d < 0 then d + 1
      else d := by
  unfold Encoder_CNT_diff toInt16 TIMER_MAX_CNT
  by_cases hdown : HAL_TIM_IS_TIM_COUNTING_DOWN encoder.htim ≠ 0
  · have hneg := hdir.mp hdown
    simp only [if_pos hdown]
    split_ifs <;> omega
  · have hpos : ¬ d < 0 := fun h => hdown (hdir.mpr h)
    simp only [if_neg hdown]
    split_ifs <;> omega

/-- C31, failing input. The timer read 65535 at the previous call, the encoder
moved one count up (`d = 1`, counting-down flag clear) and the 16-bit counter
now reads `(65535 + 1) mod 65536 = 0`: `Encoder_CNT_Counter` computes
`diff = 0 + (TIMER_MAX_CNT - 65535) = 0` and leaves `CNT_value` at 100 instead
of 101. Likewise one count down from 0 (`d = -1`, flag set, counter reads
65535): `diff = -0 - (TIMER_MAX_CNT - 65535) = 0`, `CNT_value` stays 100 instead
of 99. Without a wrap (from 10 to 13, counting up) the movement 3 is added. -/
theorem encoder_wrap_off_by_one :
    ((Encoder_CNT_Counter (sampleCounting 65535 0 0)).map
        (fun e => (e.CNT_value, e.last_CNT_value)) = some (100, 0) ∧
      HAL_TIM_IS_TIM_COUNTING_DOWN (sampleCounting 65535 0 0).htim = 0 ∧
      (65535 + 1) % 65536 = 0) ∧
    ((Encoder_CNT_Counter (sampleCounting 0 65535 TIM_CR1_DIR)).map
        (fun e => (e.CNT_value, e.last_CNT_value)) = some (100, 65535) ∧
      HAL_TIM_IS_TIM_COUNTING_DOWN (sampleCounting 0 65535 TIM_CR1_DIR).htim = 1 ∧
      ((0 : Int) + -1) % 65536 = 65535) ∧
    (Encoder_CNT_Counter (sampleCounting 10 13 0)).map
        (fun e => (e.CNT_value, e.last_CNT_value)) = some (103, 13) := by
  decide

/-! ## Claims on the IMU packet -/

theorem List.eq_eleven_of_length (l : List Nat) (h : l.length = 11) :
    ∃ b0 b1 b2 b3 b4 b5 b6 b7 b8 b9 b10,
      l = [b0, b1, b2, b3, b4, b5, b6, b7, b8, b9, b10] := by
  match l, h with
  | [b0, b1, b2, b3, b4, b5, b6, b7, b8, b9, b10], _ =>
    exact ⟨b0, b1, b2, b3, b4, b5, b6, b7, b8, b9, b10, rfl⟩

theorem List.eq_six_cons_of_length (l : List Nat) (h : 6 ≤ l.length) :
    ∃ a0 a1 a2 a3 a4 a5 rest, l = a0 :: a1 :: a2 :: a3 :: a4 :: a5 :: rest := by
  match l, h with
  | a0 :: a1 :: a2 :: a3 :: a4 :: a5 :: rest, _ =>
    exact ⟨a0, a1, a2, a3, a4, a5, rest, rfl⟩

/-- The result of `IMU_Data_Process` on a complete packet: the buffer holds
`b0..b10` and the caller's array starts with six bytes. -/
theorem IMU_Data_Process_eq (imu : IMU_Statics) (angle : Angle_ReadTypeDef)
    (b0 b1 b2 b3 b4 b5 b6 b7 b8 b9 b10 a0 a1 a2 a3 a4 a5 : Nat) (rest : List Nat)
    (hbuff : imu.buff = [b0, b1, b2, b3, b4, b5, b6, b7, b8, b9, b10])
    (huart : imu.uart_flag ≠ 0) :
    IMU_Data_Process imu angle (a0 :: a1 :: a2 :: a3 :: a4 :: a5 :: rest) =
      some ({ imu with
              checksum := toUInt8 (0x55 + 0x53 + b2 + b3 + b4 + b5 + b6 + b7 + b8 + b9)
              uart_flag := 0, recieve_flag := 0, data_len := 0 },
        if b1 = 0x53 ∧ (0x55 + 0x53 + b2 + b3 + b4 + b5 + b6 + b7 + b8 + b9) % 256 = b10 then
          ({ x := ((((b3 <<< 8) ||| b2 : Nat) : ℚ) / 32768) * 180
             y := ((((b5 <<< 8) ||| b4 : Nat) : ℚ) / 32768) * 180
             z := ((((b7 <<< 8) ||| b6 : Nat) : ℚ) / 32768) * 180 },
           b2 :: b3 :: b4 :: b5 :: b6 :: b7 :: rest)
        else (angle, a0 :: a1 :: a2 :: a3 :: a4 :: a5 :: rest)) := by
  by_cases h1 : b1 = 0x53
  · by_cases h2 : (0x55 + 0x53 + b2 + b3 + b4 + b5 + b6 + b7 + b8 + b9) % 256 = b10
    · simp [IMU_Data_Process, hbuff, huart, h1, h2, writeAt, toUInt8]
    · simp [IMU_Data_Process, hbuff, huart, h1, h2, writeAt, toUInt8]
  · simp [IMU_Data_Process, hbuff, huart, h1, writeAt, toUInt8]

/-- C32. IMU packet acceptance: with `uart_flag` set, the 11-byte buffer holding
`b0..b10` and the caller's array holding at least six bytes,
`IMU_Data_Process` copies `buff[2..7]` into `aData[0..5]` when
`buff[1] == 0x53` and `(0x55 + 0x53 + buff[2] + ... + buff[9]) mod 256 ==
buff[10]`, and otherwise leaves `aData` (and the angle) as they are; in both
cases `uart_flag`, `recieve_flag` and `data_len` are 0 afterwards and the buffer
is as before. With `uart_flag` not set the call changes nothing. -/
theorem imu_packet_acceptance (imu : IMU_Statics) (angle : Angle_ReadTypeDef)
    (b0 b1 b2 b3 b4 b5 b6 b7 b8 b9 b10 a0 a1 a2 a3 a4 a5 : Nat) (rest : List Nat)
    (hbuff : imu.buff = [b0, b1, b2, b3, b4, b5, b6, b7, b8, b9, b10]) :
    (imu.uart_flag = 0 →
      IMU_Data_Process imu angle (a0 :: a1 :: a2 :: a3 :: a4 :: a5 :: rest) =
        some (imu, angle, a0 :: a1 :: a2 :: a3 :: a4 :: a5 :: rest)) ∧
    (imu.uart_flag ≠ 0 →
      ∃ imu' angle' aData',
        IMU_Data_Process imu angle (a0 :: a1 :: a2 :: a3 :: a4 :: a5 :: rest) =
          some (imu', angle', aData') ∧
        imu'.uart_flag = 0 ∧ imu'.recieve_flag = 0 ∧ imu'.data_len = 0 ∧
        imu'.buff = imu.buff ∧ imu'.flag = imu.flag ∧
        imu'.Reset_Zero_time = imu.Reset_Zero_time ∧
        ((b1 = 0x53 ∧ (0x55 + 0x53 + b2 + b3 + b4 + b5 + b6 + b7 + b8 + b9) % 256 = b10) →
          aData' = b2 :: b3 :: b4 :: b5 :: b6 :: b7 :: rest) ∧
        (¬ (b1 = 0x53 ∧ (0x55 + 0x53 + b2 + b3 + b4 + b5 + b6 + b7 + b8 + b9) % 256 = b10) →
          aData' = a0 :: a1 :: a2 :: a3 :: a4 :: a5 :: rest ∧ angle' = angle)) := by
  refine ⟨fun h0 => by simp [IMU_Data_Process, h0], fun h1 => ?_⟩
  rw [IMU_Data_Process_eq imu angle b0 b1 b2 b3 b4 b5 b6 b7 b8 b9 b10 a0 a1 a2 a3 a4 a5 rest
    hbuff h1]
  by_cases hc : b1 = 0x53 ∧ (0x55 + 0x53 + b2 + b3 + b4 + b5 + b6 + b7 + b8 + b9) % 256 = b10
  · rw [if_pos hc]
    exact ⟨_, _, _, rfl, rfl, rfl, rfl, rfl, rfl, rfl, fun _ => rfl, fun h => absurd hc h⟩
  · rw [if_neg hc]
    exact ⟨_, _, _, rfl, rfl, rfl, rfl, rfl, rfl, rfl, fun h => absurd h hc,
      fun _ => ⟨rfl, rfl⟩⟩

/-- C32 on the packet `55 53 10 20 30 40 50 60 00 00 F8` (checksum
`0x55 + 0x53 + 0x10 + ... + 0x60 = 0x1F8`, low byte `0xF8`): the six data bytes
are copied; with the last byte `0xF9` instead, nothing is copied. -/
theorem imu_packet_acceptance_witness :
    (IMU_Data_Process
        { sampleIMU with
          buff := [0x55, 0x53, 0x10, 0x20, 0x30, 0x40, 0x50, 0x60, 0, 0, 0xF8]
          recieve_flag := 1, data_len := 11, uart_flag := 1 }
        { x := 0, y := 0, z := 0 } [1, 2, 3, 4, 5, 6]).map (fun r => r.2.2)
      = some [0x10, 0x20, 0x30, 0x40, 0x50, 0x60] ∧
    (IMU_Data_Process
        { sampleIMU with
          buff := [0x55, 0x53, 0x10, 0x20, 0x30, 0x40, 0x50, 0x60, 0, 0, 0xF9]
          recieve_flag := 1, data_len := 11, uart_flag := 1 }
        { x := 0, y := 0, z := 0 } [1, 2, 3, 4, 5, 6]).map
          (fun r => (r.2.2, r.1.uart_flag, r.1.recieve_flag, r.1.data_len))
      = some ([1, 2, 3, 4, 5, 6], 0, 0, 0) := by
  obtain ⟨imu', angle', aData', h, _, _, _, _, _, _, hyes, _⟩ :=
    (imu_packet_acceptance
      { sampleIMU with
        buff := [0x55, 0x53, 0x10, 0x20, 0x30, 0x40, 0x50, 0x60, 0, 0, 0xF8]
        recieve_flag := 1, data_len := 11, uart_flag := 1 }
      { x := 0, y := 0, z := 0 } 0x55 0x53 0x10 0x20 0x30 0x40 0x50 0x60 0 0 0xF8
      1 2 3 4 5 6 [] rfl).2 (by decide)
  obtain ⟨imu2, angle2, aData2, h2, hu, hr, hl, _, _, _, _, hno⟩ :=
    (imu_packet_acceptance
      { sampleIMU with
        buff := [0x55, 0x53, 0x10, 0x20, 0x30, 0x40, 0x50, 0x60, 0, 0, 0xF9]
        recieve_flag := 1, data_len := 11, uart_flag := 1 }
      { x := 0, y := 0, z := 0 } 0x55 0x53 0x10 0x20 0x30 0x40 0x50 0x60 0 0 0xF9
      1 2 3 4 5 6 [] rfl).2 (by decide)
  constructor
  · rw [h]
    exact congrArg some (hyes (by decide))
  · rw [h2]
    show some (aData2, imu2.uart_flag, imu2.recieve_flag, imu2.data_len) = _
    rw [(hno (by decide)).1, hu, hr, hl]

/-! ## Claims on the IMU receive buffer -/

/-- One call of `IMU_Data_In` while fewer than 11 bytes are buffered: the write,
if any, is inside the buffer, and at most 11 bytes are buffered afterwards. -/
theorem IMU_Data_In_in_bounds (imu : IMU_Statics) (data : Nat)
    (hlen : imu.buff.length = 11) (hd : imu.data_len ≤ 10) :
    ∃ imu', IMU_Data_In imu data = some imu' ∧ imu'.buff.length = 11 ∧
      imu'.data_len ≤ 11 ∧ (imu'.data_len = 11 → imu'.uart_flag ≠ 0) := by
  have hw : imu.data_len < imu.buff.length := by omega
  have h8 : toUInt8 (imu.data_len + 1) = imu.data_len + 1 := toUInt8_of_lt _ (by omega)
  by_cases h1 : data = 0x55 ∧ imu.data_len = 0
  · obtain ⟨hdata, hzero⟩ := h1
    refine ⟨{ imu with buff := imu.buff.set 0 data, recieve_flag := 1, data_len := 1 },
      ?_, ?_, ?_, ?_⟩
    · simp [IMU_Data_In, hdata, hzero, writeAt, hlen, toUInt8]
    · simp [hlen]
    · show 1 ≤ 11
      omega
    · intro h
      have h' : (1 : Nat) = 11 := h
      omega
  · by_cases h3 : imu.recieve_flag = 0
    · have h4 : ¬ imu.data_len > 10 := by omega
      refine ⟨imu, ?_, hlen, by omega, fun h => by omega⟩
      simp [IMU_Data_In, h1, h3, h4]
    · by_cases h2 : imu.data_len + 1 > 10
      · refine ⟨{ imu with buff := imu.buff.set imu.data_len data,
                           data_len := imu.data_len + 1, uart_flag := 1 }, ?_, ?_, ?_, ?_⟩
        · simp [IMU_Data_In, h1, h3, writeAt, hw, h8, h2]
        · simp [hlen]
        · show imu.data_len + 1 ≤ 11
          omega
        · intro _
          exact one_ne_zero
      · refine ⟨{ imu with buff := imu.buff.set imu.data_len data,
                           data_len := imu.data_len + 1 }, ?_, ?_, ?_, ?_⟩
        · simp [IMU_Data_In, h1, h3, writeAt, hw, h8, h2]
        · simp [hlen]
        · show imu.data_len + 1 ≤ 11
          omega
        · intro h
          have : imu.data_len + 1 = 11 := h
          omega

/-- A call of `IMU_Data_Process` with at most 11 bytes buffered, `uart_flag`
being set when there are 11: it returns, and at most 10 bytes are buffered
afterwards. -/
theorem IMU_Data_Process_in_bounds (imu : IMU_Statics) (angle : Angle_ReadTypeDef)
    (aData : List Nat) (hlen : imu.buff.length = 11) (hd : imu.data_len ≤ 11)
    (hfull : imu.data_len = 11 → imu.uart_flag ≠ 0) (ha : 6 ≤ aData.length) :
    ∃ st, IMU_Data_Process imu angle aData = some st ∧ st.1.buff.length = 11 ∧
      st.1.data_len ≤ 10 ∧ 6 ≤ st.2.2.length := by
  by_cases hu : imu.uart_flag = 0
  · refine ⟨(imu, angle, aData), by simp [IMU_Data_Process, hu], hlen, ?_, ha⟩
    rcases Nat.lt_or_ge imu.data_len 11 with h | h
    · exact Nat.le_of_lt_succ h
    · exact absurd hu (hfull (le_antisymm hd h))
  · obtain ⟨b0, b1, b2, b3, b4, b5, b6, b7, b8, b9, b10, hb⟩ :=
      List.eq_eleven_of_length imu.buff hlen
    obtain ⟨a0, a1, a2, a3, a4, a5, tl, rfl⟩ := List.eq_six_cons_of_length aData ha
    rw [IMU_Data_Process_eq imu angle b0 b1 b2 b3 b4 b5 b6 b7 b8 b9 b10 a0 a1 a2 a3 a4 a5 tl
      hb hu]
    refine ⟨_, rfl, hlen, Nat.zero_le _, ?_⟩
    by_cases hc : b1 = 0x53 ∧
        (0x55 + 0x53 + b2 + b3 + b4 + b5 + b6 + b7 + b8 + b9) % 256 = b10
    · rw [if_pos hc]
      simp
    · rw [if_neg hc]
      simp

/-- When `IMU_Data_Process` is called after every byte, every call returns: each
write `buff[data_len]` is made with `data_len <= 10`. -/
theorem IMU_Data_In_Process_calls_in_bounds (bytes : List Nat) :
    ∀ st : IMU_Statics × Angle_ReadTypeDef × List Nat,
      st.1.buff.length = 11 → st.1.data_len ≤ 10 → 6 ≤ st.2.2.length →
      ∃ st', IMU_Data_In_Process_calls st bytes = some st' ∧ st'.1.buff.length = 11 ∧
        st'.1.data_len ≤ 10 := by
  induction bytes with
  | nil => intro st hlen hd _; exact ⟨st, rfl, hlen, hd⟩
  | cons data rest ih =>
    intro st hlen hd ha
    obtain ⟨imu1, h1, hlen1, hd1, hfull⟩ := IMU_Data_In_in_bounds st.1 data hlen hd
    obtain ⟨st1, hp, hlen2, hd2, ha2⟩ :=
      IMU_Data_Process_in_bounds imu1 st.2.1 st.2.2 hlen1 hd1 hfull ha
    obtain ⟨st', hst', hl', hd'⟩ := ih st1 hlen2 hd2 ha2
    exact ⟨st', by simp [IMU_Data_In_Process_calls, h1, hp, hst'], hl', hd'⟩

/-- C35, failing input. From the statics at program start (11-byte buffer,
`data_len = 0`), the byte `0x55` followed by ten bytes fills the buffer:
`data_len` is 11, `uart_flag` is set and `recieve_flag` is still 1. Without a
call of `IMU_Data_Process` in between, the next byte is written to
`buff[data_len] = buff[11]`, outside the 11-byte buffer: the twelfth call of
`IMU_Data_In` has no defined result. -/
theorem imu_buffer_overrun :
    (IMU_Data_In_calls sampleIMU [0x55, 1, 2, 3, 4, 5, 6, 7, 8, 9, 10]).map
        (fun imu => (imu.buff, imu.data_len, imu.recieve_flag, imu.uart_flag))
      = some ([0x55, 1, 2, 3, 4, 5, 6, 7, 8, 9, 10], 11, 1, 1) ∧
    writeAt [0x55, 1, 2, 3, 4, 5, 6, 7, 8, 9, 10] 11 0x55 = none ∧
    IMU_Data_In_calls sampleIMU [0x55, 1, 2, 3, 4, 5, 6, 7, 8, 9, 10, 0x55] = none ∧
    (IMU_Data_In_Process_calls (sampleIMU, { x := 0, y := 0, z := 0 }, [0, 0, 0, 0, 0, 0])
        [0x55, 1, 2, 3, 4, 5, 6, 7, 8, 9, 10, 0x55]).map
        (fun st => (st.1.data_len, st.1.recieve_flag, st.1.uart_flag)) = some (1, 1, 0) := by
  refine ⟨rfl, rfl, rfl, rfl⟩

/-! ## Claims on the IMU zero-reset sequence -/

/-- One call of `IMU_Reset_Zero` with `flag <= 3`: either nothing is
transmitted and the statics are as before, or `flag < 3`, more than 100 ticks
have passed since `time`, the command number `flag` of the sequence is
transmitted, `flag` is one greater and `time` is the tick after the transmit. -/
theorem IMU_Reset_Zero_step (tick0 tick1 : Nat) (imu : IMU_Statics) (hf : imu.flag ≤ 3) :
    (IMU_Reset_Zero tick0 tick1 imu = (imu, [])) ∨
    (imu.flag < 3 ∧ sub32 tick0 imu.Reset_Zero_time > 100 ∧
      (IMU_Reset_Zero tick0 tick1 imu).2 =
        ([unlock_cmd, reset_zero_cmd, save_cmd].drop imu.flag).take 1 ∧
      (IMU_Reset_Zero tick0 tick1 imu).1.flag = imu.flag + 1 ∧
      (IMU_Reset_Zero tick0 tick1 imu).1.Reset_Zero_time = tick1) := by
  by_cases hc : sub32 tick0 imu.Reset_Zero_time > 100 ∧ imu.flag ≠ 3
  · right
    have hlt : imu.flag < 3 := lt_of_le_of_ne hf hc.2
    have h012 : imu.flag = 0 ∨ imu.flag = 1 ∨ imu.flag = 2 := by omega
    rcases h012 with h | h | h <;>
      simp [IMU_Reset_Zero, hc.1, h, toUInt8]
  · left
    simp only [IMU_Reset_Zero, if_neg hc]

/-- Any number of calls of `IMU_Reset_Zero` from `flag = k <= 3`: the commands
transmitted are the next ones of the sequence unlock, reset-zero, save, `flag`
counts them, and each was sent more than 100 ticks after the stored time. -/
theorem IMU_Reset_Zero_calls_spec (ticks : List (Nat × Nat)) :
    ∀ imu : IMU_Statics, imu.flag ≤ 3 →
      (IMU_Reset_Zero_calls imu ticks).2.map (fun e => e.2.2) =
        ([unlock_cmd, reset_zero_cmd, save_cmd].drop imu.flag).take
          (IMU_Reset_Zero_calls imu ticks).2.length ∧
      (IMU_Reset_Zero_calls imu ticks).1.flag =
        imu.flag + (IMU_Reset_Zero_calls imu ticks).2.length ∧
      (IMU_Reset_Zero_calls imu ticks).1.flag ≤ 3 ∧
      Spaced imu.Reset_Zero_time (IMU_Reset_Zero_calls imu ticks).2 := by
  induction ticks with
  | nil =>
    intro imu hf
    exact ⟨by simp [IMU_Reset_Zero_calls], by simp [IMU_Reset_Zero_calls], hf, trivial⟩
  | cons t ts ih =>
    intro imu hf
    rcases IMU_Reset_Zero_step t.1 t.2 imu hf with h | ⟨hlt, hsp, hcmd, hflag, htime⟩
    · have e : IMU_Reset_Zero_calls imu (t :: ts) = IMU_Reset_Zero_calls imu ts := by
        simp [IMU_Reset_Zero_calls, h]
      rw [e]
      exact ih imu hf
    · obtain ⟨h1, h2, h3, h4⟩ := ih (IMU_Reset_Zero t.1 t.2 imu).1 (by rw [hflag]; omega)
      have h012 : imu.flag = 0 ∨ imu.flag = 1 ∨ imu.flag = 2 := by omega
      have e : (IMU_Reset_Zero_calls imu (t :: ts)).2 =
          (IMU_Reset_Zero t.1 t.2 imu).2.map (fun c => (t.1, t.2, c)) ++
            (IMU_Reset_Zero_calls (IMU_Reset_Zero t.1 t.2 imu).1 ts).2 := rfl
      have e1 : (IMU_Reset_Zero_calls imu (t :: ts)).1 =
          (IMU_Reset_Zero_calls (IMU_Reset_Zero t.1 t.2 imu).1 ts).1 := rfl
      rw [hflag] at h1 h2
      rw [htime] at h4
      rw [e, e1, hcmd]
      refine ⟨?_, ?_, h3, ?_⟩
      · rcases h012 with h | h | h <;> rw [h] at h1 ⊢ <;> simp [h1]
      · rcases h012 with h | h | h <;> rw [h] at h2 ⊢ <;> simp [h2] <;> omega
      · rcases h012 with h | h | h <;> rw [h] <;> simpa [Spaced] using ⟨hsp, h4⟩

/-- Once `flag` is 3, calls of `IMU_Reset_Zero` transmit nothing and change
nothing. -/
theorem IMU_Reset_Zero_calls_done (ticks : List (Nat × Nat)) (imu : IMU_Statics)
    (h3 : imu.flag = 3) : IMU_Reset_Zero_calls imu ticks = (imu, []) := by
  induction ticks with
  | nil => rfl
  | cons t ts ih =>
    have h : IMU_Reset_Zero t.1 t.2 imu = (imu, []) := by simp [IMU_Reset_Zero, h3]
    simp [IMU_Reset_Zero_calls, h, ih]

/-- C33. IMU zero-reset sequence: starting from `IMU_Reset_Flag` (`flag = 0`),
for every sequence of `IMU_Reset_Zero` calls at arbitrary tick values, the
commands transmitted are the first ones of unlock, reset-zero, save, in this
order and at most once each (`flag` counts them); each command is sent only when
more than 100 ticks, in `uint32_t` arithmetic, have passed since the time stored
after the previous one; and once the save command has been sent, further calls
transmit nothing and change nothing. -/
theorem imu_zero_reset_sequence (imu : IMU_Statics) (ticks : List (Nat × Nat)) :
    (IMU_Reset_Flag imu).flag = 0 ∧
    (IMU_Reset_Zero_calls (IMU_Reset_Flag imu) ticks).2.map (fun e => e.2.2) =
      [unlock_cmd, reset_zero_cmd, save_cmd].take
        (IMU_Reset_Zero_calls (IMU_Reset_Flag imu) ticks).2.length ∧
    (IMU_Reset_Zero_calls (IMU_Reset_Flag imu) ticks).2.length ≤ 3 ∧
    (IMU_Reset_Zero_calls (IMU_Reset_Flag imu) ticks).1.flag =
      (IMU_Reset_Zero_calls (IMU_Reset_Flag imu) ticks).2.length ∧
    Spaced imu.Reset_Zero_time (IMU_Reset_Zero_calls (IMU_Reset_Flag imu) ticks).2 ∧
    ((IMU_Reset_Zero_calls (IMU_Reset_Flag imu) ticks).2.length = 3 →
      ∀ more, IMU_Reset_Zero_calls (IMU_Reset_Zero_calls (IMU_Reset_Flag imu) ticks).1 more =
        ((IMU_Reset_Zero_calls (IMU_Reset_Flag imu) ticks).1, [])) := by
  obtain ⟨h1, h2, h3, h4⟩ :=
    IMU_Reset_Zero_calls_spec ticks (IMU_Reset_Flag imu) (Nat.zero_le 3)
  have hz : (IMU_Reset_Flag imu).flag = 0 := rfl
  rw [hz] at h1 h2
  simp only [List.drop_zero, Nat.zero_add] at h1 h2
  refine ⟨rfl, h1, ?_, h2, h4, fun hlen more => ?_⟩
  · rw [← h2]
    exact h3
  · exact IMU_Reset_Zero_calls_done more _ (by rw [h2, hlen])

/-- C33 on calls at the ticks 50, 150, 200, 261, 300, 400 and 1000 (the ticks
read after a transmit being 160, 262 and 401), from `time = 0` and a finished
earlier sequence (`flag = 3`) reset by `IMU_Reset_Flag`: unlock is sent at 150,
reset-zero at 261 (101 ticks after 160), save at 400, nothing at 50, 200, 300
and 1000. -/
theorem imu_zero_reset_sequence_witness :
    (IMU_Reset_Zero_calls (IMU_Reset_Flag { sampleIMU with flag := 3 })
        [(50, 50), (150, 160), (200, 200), (261, 262), (300, 300), (400, 401),
         (1000, 1000)]).2
      = [(150, 160, unlock_cmd), (261, 262, reset_zero_cmd), (400, 401, save_cmd)] ∧
    Spaced 0 (IMU_Reset_Zero_calls (IMU_Reset_Flag { sampleIMU with flag := 3 })
        [(50, 50), (150, 160), (200, 200), (261, 262), (300, 300), (400, 401),
         (1000, 1000)]).2 :=
  ⟨by decide,
   (imu_zero_reset_sequence { sampleIMU with flag := 3 }
      [(50, 50), (150, 160), (200, 200), (261, 262), (300, 300), (400, 401),
       (1000, 1000)]).2.2.2.2.1⟩

/-! ## Claims on the frames of the Rx queue -/

section Reach

variable {U : Type}

/-- One tick of the dispatcher with the Rx queue in a regular state: it returns,
both queues are in a regular state afterwards, and the Rx queue holds the frames
it held without the first one (none when it held none). -/
theorem CAN_Slave_FIFO0_Recieve_Cmd_Handle_ready (user : Handlers U) (hw : Platform)
    (n : Node U) (hrx : n.slave.Slave_RxQueue.Ready) (htx : n.slave.Slave_TxQueue.Ready)
    (hkeep : ∀ rx : CAN_RxQueue, rx.WF → rx.used ≠ 0 → user.Keep rx) :
    ∃ n', CAN_Slave_FIFO0_Recieve_Cmd_Handle user hw n = some n' ∧
      n'.slave.Slave_RxQueue.Ready ∧ n'.slave.Slave_TxQueue.Ready ∧
      n'.slave.Slave_RxQueue.frames = n.slave.Slave_RxQueue.frames.tail := by
  by_cases hu : n.slave.Slave_RxQueue.used = 0
  · refine ⟨n, by simp [CAN_Slave_FIFO0_Recieve_Cmd_Handle, hu], hrx, htx, ?_⟩
    rw [CAN_Queue.frames_of_used_eq_zero hu]
    rfl
  · have hcreated : n.slave.Slave_RxQueue.is_create ≠ 0 ∧ n.slave.Slave_RxQueue.WF ∧
        n.slave.Slave_RxQueue.capacity = CAN_QUEUE_CAPACITY := by
      rcases hrx with ⟨_, h0⟩ | h
      · exact absurd h0 hu
      · exact h
    obtain ⟨hic, hwf, hcap⟩ := hcreated
    obtain ⟨q', x, hd, hwf', hfr, hg, hused, hcap', _, _, hic'⟩ := CAN_DeQueue_WF hwf hu
    obtain ⟨k1, k2, k3, k4⟩ := hkeep n.slave.Slave_RxQueue hwf hu
    obtain ⟨n1, e1, rx1, tx1, _⟩ := CAN_RxStart_RQ_spec user hw n x hg htx k1
    obtain ⟨n2, e2, rx2, tx2, _⟩ :=
      CAN_RxReset_RQ_spec user n1 x (by rw [rx1]; exact hg) tx1 (by rw [rx1]; exact k2)
    rw [rx1] at rx2
    obtain ⟨n3, e3, rx3, tx3, _⟩ :=
      CAN_RxStop_RQ_spec user n2 x (by rw [rx2]; exact hg) tx2 (by rw [rx2]; exact k3)
    rw [rx2] at rx3
    obtain ⟨n4, e4, rx4, tx4, _⟩ :=
      CAN_RxEncoder_AssignRQ_spec user n3 x (by rw [rx3]; exact hg) tx3
        (by rw [rx3]; exact k4)
    rw [rx3] at rx4
    have hd' : CAN_DeRxQueue n4.slave.Slave_RxQueue = some (q', 0) := by
      rw [rx4]
      exact hd
    refine ⟨{ n4 with slave := { n4.slave with Slave_RxQueue := q' } }, ?_,
      Or.inr ⟨?_, hwf', hcap'.trans hcap⟩, tx4, ?_⟩
    · simp [CAN_Slave_FIFO0_Recieve_Cmd_Handle, hu, e1, e2, e3, e4, hd']
    · show q'.is_create ≠ 0
      rw [hic']
      exact hic
    · show q'.frames = _
      rw [hfr]
      rfl

/-- A call of `CAN_Slave_FIFO0_RxMessage` that leaves the Rx queue as it is: the
hardware receive failed, or the sensor id of the delivered frame is neither
`IMU_ID` nor `ENC_ID`, or the Rx queue already holds `CAN_QUEUE_CAPACITY`
frames. -/
theorem CAN_Slave_FIFO0_RxMessage_unchanged (hw : Platform)
    (GetRxMessage : CAN_RxMessage → Nat × CAN_RxMessage) (s : Slave)
    (hrxq : s.Slave_RxQueue.Ready)
    (h : (GetRxMessage s.Slave_RxMessage).1 ≠ HAL_OK ∨
      ¬ Recognised (GetRxMessage s.Slave_RxMessage).2 ∨
      s.Slave_RxQueue.used = CAN_QUEUE_CAPACITY) :
    ∃ s', CAN_Slave_FIFO0_RxMessage hw GetRxMessage s = some s' ∧
      s'.Slave_RxQueue = s.Slave_RxQueue := by
  by_cases hst : (GetRxMessage s.Slave_RxMessage).1 = HAL_OK
  · by_cases hid : getSensor_Id (GetRxMessage s.Slave_RxMessage).2.RxHeader = IMU_ID ∨
        getSensor_Id (GetRxMessage s.Slave_RxMessage).2.RxHeader = ENC_ID
    · have hfull : s.Slave_RxQueue.used = CAN_QUEUE_CAPACITY := by
        rcases h with h | h | h
        · exact absurd hst h
        · exact absurd hid h
        · exact h
      have hcreated : s.Slave_RxQueue.is_create ≠ 0 ∧
          s.Slave_RxQueue.capacity = CAN_QUEUE_CAPACITY := by
        rcases hrxq with ⟨_, h0⟩ | ⟨hic, _, hcap⟩
        · rw [h0] at hfull
          exact absurd hfull (by decide)
        · exact ⟨hic, hcap⟩
      have hq : CAN_If_RxQueue_notCreate s.Slave_RxQueue hw.heapRx = s.Slave_RxQueue := by
        simp [CAN_If_Queue_notCreate, hcreated.1]
      have he : CAN_EnRxQueue s.Slave_RxQueue (GetRxMessage s.Slave_RxMessage).2 =
          some (s.Slave_RxQueue, -1) :=
        CAN_EnQueue_full (by rw [hfull, hcreated.2]) _
      refine ⟨{ s with Slave_RxMessage := (GetRxMessage s.Slave_RxMessage).2 }, ?_, rfl⟩
      simp only [CAN_Slave_FIFO0_RxMessage, hst, ne_eq, not_true_eq_false, if_false,
        if_pos hid, hq, he, Option.bind_eq_bind, Option.some_bind, Option.pure_def]
    · exact ⟨{ s with Slave_RxMessage := (GetRxMessage s.Slave_RxMessage).2 },
        by simp only [CAN_Slave_FIFO0_RxMessage, hst, ne_eq, not_true_eq_false, if_false,
          if_neg hid], rfl⟩
  · exact ⟨{ s with Slave_RxMessage := (GetRxMessage s.Slave_RxMessage).2 },
      by simp only [CAN_Slave_FIFO0_RxMessage, ne_eq, hst, not_false_eq_true, if_true], rfl⟩

/-- One call on a node whose queues are in a regular state and whose Rx queue
holds only recognised frames: it returns and the same holds afterwards. -/
theorem NodeCall.run_recognised (user : Handlers U) (n : Node U) (c : NodeCall)
    (hkeep : ∀ rx : CAN_RxQueue, rx.WF → rx.used ≠ 0 → user.Keep rx)
    (hrx : n.slave.Slave_RxQueue.Ready) (htx : n.slave.Slave_TxQueue.Ready)
    (hinv : ∀ f ∈ n.slave.Slave_RxQueue.frames, Recognised f) :
    ∃ n', c.run user n = some n' ∧ n'.slave.Slave_RxQueue.Ready ∧
      n'.slave.Slave_TxQueue.Ready ∧ ∀ f ∈ n'.slave.Slave_RxQueue.frames, Recognised f := by
  cases c with
  | receive hw g =>
    obtain ⟨s', hres, htx', _, _, hrx', hadd, hsame⟩ :=
      CAN_Slave_FIFO0_RxMessage_received hw g n.slave (g n.slave.Slave_RxMessage).1
        (g n.slave.Slave_RxMessage).2 hrx rfl
    refine ⟨{ n with slave := s' }, by simp [NodeCall.run, hres], hrx', ?_, ?_⟩
    · show s'.Slave_TxQueue.Ready
      rw [htx']
      exact htx
    · intro f hf
      have hf' : f ∈ s'.Slave_RxQueue.frames := hf
      by_cases hc : (g n.slave.Slave_RxMessage).1 = HAL_OK ∧
          (getSensor_Id (g n.slave.Slave_RxMessage).2.RxHeader = IMU_ID ∨
            getSensor_Id (g n.slave.Slave_RxMessage).2.RxHeader = ENC_ID) ∧
          n.slave.Slave_RxQueue.used < CAN_QUEUE_CAPACITY
      · rw [hadd hc.1 hc.2.1 hc.2.2, List.mem_append, List.mem_singleton] at hf'
        rcases hf' with h | h
        · exact hinv f h
        · rw [h]
          exact hc.2.1
      · rw [hsame hc] at hf'
        exact hinv f hf'
  | tick hw =>
    obtain ⟨n', hres, hrx', htx', hfr⟩ :=
      CAN_Slave_FIFO0_Recieve_Cmd_Handle_ready user hw n hrx htx hkeep
    refine ⟨n', hres, hrx', htx', fun f hf => ?_⟩
    rw [hfr] at hf
    exact hinv f (List.mem_of_mem_tail hf)

/-- Every sequence of calls keeps the queues in a regular state and the Rx queue
free of unrecognised frames. -/
theorem runNode_recognised (user : Handlers U)
    (hkeep : ∀ rx : CAN_RxQueue, rx.WF → rx.used ≠ 0 → user.Keep rx)
    (calls : List NodeCall) :
    ∀ n : Node U, n.slave.Slave_RxQueue.Ready → n.slave.Slave_TxQueue.Ready →
      (∀ f ∈ n.slave.Slave_RxQueue.frames, Recognised f) →
      ∃ n', runNode user n calls = some n' ∧ n'.slave.Slave_RxQueue.Ready ∧
        n'.slave.Slave_TxQueue.Ready ∧
        ∀ f ∈ n'.slave.Slave_RxQueue.frames, Recognised f := by
  induction calls with
  | nil => intro n hrx htx hinv; exact ⟨n, rfl, hrx, htx, hinv⟩
  | cons c cs ih =>
    intro n hrx htx hinv
    obtain ⟨n1, h1, hrx1, htx1, hinv1⟩ := NodeCall.run_recognised user n c hkeep hrx htx hinv
    obtain ⟨n', h', hrx', htx', hinv'⟩ := ih n1 hrx1 htx1 hinv1
    exact ⟨n', by simp [runNode, h1, h'], hrx', htx', hinv'⟩

end Reach

/-- C34. Rx queue holds only recognised sensors' frames: from the statics at
program start, every sequence of calls of `CAN_Slave_FIFO0_RxMessage` (whatever
the hardware delivers) and of `CAN_Slave_FIFO0_Recieve_Cmd_Handle` (with handle
functions that do not modify the Rx queue) returns and reaches a state in which
both queues are in a regular state and every frame stored in the Rx queue has a
decoded sensor id equal to `IMU_ID` or `ENC_ID`; and in every such state a call
of `CAN_Slave_FIFO0_RxMessage` whose hardware receive fails, or that delivers a
frame with any other sensor id, or that arrives while the Rx queue holds
`CAN_QUEUE_CAPACITY` frames, leaves the Rx queue unchanged. -/
theorem rx_queue_recognised_only {U : Type} (user : Handlers U) (n : Node U)
    (calls : List NodeCall) (hstart : n.slave = Slave_zero)
    (hkeep : ∀ rx : CAN_RxQueue, rx.WF → rx.used ≠ 0 → user.Keep rx) :
    ∃ n', runNode user n calls = some n' ∧
      n'.slave.Slave_RxQueue.Ready ∧ n'.slave.Slave_TxQueue.Ready ∧
      (∀ f ∈ n'.slave.Slave_RxQueue.frames,
        getSensor_Id f.RxHeader = IMU_ID ∨ getSensor_Id f.RxHeader = ENC_ID) ∧
      (∀ (hw : Platform) (GetRxMessage : CAN_RxMessage → Nat × CAN_RxMessage),
        ((GetRxMessage n'.slave.Slave_RxMessage).1 ≠ HAL_OK ∨
          ¬ (getSensor_Id (GetRxMessage n'.slave.Slave_RxMessage).2.RxHeader = IMU_ID ∨
             getSensor_Id (GetRxMessage n'.slave.Slave_RxMessage).2.RxHeader = ENC_ID) ∨
          n'.slave.Slave_RxQueue.used = CAN_QUEUE_CAPACITY) →
        ∃ s', CAN_Slave_FIFO0_RxMessage hw GetRxMessage n'.slave = some s' ∧
          s'.Slave_RxQueue = n'.slave.Slave_RxQueue) := by
  have h0rx : n.slave.Slave_RxQueue.Ready := by
    rw [hstart]
    exact Or.inl ⟨rfl, rfl⟩
  have h0tx : n.slave.Slave_TxQueue.Ready := by
    rw [hstart]
    exact Or.inl ⟨rfl, rfl⟩
  have h0inv : ∀ f ∈ n.slave.Slave_RxQueue.frames, Recognised f := by
    rw [hstart]
    intro f hf
    exact absurd hf (List.not_mem_nil f)
  obtain ⟨n', hrun, hrx, htx, hinv⟩ := runNode_recognised user hkeep calls n h0rx h0tx h0inv
  exact ⟨n', hrun, hrx, htx, hinv,
    fun hw g h => CAN_Slave_FIFO0_RxMessage_unchanged hw g n'.slave hrx h⟩

/-- C34 on a node with the `__weak` handle functions: a frame for the unknown
sensor 2 is not stored, a start command for sensor 0 is, a failed receive stores
nothing, a reset command for sensor 1 is stored, the dispatcher removes the
start command, a stop command for sensor 1 is stored. -/
theorem rx_queue_recognised_only_witness :
    (runNode (weak_Handlers Unit) { slave := Slave_zero, user := (), invoked := [] }
        sampleCalls).map (fun n' => n'.slave.Slave_RxQueue.frames)
      = some [sampleRx 33 0 0, sampleRx 34 0 0] ∧
    ∃ n', runNode (weak_Handlers Unit) { slave := Slave_zero, user := (), invoked := [] }
        sampleCalls = some n' ∧
      ∀ f ∈ n'.slave.Slave_RxQueue.frames,
        getSensor_Id f.RxHeader = IMU_ID ∨ getSensor_Id f.RxHeader = ENC_ID := by
  refine ⟨rfl, ?_⟩
  obtain ⟨n', h, _, _, hinv, _⟩ := rx_queue_recognised_only (weak_Handlers Unit)
    { slave := Slave_zero, user := (), invoked := [] } sampleCalls rfl
    (fun rx _ _ => weak_Handlers_keep Unit rx)
  exact ⟨n', h, hinv⟩

end F103Slave
